import Mathlib

/-!
Verification development for the USPTO bulk-data ingestion pipeline.

The definitions below are a shallow embedding, into Lean, of the Python
functions of the repository (src/uspto_structured_processor.py,
src/controllers/core/uspto_controllers.py and
src/controllers/core/file_processors.py).  Python dictionaries are
modelled as ordered association lists, Python scalar values by the
inductive type `Val` (numeric values are modelled as integers; character
operations model the ASCII fragment of the Python string methods used by
the code), the relational store by lists of rows, and the on-disk
checkpoint and staging files by an explicit state record.  Fallible
operations of the store are modelled by explicit error parameters.
-/

namespace USPTO

/-! ### Python character and string primitives -/

/-- The ten decimal digit characters. -/
def digitChars : List Char := ['0', '1', '2', '3', '4', '5', '6', '7', '8', '9']

/-- A character is a decimal digit. -/
def isDigitCh (c : Char) : Bool := c ∈ digitChars

/-- Numeric value of a digit character (10 when not a digit). -/
def charVal (c : Char) : Nat := digitChars.indexOf c

/-- The digit character of `d % 10`. -/
def digitChar (d : Nat) : Char := digitChars.getD (d % 10) '0'

/-- ASCII whitespace characters stripped by `str.strip()`. -/
def spaceChars : List Char := [' ', '\t', '\n', '\r', '\x0b', '\x0c']

/-- A character counts as whitespace for `str.strip()`. -/
def isSpaceCh (c : Char) : Bool := c ∈ spaceChars

/-- ASCII upper/lower case letter pairs. -/
def asciiCasePairs : List (Char × Char) :=
  [('A', 'a'), ('B', 'b'), ('C', 'c'), ('D', 'd'), ('E', 'e'), ('F', 'f'),
   ('G', 'g'), ('H', 'h'), ('I', 'i'), ('J', 'j'), ('K', 'k'), ('L', 'l'),
   ('M', 'm'), ('N', 'n'), ('O', 'o'), ('P', 'p'), ('Q', 'q'), ('R', 'r'),
   ('S', 's'), ('T', 't'), ('U', 'u'), ('V', 'v'), ('W', 'w'), ('X', 'x'),
   ('Y', 'y'), ('Z', 'z')]

/-- Lower-case a single character (`str.lower()`, ASCII fragment). -/
def pyCharLower (c : Char) : Char :=
  ((asciiCasePairs.find? (fun p => p.1 = c)).map (·.2)).getD c

/-- Upper-case a single character (`str.upper()`, ASCII fragment). -/
def pyCharUpper (c : Char) : Char :=
  ((asciiCasePairs.find? (fun p => p.2 = c)).map (·.1)).getD c

/-- `str.strip()` on a character list. -/
def stripChars (l : List Char) : List Char :=
  ((l.dropWhile isSpaceCh).reverse.dropWhile isSpaceCh).reverse

/-- Python `s.strip()`. -/
def pyStrip (s : String) : String := ⟨stripChars s.data⟩

/-- Python `s.lower()`. -/
def pyLower (s : String) : String := ⟨s.data.map pyCharLower⟩

/-- Python `s.upper()`. -/
def pyUpper (s : String) : String := ⟨s.data.map pyCharUpper⟩

/-- Python `s.replace(a, b)` for single characters. -/
def pyReplaceChar (s : String) (a b : Char) : String :=
  ⟨s.data.map (fun c => if c = a then b else c)⟩

/-- Python `s.endswith(suf)`. -/
def pyEndsWith (s suf : String) : Bool := suf.data.isSuffixOf s.data

/-- Python `s.startswith(pre)`. -/
def pyStartsWith (s pre : String) : Bool := pre.data.isPrefixOf s.data

/-- Python `s.isdigit()` (ASCII digits). -/
def pyIsDigit (s : String) : Bool := s ≠ "" ∧ s.data.all isDigitCh

/-- Digit list of a natural number, most significant first; the fuel
(any bound on the digit count) makes the recursion structural. -/
def natDigitsAux : Nat → Nat → List Char → List Char
  | 0, _, acc => acc
  | fuel + 1, n, acc =>
    if n = 0 then acc else natDigitsAux fuel (n / 10) (digitChar (n % 10) :: acc)

/-- Python `str(n)` for a natural number. -/
def pyNatStr (n : Nat) : String :=
  if n = 0 then "0" else ⟨natDigitsAux (n + 1) n []⟩

/-- Python `str(i)` for an integer. -/
def pyIntStr (i : Int) : String :=
  if i < 0 then "-" ++ pyNatStr i.natAbs else pyNatStr i.natAbs

/-- Zero-padded two-digit decimal rendering (as in `str(datetime.date)`). -/
def pad2 (n : Nat) : List Char :=
  if n < 10 then ['0', digitChar n] else [digitChar ((n / 10) % 10), digitChar (n % 10)]

/-- Zero-padded four-digit decimal rendering (as in `str(datetime.date)`). -/
def pad4 (n : Nat) : List Char :=
  [digitChar ((n / 1000) % 10), digitChar ((n / 100) % 10),
   digitChar ((n / 10) % 10), digitChar (n % 10)]

/-- ISO rendering `YYYY-MM-DD` of a date triple, zero padded. -/
def isoOfYmd (y m d : Nat) : String :=
  ⟨pad4 y⟩ ++ "-" ++ ⟨pad2 m⟩ ++ "-" ++ ⟨pad2 d⟩

/-- Python `int(s)` on a stripped string: optional sign, then digit groups
separated by single underscores.  `Option.none` models the `ValueError`. -/
def pyIntDigits : List Char → Option Nat
  | [] => none
  | l =>
    let rec go : List Char → Option (List Char)
      | [] => some []
      | '_' :: c :: rest => if isDigitCh c then (go rest).map (c :: ·) else none
      | '_' :: [] => none
      | c :: rest => if isDigitCh c then (go rest).map (c :: ·) else none
    match go l with
    | some ds =>
      if ds = [] then none
      else if l.head? = some '_' then none
      else some (ds.foldl (fun acc c => 10 * acc + charVal c) 0)
    | none => none

/-- Python `int(s)` for a string already stripped of whitespace. -/
def pyIntOfString (s : String) : Option Int :=
  match s.data with
  | '-' :: rest => (pyIntDigits rest).map (fun n => -(n : Int))
  | '+' :: rest => (pyIntDigits rest).map (fun n => (n : Int))
  | l => (pyIntDigits l).map (fun n => (n : Int))

/-! ### Python scalar values and dictionaries -/

/-- A Python scalar value as it occurs in the pipeline records:
`none` is Python `None`, `nan` the pandas missing-value float,
`date` a `datetime.date`.  Numeric values are modelled as integers. -/
inductive Val where
  | none : Val
  | str : String → Val
  | int : Int → Val
  | bool : Bool → Val
  | nan : Val
  | date : Nat → Nat → Nat → Val
deriving DecidableEq, Repr

/-- A Python dict with string keys, as an ordered association list. -/
abbrev Rec := List (String × Val)

/-- `d[k]` lookup: value of the first (unique) binding of `k`. -/
def dictGet (r : Rec) (k : String) : Option Val :=
  (r.find? (fun p => p.1 = k)).map (·.2)

/-- Python `d.get(k, default)`. -/
def dictGetD (r : Rec) (k : String) (v : Val) : Val := (dictGet r k).getD v

/-- `d[k] = v`: update the binding in place, else append it
(Python dicts keep insertion order and update in place). -/
def dictSet (r : Rec) (k : String) (v : Val) : Rec :=
  if r.any (fun p => p.1 = k) then
    r.map (fun p => if p.1 = k then (k, v) else p)
  else r ++ [(k, v)]

/-- Keys of a record, in order. -/
def recKeys (r : Rec) : List String := r.map (·.1)

/-- A record with every binding of key `k` removed (used to compare
records up to a stamped field such as `batch_number`). -/
def stripKey (k : String) (r : Rec) : Rec := r.filter (fun p => p.1 ≠ k)

/-- `pd.isna` on the modelled values. -/
def pyIsNa : Val → Bool
  | .none => true
  | .nan => true
  | _ => false

/-- Python `str(v)` on the modelled values. -/
def pyStr : Val → String
  | .none => "None"
  | .str s => s
  | .int i => pyIntStr i
  | .bool b => if b then "True" else "False"
  | .nan => "nan"
  | .date y m d => isoOfYmd y m d

/-- Python `bool(v)` (truthiness) on the modelled values.
Note `bool(float('nan'))` is `True` in Python. -/
def pyTruthy : Val → Bool
  | .none => false
  | .str s => s ≠ ""
  | .int i => i ≠ 0
  | .bool b => b
  | .nan => true
  | .date _ _ _ => true

/-! ### Date normalization

`ProcessingController._normalize_xml_date` (uspto_controllers.py 949-960),
`TRTDXFAPProcessor._normalize_date` (file_processors.py 430-436) and
`USPTOStructuredProcessor.parse_date` (uspto_structured_processor.py 284-301).
-/

/-- Slice `s[a:b]` of a character list. -/
def slice (l : List Char) (a b : Nat) : List Char := (l.take b).drop a

/-- `ProcessingController._normalize_xml_date`: convert `YYYYMMDD` to
`YYYY-MM-DD`, `None` when invalid.  The input is stripped first. -/
def normalize_xml_date (yyyymmdd : Option String) : Option String :=
  match yyyymmdd with
  | Option.none => Option.none
  | some s0 =>
    if s0 = "" then Option.none
    else
      let s := (pyStrip s0).data
      if s.length ≠ 8 ∨ ¬ s.all isDigitCh then Option.none
      else
        let year := slice s 0 4
        let month := slice s 4 6
        let day := slice s 6 8
        if month = ['0', '0'] ∨ day = ['0', '0'] then Option.none
        else some (⟨year⟩ ++ "-" ++ ⟨month⟩ ++ "-" ++ ⟨day⟩)

/-- `TRTDXFAPProcessor._normalize_date` (also `TRTYRAGProcessor._norm`):
same conversion but without the initial strip. -/
def trt_normalize_date (s? : Option String) : Option String :=
  match s? with
  | Option.none => Option.none
  | some s0 =>
    if s0 = "" then Option.none
    else
      let s := s0.data
      if s.length ≠ 8 ∨ ¬ s.all isDigitCh then Option.none
      else
        let y := slice s 0 4
        let m := slice s 4 6
        let d := slice s 6 8
        if m = ['0', '0'] ∨ d = ['0', '0'] then Option.none
        else some (⟨y⟩ ++ "-" ++ ⟨m⟩ ++ "-" ++ ⟨d⟩)

/-- CPython `_strptime` directive `%m`: alternatives `1[0-2]`, `0[1-9]`,
`[1-9]`, in regex preference order; each candidate is the parsed month
with the unconsumed characters. -/
def monthAlts : List Char → List (Nat × List Char)
  | c1 :: c2 :: rest =>
    (if c1 = '1' ∧ c2 ∈ ['0', '1', '2'] then [(10 + charVal c2, rest)] else []) ++
    (if c1 = '0' ∧ c2 ∈ digitChars.drop 1 then [(charVal c2, rest)] else []) ++
    (if c1 ∈ digitChars.drop 1 then [(charVal c1, c2 :: rest)] else [])
  | [c1] => if c1 ∈ digitChars.drop 1 then [(charVal c1, [])] else []
  | [] => []

/-- CPython `_strptime` directive `%d`: alternatives `3[01]`, `[12]\d`,
`0[1-9]`, `[1-9]`, in regex preference order. -/
def dayAlts : List Char → List (Nat × List Char)
  | c1 :: c2 :: rest =>
    (if c1 = '3' ∧ c2 ∈ ['0', '1'] then [(30 + charVal c2, rest)] else []) ++
    (if c1 ∈ ['1', '2'] ∧ isDigitCh c2 then [(10 * charVal c1 + charVal c2, rest)] else []) ++
    (if c1 = '0' ∧ c2 ∈ digitChars.drop 1 then [(charVal c2, rest)] else []) ++
    (if c1 ∈ digitChars.drop 1 then [(charVal c1, c2 :: rest)] else [])
  | [c1] => if c1 ∈ digitChars.drop 1 then [(charVal c1, [])] else []
  | [] => []

/-- CPython `_strptime` directive `%Y`: exactly four digits. -/
def year4 : List Char → Option (Nat × List Char)
  | a :: b :: c :: d :: rest =>
    if isDigitCh a ∧ isDigitCh b ∧ isDigitCh c ∧ isDigitCh d then
      some (1000 * charVal a + 100 * charVal b + 10 * charVal c + charVal d, rest)
    else Option.none
  | _ => Option.none

/-- Expect a literal character. -/
def lit (c : Char) : List Char → Option (List Char)
  | c1 :: rest => if c1 = c then some rest else Option.none
  | [] => Option.none

/-- `strptime(s, grammar)` with full-match and regex backtracking order:
format `%Y%m%d`. -/
def matchYmd (cs : List Char) : Option (Nat × Nat × Nat) :=
  (year4 cs).bind fun yr =>
    (monthAlts yr.2).findSome? fun mr =>
      (dayAlts mr.2).findSome? fun dr =>
        if dr.2 = [] then some (yr.1, mr.1, dr.1) else Option.none

/-- `strptime` format `%Y-%m-%d`. -/
def matchYmdDash (cs : List Char) : Option (Nat × Nat × Nat) :=
  (year4 cs).bind fun yr =>
    (lit '-' yr.2).bind fun r1 =>
      (monthAlts r1).findSome? fun mr =>
        (lit '-' mr.2).bind fun r2 =>
          (dayAlts r2).findSome? fun dr =>
            if dr.2 = [] then some (yr.1, mr.1, dr.1) else Option.none

/-- `strptime` format `%m/%d/%Y`. -/
def matchMdy (cs : List Char) : Option (Nat × Nat × Nat) :=
  (monthAlts cs).findSome? fun mr =>
    (lit '/' mr.2).bind fun r1 =>
      (dayAlts r1).findSome? fun dr =>
        (lit '/' dr.2).bind fun r2 =>
          (year4 r2).bind fun yr =>
            if yr.2 = [] then some (yr.1, mr.1, dr.1) else Option.none

/-- A leap year, per the Gregorian rule used by `datetime`. -/
def isLeap (y : Nat) : Bool := y % 4 = 0 ∧ (y % 100 ≠ 0 ∨ y % 400 = 0)

/-- Days in a month, per `datetime`. -/
def daysInMonth (y m : Nat) : Nat :=
  if m = 2 then (if isLeap y then 29 else 28)
  else if m ∈ [4, 6, 9, 11] then 30 else 31

/-- The `datetime.date(y, m, d)` constructor accepts the triple
(months are already within 1-12 and days within 1-31 by the regex;
the constructor additionally enforces the year range and month length). -/
def dateCtorOk (y m d : Nat) : Bool :=
  1 ≤ y ∧ y ≤ 9999 ∧ 1 ≤ m ∧ m ≤ 12 ∧ 1 ≤ d ∧ d ≤ daysInMonth y m

/-- One `datetime.strptime(s, fmt).date()` attempt: a regex match whose date
is rejected by the constructor raises `ValueError` (yields `Option.none`). -/
def tryFormat (f : List Char → Option (Nat × Nat × Nat)) (cs : List Char) :
    Option (Nat × Nat × Nat) :=
  match f cs with
  | some (y, m, d) => if dateCtorOk y m d then some (y, m, d) else Option.none
  | Option.none => Option.none

/-- `USPTOStructuredProcessor.parse_date`: strip characters other than
digits, `/` and `-`, then try `%Y%m%d`, `%Y-%m-%d`, `%m/%d/%Y` in order. -/
def parse_date (date_str : Option String) : Option (Nat × Nat × Nat) :=
  match date_str with
  | Option.none => Option.none
  | some s =>
    if s = "" then Option.none
    else
      let cs := s.data.filter (fun c => isDigitCh c ∨ c = '/' ∨ c = '-')
      match tryFormat matchYmd cs with
      | some d => some d
      | Option.none =>
        match tryFormat matchYmdDash cs with
        | some d => some d
        | Option.none => tryFormat matchMdy cs

/-! ### Field normalization (`ProcessingController`, uspto_controllers.py) -/

/-- Key cleaning used by `_map_column_names` and `_map_insert_columns`:
`key.strip().lower().replace(' ', '_').replace('-', '_')`. -/
def cleanKey (k : String) : String :=
  pyReplaceChar (pyReplaceChar (pyLower (pyStrip k)) ' ' '_') '-' '_'

/-- The column alias table of `ProcessingController._map_column_names`
(uspto_controllers.py 639-676). -/
def ctrlColumnMappings : List (String × String) :=
  [("file_location", "file_location_cd"),
   ("exm_attorney_name", "exm_attorney_name"),
   ("filing_dt", "filing_dt"),
   ("publication_dt", "publication_dt"),
   ("registration_dt", "registration_dt"),
   ("registration_no", "registration_number"),
   ("serial_no", "serial_no"),
   ("serial_number", "serial_no"),
   ("filing_date", "filing_dt"),
   ("registration_date", "registration_dt"),
   ("mark_identification", "mark_id_char"),
   ("mark_drawing_code", "mark_draw_cd"),
   ("abandon_date", "abandon_dt"),
   ("amend_registration_date", "amend_reg_dt"),
   ("reg_cancel_code", "reg_cancel_cd"),
   ("reg_cancel_date", "reg_cancel_dt"),
   ("examiner_attorney_name", "exm_attorney_name"),
   ("file_location_date", "file_location_dt"),
   ("publication_date", "publication_dt"),
   ("renewal_date", "renewal_dt"),
   ("repub_12c_date", "repub_12c_dt"),
   ("cfh_status_code", "cfh_status_cd"),
   ("cfh_status_date", "cfh_status_dt"),
   ("ir_auto_registration_date", "ir_auto_reg_dt"),
   ("ir_first_refusal_in", "ir_first_refus_in"),
   ("ir_death_date", "ir_death_dt"),
   ("ir_publication_date", "ir_publication_dt"),
   ("ir_registration_date", "ir_registration_dt"),
   ("ir_registration_number", "ir_registration_no"),
   ("ir_renewal_date", "ir_renewal_dt"),
   ("ir_status_code", "ir_status_cd"),
   ("ir_status_date", "ir_status_dt"),
   ("ir_priority_date", "ir_priority_dt")]

/-- Look up an alias table. -/
def aliasLookup (m : List (String × String)) (k : String) : Option String :=
  (m.find? (fun p => p.1 = k)).map (·.2)

/-- Cleaned-and-aliased form of one key under `_map_column_names`. -/
def mapKeyCtrl (k : String) : String :=
  (aliasLookup ctrlColumnMappings (cleanKey k)).getD (cleanKey k)

/-- `ProcessingController._map_column_names`. -/
def map_column_names (record : Rec) : Rec :=
  record.foldl (fun acc kv => dictSet acc (mapKeyCtrl kv.1) kv.2) []

/-- The TRCFECO2-specific alias table of `_map_trcfeco2_columns`. -/
def trcfColumnMappings : List (String × String) :=
  [("mark_id_char", "mark_identification"),
   ("registration_no", "registration_number"),
   ("filing_dt", "filing_date"),
   ("registration_dt", "registration_date")]

/-- `ProcessingController._map_trcfeco2_columns`: rename the four mapped
columns, drop `file_location`, keep everything else verbatim. -/
def map_trcfeco2_columns (record : Rec) : Rec :=
  record.foldl (fun acc kv =>
    match aliasLookup trcfColumnMappings kv.1 with
    | some m => dictSet acc m kv.2
    | Option.none => if kv.1 = "file_location" then acc else dictSet acc kv.1 kv.2) []

/-- Columns parsed as integers by `_convert_value`. -/
def intColumns : List String :=
  ["serial_no", "registration_number", "registration_no", "tad_file_id",
   "cfh_status_cd", "mark_draw_cd"]

/-- `ProcessingController._convert_value`: coerce a value by column-name
convention.  The `except` branch of the source (a failing `int(...)`)
yields `Val.none`.  No modelled value has a `.date()` method (pandas
timestamps do not occur in this flow), so that test is always false. -/
def convert_value (value : Val) (column_name : String) : Val :=
  if pyEndsWith column_name "_in" then
    if pyIsNa value then .none
    else match value with
      | .int n => .bool (n ≠ 0)
      | .bool b => .bool b
      | v =>
        if pyLower (pyStr v) ∈ ["true", "1", "1.0", "yes", "y"] then .bool true
        else if pyLower (pyStr v) ∈ ["false", "0", "0.0", "no", "n"] then .bool false
        else .none
  else if pyEndsWith column_name "_dt" ∨ pyEndsWith column_name "_date" then
    if pyIsNa value then .none
    else match value with
      | .str s =>
        if pyStrip s = "" ∨ pyStrip s = "0000-00-00" then .none else .str (pyStrip s)
      | _ => .none
  else if column_name ∈ intColumns then
    if pyIsNa value then .none
    else match value with
      | .int n => .int n
      | .bool b => .int (if b then 1 else 0)
      | v =>
        let str_val := pyStrip (pyStr v)
        if str_val ≠ "" ∧ str_val ≠ "nan" then
          match pyIntOfString str_val with
          | some n => .int n
          | Option.none => .none
        else .none
  else
    if pyIsNa value then .none
    else if pyStrip (pyStr value) ≠ "" then .str (pyStrip (pyStr value)) else .none

/-- The per-entry value cleaning of `_clean_record` (uspto_controllers.py
574-597): missing-value and empty checks, then `_convert_value`, then the
final empty-string check. -/
def cleanEntryValue (key : String) (value : Val) : Val :=
  if pyIsNa value then .none
  else
    let sv := pyStrip (pyStr value)
    if sv = "" ∨ pyLower sv ∈ ["nan", "none", "null"] then .none
    else if (pyEndsWith key "_dt" ∨ pyEndsWith key "_date") ∧
        (sv = "" ∨ sv ∈ ["", "0000-00-00", "nan"]) then .none
    else
      match convert_value value key with
      | .str cs => if pyStrip cs = "" then .none else .str cs
      | v => v

/-- `ProcessingController._clean_record`: alias mapping, per-entry value
cleaning, then the two metadata fields. -/
def clean_record (product_id : String) (record : Rec) : Rec :=
  let mapped :=
    if product_id = "TRCFECO2" then map_trcfeco2_columns record
    else map_column_names record
  let cleaned := mapped.map (fun kv => (kv.1, cleanEntryValue kv.1 kv.2))
  dictSet (dictSet cleaned "data_source" (.str (product_id ++ " [CSV]")))
    "batch_number" (.int 0)

/-! ### Field normalization (`USPTOFileProcessor`, file_processors.py) -/

/-- A character kept verbatim by `re.sub(r"[^a-zA-Z0-9_]", "_", name)`. -/
def isWordCh (c : Char) : Bool :=
  isDigitCh c ∨ c ∈ asciiCasePairs.map (·.1) ∨ c ∈ asciiCasePairs.map (·.2) ∨ c = '_'

/-- Dropping a matching run never lengthens a list. -/
theorem length_dropWhile_le (p : α → Bool) (l : List α) :
    (l.dropWhile p).length ≤ l.length := by
  induction l with
  | nil => simp [List.dropWhile]
  | cons a t ih =>
    simp only [List.dropWhile]
    split
    · exact Nat.le_succ_of_le ih
    · simp

/-- Collapse runs of underscores (`re.sub(r"_+", "_", s)`); the fuel
(any bound on the list length) makes the recursion structural. -/
def collapseUndFuel : Nat → List Char → List Char
  | 0, l => l
  | _ + 1, [] => []
  | fuel + 1, c :: rest =>
    if c = '_' then '_' :: collapseUndFuel fuel (rest.dropWhile (fun x => x = '_'))
    else c :: collapseUndFuel fuel rest

/-- Collapse runs of underscores (`re.sub(r"_+", "_", s)`). -/
def collapseUnd (l : List Char) : List Char := collapseUndFuel l.length l

/-- Python `s.strip(c)` for one character. -/
def stripCharEnds (c : Char) (l : List Char) : List Char :=
  ((l.dropWhile (fun x => x = c)).reverse.dropWhile (fun x => x = c)).reverse

/-- `USPTOFileProcessor._clean_column_name`. -/
def fp_clean_column_name (column_name : String) : String :=
  pyLower ⟨stripCharEnds '_'
    (collapseUnd (column_name.data.map (fun c => if isWordCh c then c else '_')))⟩

/-- The column alias table shared (verbatim) by
`USPTOFileProcessor._map_column_names` (file_processors.py 58-86) and
`DatabaseController._map_insert_columns` (uspto_controllers.py 1503-1531). -/
def genericColumnMappings : List (String × String) :=
  [("serial_number", "serial_no"),
   ("filing_date", "filing_dt"),
   ("registration_date", "registration_dt"),
   ("mark_identification", "mark_id_char"),
   ("mark_drawing_code", "mark_draw_cd"),
   ("abandon_date", "abandon_dt"),
   ("amend_registration_date", "amend_reg_dt"),
   ("reg_cancel_code", "reg_cancel_cd"),
   ("reg_cancel_date", "reg_cancel_dt"),
   ("examiner_attorney_name", "exm_attorney_name"),
   ("file_location_date", "file_location_dt"),
   ("publication_date", "publication_dt"),
   ("renewal_date", "renewal_dt"),
   ("repub_12c_date", "repub_12c_dt"),
   ("cfh_status_code", "cfh_status_cd"),
   ("cfh_status_date", "cfh_status_dt"),
   ("ir_auto_registration_date", "ir_auto_reg_dt"),
   ("ir_first_refusal_in", "ir_first_refus_in"),
   ("ir_death_date", "ir_death_dt"),
   ("ir_publication_date", "ir_publication_dt"),
   ("ir_registration_date", "ir_registration_dt"),
   ("ir_registration_number", "ir_registration_no"),
   ("ir_renewal_date", "ir_renewal_dt"),
   ("ir_status_code", "ir_status_cd"),
   ("ir_status_date", "ir_status_dt"),
   ("ir_priority_date", "ir_priority_dt")]

/-- `USPTOFileProcessor._map_column_names`. -/
def fp_map_column_names (record : Rec) : Rec :=
  record.foldl (fun acc kv =>
    let ck := fp_clean_column_name kv.1
    match aliasLookup genericColumnMappings ck with
    | some m => dictSet acc m kv.2
    | Option.none => dictSet acc ck kv.2) []

/-- `USPTOFileProcessor._clean_record` (file_processors.py 31-52).
`now` models `datetime.now().isoformat()`. -/
def fp_clean_record (product_id now : String) (record : Rec) : Rec :=
  let mapped := fp_map_column_names record
  let cleaned := mapped.map (fun kv =>
    (kv.1,
      match kv.2 with
      | .none => Val.none
      | .str s => if s = "" then Val.none else .str (pyStrip s)
      | v => v))
  dictSet (dictSet (dictSet cleaned "data_source" (.str (product_id ++ "_file")))
    "file_hash" .none) "processing_timestamp" (.str now)

/-! ### Tabular stream parsing -/

/-- Chunk splitting with explicit fuel (any bound on the list length),
keeping the recursion structural. -/
def chunksOfFuel : Nat → Nat → List α → List (List α)
  | _, _, [] => []
  | 0, _, l => [l]
  | fuel + 1, n, l =>
    if n = 0 then [l]
    else l.take n :: chunksOfFuel fuel n (l.drop n)

/-- Splitting a row list into pandas chunks of `n` rows. -/
def chunksOf (n : Nat) (l : List α) : List (List α) := chunksOfFuel l.length n l

/-- Chunk loop of `ProcessingController._process_large_csv_file`
(uspto_controllers.py 384-417): the record buffer is reset at the top of
every chunk and only tested against the batch size once per chunk. -/
def ctrlCsvGo (bs : Nat) (product_id : String) :
    List (List Rec) → List Rec → List (List Rec)
  | [], cur => if cur ≠ [] then [cur] else []
  | chunk :: rest, _cur =>
    let batch_records := (chunk.map (clean_record product_id)).filter (fun r => r ≠ [])
    if bs ≤ batch_records.length then batch_records :: ctrlCsvGo bs product_id rest []
    else ctrlCsvGo bs product_id rest batch_records

/-- `ProcessingController._process_large_csv_file`: the rows of the file,
as read by pandas in chunks of `min chunk_size 50000`. -/
def process_large_csv_ctrl (batch_size chunk_size : Nat) (product_id : String)
    (rows : List Rec) : List (List Rec) :=
  ctrlCsvGo batch_size product_id (chunksOf (min chunk_size 50000) rows) []

/-- Specification-side characterization of the controller CSV batcher,
to be compared with `ctrlCsvGo`: each chunk's cleaned records form one
candidate batch; a non-final chunk's batch is emitted only when it
reaches `batch_size` (otherwise its records are dropped by the reset),
while the final chunk's batch is always emitted when non-empty. -/
def ctrlBatchesSpec (bs : Nat) (product_id : String) :
    List (List Rec) → List (List Rec)
  | [] => []
  | [c] =>
    let b := (c.map (clean_record product_id)).filter (fun r => r ≠ [])
    if bs ≤ b.length then [b] else if b ≠ [] then [b] else []
  | c :: c2 :: rest =>
    let b := (c.map (clean_record product_id)).filter (fun r => r ≠ [])
    (if bs ≤ b.length then [b] else []) ++ ctrlBatchesSpec bs product_id (c2 :: rest)

/-- Row loop of `CSVProcessor._process_large_csv_file` for one chunk
(file_processors.py 158-177): batches are flushed when full and the
remainder of the chunk is flushed at the chunk boundary.  Returns the
batches emitted by the chunk and the next batch number. -/
def fpChunkGo (bs : Nat) (product_id now : String) :
    List Rec → List Rec → Nat → List (List Rec) × Nat
  | [], cur, bn => if cur ≠ [] then ([cur], bn + 1) else ([], bn)
  | row :: rest, cur, bn =>
    let cleaned := dictSet (fp_clean_record product_id now row) "batch_number" (.int bn)
    let cur2 := cur ++ [cleaned]
    if bs ≤ cur2.length then
      let r := fpChunkGo bs product_id now rest [] (bn + 1)
      (cur2 :: r.1, r.2)
    else fpChunkGo bs product_id now rest cur2 bn

/-- Chunk loop of `CSVProcessor._process_large_csv_file`. -/
def fpCsvGo (bs : Nat) (product_id now : String) :
    List (List Rec) → Nat → List (List Rec)
  | [], _ => []
  | chunk :: rest, bn =>
    let r := fpChunkGo bs product_id now chunk [] bn
    r.1 ++ fpCsvGo bs product_id now rest r.2

/-- `CSVProcessor._process_large_csv_file`. -/
def process_large_csv_fp (batch_size chunk_size : Nat) (product_id now : String)
    (rows : List Rec) : List (List Rec) :=
  fpCsvGo batch_size product_id now (chunksOf (min chunk_size 50000) rows) 0

/-! ### Hierarchical (XML) stream parsing

An `ElementTree` element: the tag is the raw tag string (for a document
with namespaces, `ElementTree` stores Clark notation, a `\x7buri\x7d` prefix
followed by the local name). -/

inductive XmlElem where
  | mk (tag : String) (text : Option String) (children : List XmlElem)
deriving Repr

/-- Raw tag of an element. -/
def XmlElem.tag : XmlElem → String
  | .mk t _ _ => t

/-- Text of an element (`None` or the raw text). -/
def XmlElem.text : XmlElem → Option String
  | .mk _ t _ => t

/-- Direct children of an element, in document order. -/
def XmlElem.children : XmlElem → List XmlElem
  | .mk _ _ c => c

mutual

/-- Decidable equality of elements. -/
def xmlElemDecEq : (a b : XmlElem) → Decidable (a = b)
  | .mk t1 x1 c1, .mk t2 x2 c2 =>
    match decEq t1 t2, decEq x1 x2, xmlElemListDecEq c1 c2 with
    | isTrue h1, isTrue h2, isTrue h3 => isTrue (by rw [h1, h2, h3])
    | isFalse h1, _, _ => isFalse (by intro h; cases h; exact h1 rfl)
    | _, isFalse h2, _ => isFalse (by intro h; cases h; exact h2 rfl)
    | _, _, isFalse h3 => isFalse (by intro h; cases h; exact h3 rfl)

/-- Decidable equality of element lists. -/
def xmlElemListDecEq : (a b : List XmlElem) → Decidable (a = b)
  | [], [] => isTrue rfl
  | [], _ :: _ => isFalse (by intro h; cases h)
  | _ :: _, [] => isFalse (by intro h; cases h)
  | a :: as, b :: bs =>
    match xmlElemDecEq a b, xmlElemListDecEq as bs with
    | isTrue h1, isTrue h2 => isTrue (by rw [h1, h2])
    | isFalse h1, _ => isFalse (by intro h; cases h; exact h1 rfl)
    | _, isFalse h2 => isFalse (by intro h; cases h; exact h2 rfl)

end

instance : DecidableEq XmlElem := xmlElemDecEq

/-- `element.find(tag)`: first direct child with the tag. -/
def elemFind (e : XmlElem) (t : String) : Option XmlElem :=
  e.children.find? (fun c => c.tag = t)

/-- `element.findall(tag)`: all direct children with the tag. -/
def elemFindAll (e : XmlElem) (t : String) : List XmlElem :=
  e.children.filter (fun c => c.tag = t)

mutual

/-- All proper descendants of an element, in document order. -/
def descendants : XmlElem → List XmlElem
  | .mk _ _ children => descList children

/-- Descendants-or-self of a sibling list, in document order. -/
def descList : List XmlElem → List XmlElem
  | [] => []
  | c :: rest => c :: (descendants c ++ descList rest)

end

/-- `element.findall(".//tag")`: descendants with the tag, document order. -/
def findAllDesc (e : XmlElem) (t : String) : List XmlElem :=
  (descendants e).filter (fun c => c.tag = t)

/-- `element.find(".//t0/t1/...")`: descendant step then child steps. -/
def findPathDesc (e : XmlElem) (t0 : String) (steps : List String) : Option XmlElem :=
  (steps.foldl (fun cur t => cur.flatMap (fun x => x.children.filter (fun c => c.tag = t)))
    (findAllDesc e t0)).head?

/-- `ProcessingController._get_xml_text` (also the `_get_text`/`_text`
helpers of file_processors.py): stripped text, `None` when missing,
empty or whitespace. -/
def getXmlText (element : Option XmlElem) : Option String :=
  match element with
  | some e =>
    match e.text with
    | some t => if t ≠ "" ∧ pyStrip t ≠ "" then some (pyStrip t) else Option.none
    | Option.none => Option.none
  | Option.none => Option.none

/-- An optional string as a record value. -/
def optStr : Option String → Val
  | some s => .str s
  | Option.none => .none

/-- The T/F flag normalization of `_extract_case_file_record`:
`'T' if (v and v.upper().startswith('T')) else 'F' if v else None`. -/
def tfFlag (v : Option String) : Val :=
  match v with
  | some s => if pyStartsWith (pyUpper s) "T" then .str "T" else .str "F"
  | Option.none => .none

/-- Numeric value of a digit string (`int` on an `isdigit` string). -/
def natOfDigits (l : List Char) : Nat :=
  l.foldl (fun acc c => 10 * acc + charVal c) 0

/-- `ProcessingController._extract_case_file_record` (uspto_controllers.py
864-941): case-file application record for TRTDXFAP/TRTYRAP. -/
def extract_case_file_record (product_id : String) (case_elem : XmlElem) : Rec :=
  let r : Rec := []
  let r := dictSet r "serial_no" (optStr (getXmlText (elemFind case_elem "serial-number")))
  let reg_no := getXmlText (elemFind case_elem "registration-number")
  let r := dictSet r "registration_number"
    (if reg_no = some "0000000" then Val.none else optStr reg_no)
  let r :=
    match elemFind case_elem "case-file-header" with
    | some header =>
      let htext := fun (t : String) => getXmlText (elemFind header t)
      let r := dictSet r "filing_date" (optStr (normalize_xml_date (htext "filing-date")))
      let r := dictSet r "registration_date" (optStr (normalize_xml_date (htext "registration-date")))
      let r := dictSet r "status_code" (optStr (htext "status-code"))
      let r := dictSet r "status_date" (optStr (normalize_xml_date (htext "status-date")))
      let r := dictSet r "mark_identification" (optStr (htext "mark-identification"))
      let r := dictSet r "mark_drawing_code" (optStr (htext "mark-drawing-code"))
      let r := dictSet r "publication_dt" (optStr (normalize_xml_date (htext "published-for-opposition-date")))
      let r := dictSet r "renewal_dt" (optStr (normalize_xml_date (htext "renewal-date")))
      let r := dictSet r "exm_office_cd" (optStr (htext "law-office-assigned-location-code"))
      let r := dictSet r "trade_mark_in" (tfFlag (htext "trademark-in"))
      let r := dictSet r "coll_trade_mark_in" (tfFlag (htext "collective-trademark-in"))
      let r := dictSet r "serv_mark_in" (tfFlag (htext "service-mark-in"))
      let r := dictSet r "coll_serv_mark_in" (tfFlag (htext "collective-service-mark-in"))
      let r := dictSet r "coll_memb_mark_in" (tfFlag (htext "collective-membership-mark-in"))
      let r := dictSet r "cert_mark_in" (tfFlag (htext "certification-mark-in"))
      let r := dictSet r "cancel_pend_in" (tfFlag (htext "cancellation-pending-in"))
      let r := dictSet r "concur_use_pub_in" (tfFlag (htext "published-concurrent-in"))
      let r := dictSet r "concur_use_in" (tfFlag (htext "concurrent-use-in"))
      let r := dictSet r "concur_use_pend_in" (tfFlag (htext "concurrent-use-proceeding-in"))
      let r := dictSet r "interfer_pend_in" (tfFlag (htext "interference-pending-in"))
      let r := dictSet r "opposit_pend_in" (tfFlag (htext "opposition-pending-in"))
      let r := dictSet r "repub_12c_in" (tfFlag (htext "section-12c-in"))
      let r := dictSet r "std_char_claim_in" (tfFlag (htext "standard-characters-claimed-in"))
      let r := dictSet r "for_priority_in" (tfFlag (htext "foreign-priority-in"))
      let r := dictSet r "lb_itu_file_in" (tfFlag (htext "intent-to-use-in"))
      let r := dictSet r "lb_itu_cur_in" (tfFlag (htext "intent-to-use-current-in"))
      let r := dictSet r "lb_use_file_in" (tfFlag (htext "filed-as-use-application-in"))
      let r := dictSet r "lb_use_cur_in" (tfFlag (htext "use-application-currently-in"))
      let r := dictSet r "amend_supp_reg_in" (tfFlag (htext "supplemental-register-amended-in"))
      let r := dictSet r "supp_reg_in" (tfFlag (htext "supplemental-register-in"))
      let r := dictSet r "amend_principal_in" (tfFlag (htext "principal-register-amended-in"))
      let r := dictSet r "renewal_file_in" (tfFlag (htext "renewal-filed-in"))
      let r := dictSet r "draw_color_file_in" (tfFlag (htext "color-drawing-filed-in"))
      let r := dictSet r "draw_color_cur_in" (tfFlag (htext "color-drawing-current-in"))
      let r := dictSet r "draw_3d_file_in" (tfFlag (htext "drawing-3d-filed-in"))
      let r := dictSet r "draw_3d_cur_in" (tfFlag (htext "drawing-3d-current-in"))
      r
    | Option.none => r
  let r :=
    match elemFind case_elem "international-registration" with
    | some intl =>
      let itext := fun (t : String) => getXmlText (elemFind intl t)
      let r := dictSet r "ir_registration_no" (optStr (itext "international-registration-number"))
      let r := dictSet r "ir_registration_dt" (optStr (normalize_xml_date (itext "international-registration-date")))
      let r := dictSet r "ir_publication_dt" (optStr (normalize_xml_date (itext "international-publication-date")))
      let r := dictSet r "ir_renewal_dt" (optStr (normalize_xml_date (itext "international-renewal-date")))
      let r := dictSet r "ir_auto_reg_dt" (optStr (normalize_xml_date (itext "auto-protection-date")))
      let r := dictSet r "ir_status_cd" (optStr (itext "international-status-code"))
      let r := dictSet r "ir_status_dt" (optStr (normalize_xml_date (itext "international-status-date")))
      let r := dictSet r "ir_priority_in" (tfFlag (itext "priority-claimed-in"))
      let r := dictSet r "ir_priority_dt" (optStr (normalize_xml_date (itext "priority-claimed-date")))
      let r := dictSet r "ir_first_refus_in" (tfFlag (itext "first-refusal-in"))
      r
    | Option.none => r
  let r := dictSet r "data_source" (.str (product_id ++ " [XML]"))
  dictSet r "batch_number" (.int 0)

/-- `ProcessingController._extract_assignment_record` (uspto_controllers.py
772-862): assignment record; only the first assignor, assignee and
property are taken. -/
def extract_assignment_record_ctrl (product_id : String) (assignment_elem : XmlElem) : Rec :=
  let r : Rec := []
  let r :=
    match elemFind assignment_elem "assignment" with
    | some assignment =>
      let atext := fun (t : String) => getXmlText (elemFind assignment t)
      let r := dictSet r "reel_no" (optStr (atext "reel-no"))
      let r := dictSet r "frame_no" (optStr (atext "frame-no"))
      let r := dictSet r "date_recorded" (optStr (normalize_xml_date (atext "date-recorded")))
      let r := dictSet r "conveyance_text" (optStr (atext "conveyance-text"))
      let r := dictSet r "last_update_date" (optStr (normalize_xml_date (atext "last-update-date")))
      let r := dictSet r "purge_indicator" (optStr (atext "purge-indicator"))
      let r := dictSet r "page_count"
        (match atext "page-count" with
         | some pc => if pyIsDigit pc then .int (natOfDigits pc.data) else Val.none
         | Option.none => Val.none)
      match elemFind assignment "correspondent" with
      | some correspondent =>
        let ctext := fun (t : String) => getXmlText (elemFind correspondent t)
        let r := dictSet r "correspondent_name" (optStr (ctext "person-or-organization-name"))
        let addr1 := ctext "address-1"
        let addr2 := ctext "address-2"
        let addr3 := ctext "address-3"
        let addr4 := ctext "address-4"
        let r := dictSet r "correspondent_address_1" (optStr addr1)
        let r := dictSet r "correspondent_address_2" (optStr addr2)
        let merged :=
          if addr3.isSome ∨ addr4.isSome then
            some (String.intercalate ", " ([addr3, addr4].filterMap id))
          else Option.none
        dictSet r "correspondent_address_3" (optStr merged)
      | Option.none => r
    | Option.none => r
  let r :=
    match (elemFind assignment_elem "assignors").bind (fun a => elemFind a "assignor") with
    | some assignor =>
      let stext := fun (t : String) => getXmlText (elemFind assignor t)
      let r := dictSet r "assignor_name" (optStr (stext "person-or-organization-name"))
      let parts := [stext "address-1", stext "address-2", stext "city", stext "state", stext "postcode"]
      dictSet r "assignor_address"
        (if parts.any (·.isSome) then .str (String.intercalate ", " (parts.filterMap id)) else Val.none)
    | Option.none => r
  let r :=
    match (elemFind assignment_elem "assignees").bind (fun a => elemFind a "assignee") with
    | some assignee =>
      let stext := fun (t : String) => getXmlText (elemFind assignee t)
      let r := dictSet r "assignee_name" (optStr (stext "person-or-organization-name"))
      let parts := [stext "address-1", stext "address-2", stext "city", stext "state", stext "postcode"]
      dictSet r "assignee_address"
        (if parts.any (·.isSome) then .str (String.intercalate ", " (parts.filterMap id)) else Val.none)
    | Option.none => r
  let r :=
    match (elemFind assignment_elem "properties").bind (fun p => elemFind p "property") with
    | some property_elem =>
      let ptext := fun (t : String) => getXmlText (elemFind property_elem t)
      let r := dictSet r "serial_no" (optStr (ptext "serial-no"))
      let r := dictSet r "registration_number" (optStr (ptext "registration-no"))
      let r := dictSet r "intl_reg_no" (optStr (ptext "intl-reg-no"))
      match elemFind property_elem "trademark-law-treaty-property" with
      | some tlt =>
        let r := dictSet r "tlt_mark_name" (optStr (getXmlText (elemFind tlt "tlt-mark-name")))
        dictSet r "tlt_mark_description" (optStr (getXmlText (elemFind tlt "tlt-mark-description")))
      | Option.none => r
    | Option.none => r
  let r :=
    if pyTruthy (dictGetD r "reel_no" .none) ∧ pyTruthy (dictGetD r "frame_no" .none) then
      dictSet r "assignment_id"
        (.str (pyStr (dictGetD r "reel_no" .none) ++ "-" ++ pyStr (dictGetD r "frame_no" .none)))
    else r
  let r := dictSet r "data_source" (.str (product_id ++ " [XML]"))
  dictSet r "batch_number" (.int 0)

/-- `ProcessingController._extract_record` (uspto_controllers.py 743-770):
dispatch on product and tag; the default branch takes every direct child
text value. -/
def extract_record (product_id : String) (element : XmlElem) : Rec :=
  if product_id ∈ ["TRTYRAG", "TRTDXFAG"] ∧ element.tag = "assignment-entry" then
    extract_assignment_record_ctrl product_id element
  else if product_id ∈ ["TRTDXFAP", "TRTYRAP"] ∧ element.tag = "case-file" then
    extract_case_file_record product_id element
  else
    let base := element.children.foldl (fun acc child =>
      match child.text with
      | some t =>
        if t ≠ "" ∧ pyStrip t ≠ "" then
          dictSet acc (pyLower (pyReplaceChar child.tag '-' '_')) (.str (pyStrip t))
        else acc
      | Option.none => acc) []
    dictSet (dictSet base "data_source" (.str (product_id ++ " [XML]"))) "batch_number" (.int 0)

/-- The per-product target element table of
`ProcessingController._get_target_elements`. -/
def element_mapping : List (String × List String) :=
  [("TRTYRAG", ["assignment-entry"]),
   ("TRTDXFAG", ["assignment-entry"]),
   ("TRTDXFAP", ["case-file", "trademark-application"]),
   ("TRTYRAP", ["case-file", "trademark-application"]),
   ("TTABTDXF", ["proceeding", "ttab-proceeding"]),
   ("TTABYR", ["proceeding", "ttab-proceeding"])]

/-- `ProcessingController._get_target_elements` (uspto_controllers.py
549-560). -/
def target_elements (product_id : String) : List String :=
  (((element_mapping.find? (fun p => p.1 = product_id)).map (·.2)).getD ["record", "item"])

/-- Element loop of `ProcessingController._process_large_xml_iteratively`
(uspto_controllers.py 485-510): `elems` is the stream of elements visited
by `iterparse` end events; an element is matched when its raw tag is in
the target list. -/
def xmlGo (bs : Nat) (product_id : String) (targets : List String) :
    List XmlElem → List Rec → List (List Rec)
  | [], batch => if batch ≠ [] then [batch] else []
  | e :: rest, batch =>
    if e.tag ∈ targets then
      let record := extract_record product_id e
      if record ≠ [] then
        let batch2 := batch ++ [record]
        if bs ≤ batch2.length then batch2 :: xmlGo bs product_id targets rest []
        else xmlGo bs product_id targets rest batch2
      else xmlGo bs product_id targets rest batch
    else xmlGo bs product_id targets rest batch

/-- `ProcessingController._process_large_xml_iteratively`. -/
def process_large_xml_ctrl (batch_size : Nat) (product_id : String)
    (elems : List XmlElem) : List (List Rec) :=
  xmlGo batch_size product_id (target_elements product_id) elems []

/-- The local name of a raw tag: the part after any Clark-notation
namespace prefix.  (Specification-side notion, used to state
namespace-agnosticism; the source never computes it.) -/
def localName (tag : String) : String :=
  if tag.data.contains '}' then ⟨(tag.data.dropWhile (fun c => c ≠ '}')).drop 1⟩ else tag

/-! ### The TRTYRAG fan-out extractor (file_processors.py 441-496) -/

/-- `TRTYRAGProcessor._extract_assignment_base`. -/
def trtyrag_extract_base (entry : XmlElem) : Rec :=
  let r : Rec := []
  let r :=
    match elemFind entry "assignment" with
    | some assignment =>
      let atext := fun (t : String) => getXmlText (elemFind assignment t)
      let r := dictSet r "reel_no" (optStr (atext "reel-no"))
      let r := dictSet r "frame_no" (optStr (atext "frame-no"))
      let r := dictSet r "date_recorded" (optStr (trt_normalize_date (atext "date-recorded")))
      let r := dictSet r "conveyance_text" (optStr (atext "conveyance-text"))
      let r := dictSet r "last_update_date" (optStr (trt_normalize_date (atext "last-update-date")))
      let r := dictSet r "purge_indicator" (optStr (atext "purge-indicator"))
      dictSet r "page_count"
        (match atext "page-count" with
         | some pc => if pyIsDigit pc then .int (natOfDigits pc.data) else Val.none
         | Option.none => Val.none)
    | Option.none => r
  let r :=
    if pyTruthy (dictGetD r "reel_no" .none) ∧ pyTruthy (dictGetD r "frame_no" .none) then
      dictSet r "assignment_id"
        (.str (pyStr (dictGetD r "reel_no" .none) ++ "-" ++ pyStr (dictGetD r "frame_no" .none)))
    else r
  let r := dictSet r "assignor_name"
    (optStr (getXmlText (findPathDesc entry "assignors" ["assignor", "person-or-organization-name"])))
  let r := dictSet r "assignee_name"
    (optStr (getXmlText (findPathDesc entry "assignees" ["assignee", "person-or-organization-name"])))
  let r := dictSet r "data_source" (.str "TRTYRAG [XML]")
  dictSet r "batch_number" (.int 0)

/-- The `property` children of the entry `properties` sub-collection
(`props.findall('property') if props is not None else []`). -/
def trtyragPropList (entry : XmlElem) : List XmlElem :=
  match elemFind entry "properties" with
  | some p => elemFindAll p "property"
  | Option.none => []

/-- The record emitted for one `property` of an assignment entry. -/
def trtyragPropRecord (base : Rec) (prop : XmlElem) : Rec :=
  let r := dictSet base "serial_no" (optStr (getXmlText (elemFind prop "serial-no")))
  let r := dictSet r "registration_number" (optStr (getXmlText (elemFind prop "registration-no")))
  dictSet r "intl_reg_no" (optStr (getXmlText (elemFind prop "intl-reg-no")))

/-- The per-entry body of `TRTYRAGProcessor.extract_assignment_records`
(file_processors.py 446-461): base fields once, then one record per
`property` child of the `properties` sub-collection; with no properties
the base record itself is emitted. -/
def trtyrag_extract_entry (entry : XmlElem) : List Rec :=
  let base := trtyrag_extract_base entry
  let prop_list := trtyragPropList entry
  if prop_list = [] then [base]
  else prop_list.map (trtyragPropRecord base)

/-- `TRTYRAGProcessor.extract_assignment_records`. -/
def trtyrag_extract_assignment_records (root : XmlElem) : List Rec :=
  (findAllDesc root "assignment-entry").flatMap trtyrag_extract_entry

/-! ### Batch loading (`DatabaseController`, uspto_controllers.py)

The destination table is modelled as a list of rows; its unique
(natural-identifier) column is a parameter.  The auto-increment `id`
column is database-generated, never part of the inserted column lists,
and is not modelled.  A write error (a raised exception before the
commit) is modelled by an explicit `Option String` parameter: the
transaction is rolled back, so the table is unchanged. -/

/-- `ProcessingResult` (uspto_controllers.py 58-65); the wall-clock
`processing_time` field is not modelled. -/
structure ProcessingResult where
  success : Bool
  rows_processed : Int
  rows_saved : Int
  error_message : Option String
deriving DecidableEq, Repr

/-- The non-null unique-key value of a row, if any (SQL `NULL` never
conflicts with anything). -/
def rowKey (natKey : String) (r : Rec) : Option Val :=
  match dictGet r natKey with
  | some v => if v = Val.none then Option.none else some v
  | Option.none => Option.none

/-- `INSERT ... ON CONFLICT DO NOTHING` of a row list: a row whose
non-null unique-key value is already present is skipped. -/
def insertIgnoreAll (natKey : String) (table : List Rec) (rows : List Rec) : List Rec :=
  rows.foldl (fun t r =>
    match rowKey natKey r with
    | some v => if t.any (fun row => dictGet row natKey = some v) then t else t ++ [r]
    | Option.none => t ++ [r]) table

/-- `DatabaseController._map_insert_columns` applied to one record. -/
def map_insert_record (r : Rec) : Rec :=
  r.foldl (fun acc kv =>
    let ck := cleanKey kv.1
    match aliasLookup genericColumnMappings ck with
    | some m => dictSet acc m kv.2
    | Option.none => dictSet acc ck kv.2) []

/-- `DatabaseController._map_insert_columns`. -/
def map_insert_columns (batch_data : List Rec) : List Rec :=
  batch_data.map map_insert_record

/-- The per-record column filtering of `save_batch` (uspto_controllers.py
1585-1599): keep only live destination columns, null out empty strings,
then set the batch number. -/
def filter_batch_record (dbCols : List String) (batch_number : Int) (r : Rec) : Rec :=
  dictSet (r.foldl (fun acc kv =>
    if kv.1 ∈ dbCols then
      dictSet acc kv.1
        (match kv.2 with
         | .str s => if pyStrip s = "" then Val.none else .str s
         | v => v)
    else acc) []) "batch_number" (.int batch_number)

/-- The filtered batch built by `save_batch` before the insert. -/
def filteredBatch (dbCols : List String) (product_id : String) (batch_number : Int)
    (batch_data : List Rec) : List Rec :=
  let mapped := if product_id = "TRCFECO2" then batch_data else map_insert_columns batch_data
  mapped.map (filter_batch_record dbCols batch_number)

/-- The rows actually inserted by `save_batch`: the column list is taken
from the first filtered record, each tuple by `record.get(col)`. -/
def insertedRows (dbCols : List String) (product_id : String) (batch_number : Int)
    (batch_data : List Rec) : List Rec :=
  let filtered := filteredBatch dbCols product_id batch_number batch_data
  let cols := recKeys (filtered.headD [])
  filtered.map (fun r => cols.map (fun c => (c, dictGetD r c .none)))

/-- `DatabaseController.save_batch` (uspto_controllers.py 1550-1639):
one bulk `INSERT ... ON CONFLICT DO NOTHING` keyed on the destination
table unique column; on an error the whole batch is reported failed with
`rows_saved = 0` and the table is unchanged. -/
def save_batch (dbCols : List String) (natKey : String) (err : Option String)
    (table : List Rec) (batch_data : List Rec) (product_id : String)
    (batch_number : Int) : ProcessingResult × List Rec :=
  match err with
  | some msg =>
    ({ success := false, rows_processed := batch_data.length, rows_saved := 0,
       error_message := some msg }, table)
  | Option.none =>
    let filtered := filteredBatch dbCols product_id batch_number batch_data
    let table2 :=
      if filtered ≠ [] then
        insertIgnoreAll natKey table (insertedRows dbCols product_id batch_number batch_data)
      else table
    ({ success := true, rows_processed := batch_data.length,
       rows_saved := filtered.length, error_message := Option.none }, table2)

/-- The 80 insert columns of `save_case_files_to_db`
(uspto_structured_processor.py 626-647). -/
def caseFileColumns : List String :=
  ["serial_number", "registration_number", "filing_date", "registration_date",
   "status_code", "status_date", "mark_identification", "mark_drawing_code",
   "abandon_dt", "amend_reg_dt", "amend_lb_for_app_in", "amend_lb_for_reg_in",
   "amend_lb_itu_in", "amend_lb_use_in", "reg_cancel_cd", "reg_cancel_dt",
   "cancel_pend_in", "cert_mark_in", "chg_reg_in", "coll_memb_mark_in",
   "coll_serv_mark_in", "coll_trade_mark_in", "draw_color_cur_in", "draw_color_file_in",
   "concur_use_in", "concur_use_pend_in", "draw_3d_cur_in", "draw_3d_file_in",
   "exm_attorney_name", "lb_use_file_in", "lb_for_app_cur_in", "lb_for_reg_cur_in",
   "lb_intl_reg_cur_in", "lb_for_app_file_in", "lb_for_reg_file_in", "lb_intl_reg_file_in",
   "lb_none_cur_in", "for_priority_in", "lb_itu_cur_in", "lb_itu_file_in",
   "interfer_pend_in", "exm_office_cd", "opposit_pend_in", "amend_principal_in",
   "concur_use_pub_in", "publication_dt", "renewal_dt", "renewal_file_in",
   "repub_12c_dt", "repub_12c_in", "incontest_ack_in", "incontest_file_in",
   "acq_dist_in", "acq_dist_part_in", "use_afdv_acc_in", "use_afdv_file_in",
   "use_afdv_par_acc_in", "serv_mark_in", "std_char_claim_in", "cfh_status_cd",
   "cfh_status_dt", "amend_supp_reg_in",
   "supp_reg_in", "trade_mark_in", "lb_use_cur_in", "lb_none_file_in",
   "ir_auto_reg_dt", "ir_first_refus_in", "ir_death_dt", "ir_publication_dt",
   "ir_registration_dt", "ir_registration_no", "ir_renewal_dt", "ir_status_cd",
   "ir_status_dt", "ir_priority_dt", "ir_priority_in", "related_other_in",
   "tad_file_id", "data_source"]

/-- The columns updated by the `ON CONFLICT (serial_number) DO UPDATE`
clause of `save_case_files_to_db` (the database-generated `updated_at`
timestamp is not modelled). -/
def caseFileUpdateCols : List String :=
  ["registration_number", "filing_date", "registration_date", "status_code",
   "status_date", "mark_identification", "mark_drawing_code"]

/-- The tuple built for one record by `save_case_files_to_db`:
`tuple(item.get(col) for col in columns)`. -/
def caseFileRow (item : Rec) : Rec :=
  caseFileColumns.map (fun c => (c, dictGetD item c .none))

/-- The non-null `serial_number` key of the tuple of a record, if any. -/
def caseFileRowKey (item : Rec) : Option Val :=
  rowKey "serial_number" (caseFileRow item)

/-- Upsert of one case-file tuple, keyed on `serial_number`. -/
def upsertCaseFileRow (table : List Rec) (item : Rec) : List Rec :=
  let row := caseFileRow item
  match caseFileRowKey item with
  | some v =>
    if table.any (fun x => dictGet x "serial_number" = some v) then
      table.map (fun x =>
        if dictGet x "serial_number" = some v then
          caseFileUpdateCols.foldl (fun y c => dictSet y c (dictGetD row c .none)) x
        else x)
    else table ++ [row]
  | Option.none => table ++ [row]

/-- Two tuples of one statement hitting the same non-null key make
Postgres raise (`cannot affect row a second time`). -/
def batchHasDupKey (b : List Rec) : Bool :=
  ¬ (b.filterMap caseFileRowKey).Nodup

/-- Buffer loop of `save_case_files_to_db`
(uspto_structured_processor.py 686-728): the records are flushed with
`execute_values` in buffers of `batch_size`, each committed separately;
`failAt = some i` models an exception at the `i`-th flush (a statement
with two tuples of the same serial also raises), after which the
`except` branch returns 0 while the already committed buffers stay. -/
def saveCaseFilesGo (failAt : Option Nat) : List (List Rec) → Nat → Nat → List Rec →
    Nat × List Rec
  | [], _, saved, table => (saved, table)
  | b :: rest, i, saved, table =>
    if failAt = some i ∨ batchHasDupKey b then (0, table)
    else saveCaseFilesGo failAt rest (i + 1) (saved + b.length) (b.foldl upsertCaseFileRow table)

/-- `USPTOStructuredProcessor.save_case_files_to_db` (the
`execute_values` path; the `USPTO_USE_COPY` path defaults off).
Returns the count reported to the caller and the table. -/
def save_case_files_to_db (batch_size : Nat) (failAt : Option Nat)
    (table : List Rec) (case_files : List Rec) : Nat × List Rec :=
  saveCaseFilesGo failAt (chunksOf batch_size case_files) 0 0 table

/-! ### Processing ledger (`file_processing_history`) and orchestration -/

/-- One row of the `file_processing_history` control table
(uspto_controllers.py 1197-1217).  Timestamps are abstract counters. -/
structure LedgerEntry where
  product_id : String
  file_name : String
  file_url : Option String
  file_size : Option Int
  status : String
  processing_started : Option Nat
  processing_completed : Option Nat
  rows_processed : Int
  rows_saved : Int
  batch_count : Int
  error_message : Option String
  processing_attempts : Int
deriving DecidableEq, Repr

/-- The ledger: rows unique per (product, file). -/
abbrev Ledger := List LedgerEntry

/-- The history row of a (product, file) pair. -/
def getHistory (l : Ledger) (p f : String) : Option LedgerEntry :=
  l.find? (fun e => e.product_id = p ∧ e.file_name = f)

/-- `DatabaseController.is_file_completed` (uspto_controllers.py
1026-1043). -/
def is_file_completed (l : Ledger) (p f : String) : Bool :=
  match getHistory l p f with
  | some e => e.status = "completed"
  | Option.none => false

/-- `DatabaseController.mark_file_processing` (uspto_controllers.py
1066-1101): return unchanged when the row is `completed`; otherwise
upsert a `processing` row.  The `CASE WHEN status = completed` guards of
the SQL `ON CONFLICT` clause are kept verbatim. -/
def mark_file_processing (now : Nat) (l : Ledger) (p f url : String) (size : Int) : Ledger :=
  match getHistory l p f with
  | some e =>
    if e.status = "completed" then l
    else
      l.map (fun x =>
        if x.product_id = p ∧ x.file_name = f then
          { x with
            file_url := some url,
            file_size := some size,
            processing_started :=
              if x.status = "completed" then x.processing_started else some now,
            status := if x.status = "completed" then "completed" else "processing",
            processing_attempts :=
              if x.status = "completed" then x.processing_attempts
              else x.processing_attempts + 1,
            error_message := if x.status = "completed" then x.error_message else Option.none }
        else x)
  | Option.none =>
    l ++ [{ product_id := p, file_name := f, file_url := some url, file_size := some size,
            status := "processing", processing_started := some now,
            processing_completed := Option.none, rows_processed := 0, rows_saved := 0,
            batch_count := 0, error_message := Option.none, processing_attempts := 1 }]

/-- `DatabaseController.mark_file_completed` (uspto_controllers.py
1103-1124). -/
def mark_file_completed (now : Nat) (l : Ledger) (p f : String)
    (rows_processed rows_saved batch_count : Int) : Ledger :=
  l.map (fun x =>
    if x.product_id = p ∧ x.file_name = f then
      { x with
        status := "completed",
        processing_completed := some now,
        rows_processed := rows_processed,
        rows_saved := rows_saved,
        batch_count := batch_count,
        error_message := Option.none }
    else x)

/-- `DatabaseController.mark_file_error` (uspto_controllers.py
1126-1142): status `error` with the message truncated to 1000
characters (`None` for an empty message). -/
def mark_file_error (l : Ledger) (p f msg : String) : Ledger :=
  l.map (fun x =>
    if x.product_id = p ∧ x.file_name = f then
      { x with
        status := "error",
        error_message := if msg ≠ "" then some ⟨msg.data.take 1000⟩ else Option.none }
    else x)

/-- `DatabaseController.upsert_file_completed` (uspto_controllers.py
1144-1163). -/
def upsert_file_completed (now : Nat) (l : Ledger) (p f : String) : Ledger :=
  match getHistory l p f with
  | some _ =>
    l.map (fun x =>
      if x.product_id = p ∧ x.file_name = f then
        { x with
          status := "completed",
          processing_completed := some now }
      else x)
  | Option.none =>
    l ++ [{ product_id := p, file_name := f, file_url := Option.none,
            file_size := Option.none, status := "completed",
            processing_started := some now, processing_completed := some now,
            rows_processed := 0, rows_saved := 0, batch_count := 0,
            error_message := Option.none, processing_attempts := 0 }]

/-- The per-file skip decision of `USPTOOrchestrator.run_full_process`
(uspto_controllers.py 1795-1805): without the force flag a file whose
history row is `completed` is skipped. -/
def file_skip_decision (force_redownload : Bool) (l : Ledger) (p f : String) : Bool :=
  !force_redownload && is_file_completed l p f

/-- Pipeline state threaded through the per-file loop of
`run_full_process`. -/
structure PipeState where
  ledger : Ledger
  table : List Rec
  errors : List String
  total_rows_processed : Int
  total_rows_saved : Int
deriving Repr

/-- The batch loop of `run_full_process` for one data file
(uspto_controllers.py 1833-1859): each batch goes through `save_batch`;
a failed result only appends to the error summary. -/
def runBatches (dbCols : List String) (natKey product_id : String)
    (errAt : Nat → Option String) : List (List Rec) → Nat → PipeState → PipeState
  | [], _, st => st
  | b :: rest, i, st =>
    let r := save_batch dbCols natKey (errAt (i + 1)) st.table b product_id (Int.ofNat (i + 1))
    runBatches dbCols natKey product_id errAt rest (i + 1)
      { st with
        table := r.2,
        total_rows_processed := st.total_rows_processed + r.1.rows_processed,
        total_rows_saved := st.total_rows_saved + r.1.rows_saved,
        errors := st.errors ++
          (if r.1.success then [] else ["Batch save error: " ++ r.1.error_message.getD "None"]) }

/-- One file of the `run_full_process` loop (uspto_controllers.py
1826-1866), extracted-files branch with one data file: mark processing,
load every batch, then mark the file completed; batch failures are only
recorded in the error summary. -/
def run_file_process (dbCols : List String) (natKey product_id file_name file_url : String)
    (file_size : Int) (now : Nat) (errAt : Nat → Option String)
    (batches : List (List Rec)) (st : PipeState) : PipeState :=
  let st1 := { st with
    ledger := mark_file_processing now st.ledger product_id file_name file_url file_size }
  let st2 := runBatches dbCols natKey product_id errAt batches 0 st1
  { st2 with ledger := upsert_file_completed now st2.ledger product_id file_name }

/-! ### Checkpoint, staging log and resume
(`USPTOStructuredProcessor`, uspto_structured_processor.py) -/

/-- The on-disk state of one source file: the checkpoint JSON
(`rows_read`, `saved_count`), whether the processed JSONL exists, and
the valid records it holds. -/
structure FsState where
  checkpoint : Option (Nat × Nat)
  processedExists : Bool
  staged : List Rec
deriving DecidableEq, Repr

/-- The `json.dumps(..., default=str)` / `json.loads` round trip applied
by the staging log: dates are stringified, everything else survives. -/
def jsonVal : Val → Val
  | .date y m d => .str (isoOfYmd y m d)
  | v => v

/-- `USPTOStructuredProcessor.save_checkpoint`. -/
def save_checkpoint (st : FsState) (rows_read saved_count : Nat) : FsState :=
  { st with checkpoint := some (rows_read, saved_count) }

/-- `USPTOStructuredProcessor.append_processed_records`. -/
def append_processed_records (st : FsState) (records : List Rec) : FsState :=
  if records = [] then st
  else { st with
    processedExists := true,
    staged := st.staged ++ records.map (fun r => r.map (fun kv => (kv.1, jsonVal kv.2))) }

/-- `USPTOStructuredProcessor.load_processed_records`. -/
def load_processed_records (st : FsState) : List Rec :=
  if st.processedExists then st.staged else []

/-- `USPTOStructuredProcessor.clear_checkpoint_and_processed`. -/
def clear_checkpoint_and_processed (_st : FsState) : FsState :=
  { checkpoint := Option.none, processedExists := false, staged := [] }

/-- `USPTOStructuredProcessor.resume_from_processed_file`
(uspto_structured_processor.py 189-208): load the staged records, save
them, and clear checkpoint and staging log only on a positive saved
count.  (`save_case_files_to_db` catches its own exceptions and returns
0, so the fatal `None` branch of the source is unreachable.) -/
def resume_from_processed_file (batch_size : Nat) (failAt : Option Nat)
    (table : List Rec) (st : FsState) : Nat × List Rec × FsState :=
  let records := load_processed_records st
  if records = [] then (0, table, st)
  else
    let r := save_case_files_to_db batch_size failAt table records
    if 0 < r.1 then (r.1, r.2, clear_checkpoint_and_processed st)
    else (0, r.2, st)

/-- Python `int(v)`: `Option.none` models the raised
`TypeError`/`ValueError`. -/
def pyIntOfVal : Val → Option Int
  | .int n => some n
  | .bool b => some (if b then 1 else 0)
  | .str s => pyIntOfString (pyStrip s)
  | _ => Option.none

/-- `str(row.get(k, '')) if pd.notna(row.get(k)) else None`. -/
def rowStrOpt (row : Rec) (k : String) : Val :=
  match dictGet row k with
  | some v => if pyIsNa v then .none else .str (pyStr v)
  | Option.none => .none

/-- `self.parse_date(str(row.get(k, '')) if pd.notna(row.get(k)) else None)`. -/
def rowDateOpt (row : Rec) (k : String) : Val :=
  let arg : Option String :=
    match dictGet row k with
    | some v => if pyIsNa v then Option.none else some (pyStr v)
    | Option.none => Option.none
  match parse_date arg with
  | some (y, m, d) => .date y m d
  | Option.none => .none

/-- `bool(row.get(k, 0))`. -/
def rowBool (row : Rec) (k : String) : Val :=
  .bool (pyTruthy (dictGetD row k (.int 0)))

/-- `bool(row.get(k, 0)) if pd.notna(row.get(k)) else None`. -/
def rowBoolOpt (row : Rec) (k : String) : Val :=
  match dictGet row k with
  | some v => if pyIsNa v then .none else .bool (pyTruthy v)
  | Option.none => .none

/-- `int(row.get(k, 0)) if pd.notna(row.get(k)) else None`; the outer
`Option` models a raised conversion error. -/
def rowIntOpt (row : Rec) (k : String) : Option Val :=
  match dictGet row k with
  | some v => if pyIsNa v then some .none else (pyIntOfVal v).map Val.int
  | Option.none => some .none

/-- The case-file dict built for one CSV row by `process_case_file_csv`
(uspto_structured_processor.py 415-502); `Option.none` models a raised
conversion error aborting the whole call. -/
def case_file_of_row (data_source : String) (row : Rec) : Option Rec :=
  (rowIntOpt row "cfh_status_cd").bind fun cfh =>
    (rowIntOpt row "tad_file_id").bind fun tad =>
      some
        [("serial_number", rowStrOpt row "serial_no"),
         ("registration_number", rowStrOpt row "registration_no"),
         ("filing_date", rowDateOpt row "filing_dt"),
         ("registration_date", rowDateOpt row "registration_dt"),
         ("status_code", Val.none),
         ("status_date", Val.none),
         ("mark_identification", rowStrOpt row "mark_id_char"),
         ("mark_drawing_code", rowStrOpt row "mark_draw_cd"),
         ("abandon_dt", rowDateOpt row "abandon_dt"),
         ("amend_reg_dt", rowDateOpt row "amend_reg_dt"),
         ("amend_lb_for_app_in", rowBool row "amend_lb_for_app_in"),
         ("amend_lb_for_reg_in", rowBool row "amend_lb_for_reg_in"),
         ("amend_lb_itu_in", rowBool row "amend_lb_itu_in"),
         ("amend_lb_use_in", rowBool row "amend_lb_use_in"),
         ("reg_cancel_cd", rowStrOpt row "reg_cancel_cd"),
         ("reg_cancel_dt", rowDateOpt row "reg_cancel_dt"),
         ("cancel_pend_in", rowBool row "cancel_pend_in"),
         ("cert_mark_in", rowBool row "cert_mark_in"),
         ("chg_reg_in", rowBool row "chg_reg_in"),
         ("coll_memb_mark_in", rowBool row "coll_memb_mark_in"),
         ("coll_serv_mark_in", rowBool row "coll_serv_mark_in"),
         ("coll_trade_mark_in", rowBool row "coll_trade_mark_in"),
         ("draw_color_cur_in", rowBool row "draw_color_cur_in"),
         ("draw_color_file_in", rowBool row "draw_color_file_in"),
         ("concur_use_in", rowBool row "concur_use_in"),
         ("concur_use_pend_in", rowBool row "concur_use_pend_in"),
         ("draw_3d_cur_in", rowBool row "draw_3d_cur_in"),
         ("draw_3d_file_in", rowBool row "draw_3d_file_in"),
         ("exm_attorney_name", rowStrOpt row "exm_attorney_name"),
         ("lb_use_file_in", rowBool row "lb_use_file_in"),
         ("lb_for_app_cur_in", rowBool row "lb_for_app_cur_in"),
         ("lb_for_reg_cur_in", rowBool row "lb_for_reg_cur_in"),
         ("lb_intl_reg_cur_in", rowBool row "lb_intl_reg_cur_in"),
         ("lb_for_app_file_in", rowBool row "lb_for_app_file_in"),
         ("lb_for_reg_file_in", rowBool row "lb_for_reg_file_in"),
         ("lb_intl_reg_file_in", rowBool row "lb_intl_reg_file_in"),
         ("lb_none_cur_in", rowBool row "lb_none_cur_in"),
         ("for_priority_in", rowBool row "for_priority_in"),
         ("lb_itu_cur_in", rowBool row "lb_itu_cur_in"),
         ("lb_itu_file_in", rowBool row "lb_itu_file_in"),
         ("interfer_pend_in", rowBool row "interfer_pend_in"),
         ("exm_office_cd", rowStrOpt row "exm_office_cd"),
         ("opposit_pend_in", rowBool row "opposit_pend_in"),
         ("amend_principal_in", rowBool row "amend_principal_in"),
         ("concur_use_pub_in", rowBool row "concur_use_pub_in"),
         ("publication_dt", rowDateOpt row "publication_dt"),
         ("renewal_dt", rowDateOpt row "renewal_dt"),
         ("renewal_file_in", rowBool row "renewal_file_in"),
         ("repub_12c_dt", rowDateOpt row "repub_12c_dt"),
         ("repub_12c_in", rowBool row "repub_12c_in"),
         ("incontest_ack_in", rowBool row "incontest_ack_in"),
         ("incontest_file_in", rowBool row "incontest_file_in"),
         ("acq_dist_in", rowBool row "acq_dist_in"),
         ("acq_dist_part_in", rowBool row "acq_dist_part_in"),
         ("use_afdv_acc_in", rowBool row "use_afdv_acc_in"),
         ("use_afdv_file_in", rowBool row "use_afdv_file_in"),
         ("use_afdv_par_acc_in", rowBool row "use_afdv_par_acc_in"),
         ("serv_mark_in", rowBool row "serv_mark_in"),
         ("std_char_claim_in", rowBool row "std_char_claim_in"),
         ("cfh_status_cd", cfh),
         ("cfh_status_dt", rowDateOpt row "cfh_status_dt"),
         ("amend_supp_reg_in", rowBool row "amend_supp_reg_in"),
         ("supp_reg_in", rowBool row "supp_reg_in"),
         ("trade_mark_in", rowBool row "trade_mark_in"),
         ("lb_use_cur_in", rowBool row "lb_use_cur_in"),
         ("lb_none_file_in", rowBool row "lb_none_file_in"),
         ("ir_auto_reg_dt", rowDateOpt row "ir_auto_reg_dt"),
         ("ir_first_refus_in", rowBoolOpt row "ir_first_refus_in"),
         ("ir_death_dt", rowDateOpt row "ir_death_dt"),
         ("ir_publication_dt", rowDateOpt row "ir_publication_dt"),
         ("ir_registration_dt", rowDateOpt row "ir_registration_dt"),
         ("ir_registration_no", rowStrOpt row "ir_registration_no"),
         ("ir_renewal_dt", rowDateOpt row "ir_renewal_dt"),
         ("ir_status_cd", rowStrOpt row "ir_status_cd"),
         ("ir_status_dt", rowDateOpt row "ir_status_dt"),
         ("ir_priority_dt", rowDateOpt row "ir_priority_dt"),
         ("ir_priority_in", rowBoolOpt row "ir_priority_in"),
         ("related_other_in", rowBoolOpt row "related_other_in"),
         ("tad_file_id", tad),
         ("data_source", .str (data_source ++ " [CSV]"))]

/-- Python `l[-n:]` (for `n = 0` this is the whole list). -/
def pyTakeLast (n : Nat) (l : List α) : List α :=
  if n = 0 then l else l.drop (l.length - n)

/-- The per-chunk column rename of `process_case_file_csv`
(`lambda c: c.strip().lower()`). -/
def renameChunkCols (chunk : List Rec) : List Rec :=
  chunk.map (fun row => row.map (fun kv => (pyLower (pyStrip kv.1), kv.2)))

/-- The row loop of one chunk (uspto_structured_processor.py 414-511):
rows whose case file has a truthy serial number other than `nan` are
kept; `Option.none` models a raised conversion error. -/
def processChunkRows (data_source : String) : List Rec → List Rec → Option (List Rec)
  | [], acc => some acc
  | row :: rest, acc =>
    match case_file_of_row data_source row with
    | some cf =>
      let sn := dictGetD cf "serial_number" .none
      processChunkRows data_source rest
        (if pyTruthy sn ∧ sn ≠ .str "nan" then acc ++ [cf] else acc)
    | Option.none => Option.none

/-- Whether `sample_nrows` is set and truthy (`if sample_nrows:`). -/
def sampleTruthy : Option Nat → Bool
  | some n => n ≠ 0
  | Option.none => false

/-- The chunk loop of `process_case_file_csv`
(uspto_structured_processor.py 383-540).  Returns the accumulated case
files, the final file state, and whether an exception was raised. -/
def csvChunkLoop (data_source : String) (cp_rows cp_saved : Nat)
    (sample_nrows : Option Nat) :
    List (List Rec) → Nat → List Rec → FsState → (List Rec × FsState × Bool)
  | [], _, case_files, st => (case_files, st, false)
  | chunk0 :: rest, rows_read, case_files, st =>
    let chunk := renameChunkCols chunk0
    if cp_rows ≠ 0 ∧ rows_read + chunk.length ≤ cp_rows then
      csvChunkLoop data_source cp_rows cp_saved sample_nrows rest
        (rows_read + chunk.length) case_files st
    else
      let chunk2 :=
        if cp_rows ≠ 0 ∧ rows_read < cp_rows then chunk.drop (cp_rows - rows_read)
        else chunk
      if sampleTruthy sample_nrows ∧ (sample_nrows.getD 0) ≤ rows_read then
        (case_files, st, false)
      else
        let chunk3 :=
          match sample_nrows with
          | some n =>
            if n ≠ 0 ∧ n - rows_read < chunk2.length then chunk2.take (n - rows_read)
            else chunk2
          | Option.none => chunk2
        match processChunkRows data_source chunk3 case_files with
        | Option.none => (case_files, st, true)
        | some case_files2 =>
          let rows_in_chunk := chunk3.length
          let rows_read2 := rows_read + rows_in_chunk
          let st2 := append_processed_records st (pyTakeLast rows_in_chunk case_files2)
          let st3 := save_checkpoint st2 rows_read2 cp_saved
          if sampleTruthy sample_nrows ∧ (sample_nrows.getD 0) ≤ rows_read2 then
            (case_files2, st3, false)
          else
            csvChunkLoop data_source cp_rows cp_saved sample_nrows rest
              rows_read2 case_files2 st3

/-- `USPTOStructuredProcessor.process_case_file_csv`
(uspto_structured_processor.py 303-550).  Returns the case-file list
returned to the caller, the final on-disk state, the final table, and
whether the source CSV was read (the resume path returns before
`pd.read_csv`).  `rows` are the rows of the CSV, chunked by pandas into
chunks of `chunk_size`. -/
def process_case_file_csv (batch_size : Nat) (dbFailAt : Option Nat)
    (chunk_size : Nat) (sample_nrows : Option Nat) (data_source : String)
    (rows : List Rec) (st : FsState) (table : List Rec) :
    List Rec × FsState × List Rec × Bool :=
  let cp := st.checkpoint
  let cp_rows := match cp with | some c => c.1 | Option.none => 0
  let cp_saved := match cp with | some c => c.2 | Option.none => 0
  if st.processedExists ∧ load_processed_records st ≠ [] then
    let r := resume_from_processed_file batch_size dbFailAt table st
    ([], r.2.2, r.2.1, false)
  else
    let chunks := chunksOf chunk_size rows
    match csvChunkLoop data_source cp_rows cp_saved sample_nrows chunks 0 [] st with
    | (_, st2, true) => ([], st2, table, true)
    | (case_files, st2, false) =>
      let r := resume_from_processed_file batch_size dbFailAt table st2
      (case_files, r.2.2, r.2.1, true)

/-! ## Shared lemmas about the dictionary model -/

theorem dictGet_nil (k : String) : dictGet [] k = Option.none := rfl

theorem dictGet_cons (kv : String × Val) (r : Rec) (k : String) :
    dictGet (kv :: r) k = if kv.1 = k then some kv.2 else dictGet r k := by
  simp only [dictGet, List.find?]
  by_cases h : kv.1 = k <;> simp [h]

theorem dictSet_of_not_mem (r : Rec) (k : String) (v : Val)
    (h : r.any (fun p => p.1 = k) = false) : dictSet r k v = r ++ [(k, v)] := by
  simp [dictSet, h]

theorem dictSet_of_mem (r : Rec) (k : String) (v : Val)
    (h : r.any (fun p => p.1 = k) = true) :
    dictSet r k v = r.map (fun p => if p.1 = k then (k, v) else p) := by
  simp [dictSet, h]

theorem dictGet_dictSet_self (r : Rec) (k : String) (v : Val) :
    dictGet (dictSet r k v) k = some v := by
  unfold dictSet
  split
  · next h =>
    induction r with
    | nil => simp at h
    | cons kv rest ih =>
      by_cases hk : kv.1 = k
      · simp [dictGet_cons, hk]
      · simp only [List.map_cons, if_neg hk, dictGet_cons, hk, if_false]
        apply ih
        simpa [List.any_cons, hk] using h
  · next h =>
    induction r with
    | nil => simp [dictGet_cons]
    | cons kv rest ih =>
      have h1 : kv.1 ≠ k := by
        intro he
        simp [List.any_cons, he] at h
      simp only [List.cons_append, dictGet_cons, h1, if_false]
      apply ih
      simpa [List.any_cons, h1] using h

theorem dictGet_mapUpdate_ne (r : Rec) (k k' : String) (v : Val) (h : k' ≠ k) :
    dictGet (r.map (fun p => if p.1 = k then (k, v) else p)) k' = dictGet r k' := by
  induction r with
  | nil => simp
  | cons kv rest ih =>
    by_cases hk : kv.1 = k
    · simp [dictGet_cons, hk, Ne.symm h, ih]
    · simp [dictGet_cons, hk, ih]

theorem dictGet_append_ne (r : Rec) (k k' : String) (v : Val) (h : k' ≠ k) :
    dictGet (r ++ [(k, v)]) k' = dictGet r k' := by
  induction r with
  | nil => simp [dictGet_cons, dictGet_nil, Ne.symm h]
  | cons kv rest ih => simp [dictGet_cons, ih]

theorem dictGet_dictSet_ne (r : Rec) (k k' : String) (v : Val) (h : k' ≠ k) :
    dictGet (dictSet r k v) k' = dictGet r k' := by
  unfold dictSet
  split
  · exact dictGet_mapUpdate_ne r k k' v h
  · exact dictGet_append_ne r k k' v h

theorem dictSet_ne_nil (r : Rec) (k : String) (v : Val) : dictSet r k v ≠ [] := by
  unfold dictSet
  split
  · next h =>
    cases r with
    | nil => simp at h
    | cons kv rest => simp
  · simp

/-! ## C3: a completed ledger entry is never downgraded -/

/-- C3: for a (dataset, file) pair whose ledger entry is `completed`,
`mark_file_processing` leaves the whole ledger unchanged (so the status,
`processing_started`, the attempt counter and the error message of the
entry are all preserved), and without the force flag the orchestrator
skip decision for the file is to skip it. -/
theorem C3_completed_never_downgraded (now : Nat) (l : Ledger) (p f url : String)
    (size : Int) (e : LedgerEntry) (hg : getHistory l p f = some e)
    (hc : e.status = "completed") :
    mark_file_processing now l p f url size = l ∧
    is_file_completed l p f = true ∧
    file_skip_decision false l p f = true := by
  refine ⟨?_, ?_, ?_⟩
  · unfold mark_file_processing
    rw [hg]
    simp [hc]
  · unfold is_file_completed
    rw [hg]
    simp [hc]
  · unfold file_skip_decision is_file_completed
    rw [hg]
    simp [hc]

/-- A concrete completed ledger entry, for the C3 witness. -/
def completedEntryC3 : LedgerEntry where
  product_id := "TRCFECO2"
  file_name := "case_file.csv.zip"
  file_url := some "u"
  file_size := some 10
  status := "completed"
  processing_started := some 1
  processing_completed := some 2
  rows_processed := 5
  rows_saved := 5
  batch_count := 1
  error_message := Option.none
  processing_attempts := 1

/-- Witness for C3 at a concrete one-entry ledger. -/
theorem C3_witness :
    mark_file_processing 9 [completedEntryC3] "TRCFECO2" "case_file.csv.zip" "u2" 11 =
      [completedEntryC3] ∧
    file_skip_decision false [completedEntryC3] "TRCFECO2" "case_file.csv.zip" = true := by
  have h := C3_completed_never_downgraded 9 [completedEntryC3]
    "TRCFECO2" "case_file.csv.zip" "u2" 11 completedEntryC3 (by rfl) (by rfl)
  exact ⟨h.1, h.2.2⟩

/-! ## C9: failed batch reporting -/

theorem getHistory_map (l : Ledger) (p f : String) (g : LedgerEntry → LedgerEntry)
    (hg : ∀ e, (g e).product_id = e.product_id ∧ (g e).file_name = e.file_name) :
    getHistory (l.map g) p f = (getHistory l p f).map g := by
  induction l with
  | nil => rfl
  | cons e rest ih =>
    unfold getHistory at ih ⊢
    by_cases h : e.product_id = p ∧ e.file_name = f
    · simp [List.find?, (hg e).1, (hg e).2, h.1, h.2]
    · have h2 : ¬ ((g e).product_id = p ∧ (g e).file_name = f) := by
        rw [(hg e).1, (hg e).2]; exact h
      rw [List.map_cons]
      rw [List.find?]
      rw [List.find?]
      have hd1 : (decide (e.product_id = p ∧ e.file_name = f)) = false := by
        simpa using h
      have hd2 : (decide ((g e).product_id = p ∧ (g e).file_name = f)) = false := by
        simpa using h2
      rw [hd1, hd2]
      exact ih

theorem getHistory_append_single (l : Ledger) (p f : String) (e : LedgerEntry)
    (h : getHistory l p f = Option.none) :
    getHistory (l ++ [e]) p f = getHistory [e] p f := by
  unfold getHistory at h ⊢
  induction l with
  | nil => simp
  | cons x rest ih =>
    rw [List.cons_append, List.find?]
    rw [List.find?] at h
    cases hx : decide (x.product_id = p ∧ x.file_name = f) with
    | true => rw [hx] at h; simp at h
    | false =>
      rw [hx] at h
      exact ih h

/-- After `upsert_file_completed` the history row of the file exists and
is `completed`. -/
theorem upsert_file_completed_status (now : Nat) (l : Ledger) (p f : String) :
    ∃ e, getHistory (upsert_file_completed now l p f) p f = some e ∧
      e.status = "completed" := by
  unfold upsert_file_completed
  cases hg : getHistory l p f with
  | some e0 =>
    rw [getHistory_map _ _ _ _ (by intro e; split <;> simp)]
    rw [hg]
    have hp : (e0.product_id = p ∧ e0.file_name = f) := by
      have := List.find?_some hg
      simpa using this
    refine ⟨_, rfl, ?_⟩
    simp [hp.1, hp.2]
  | none =>
    rw [getHistory_append_single _ _ _ _ hg]
    refine ⟨{
        product_id := p,
        file_name := f,
        file_url := Option.none,
        file_size := Option.none,
        status := "completed",
        processing_started := some now,
        processing_completed := some now,
        rows_processed := 0,
        rows_saved := 0,
        batch_count := 0,
        error_message := Option.none,
        processing_attempts := 0 }, ?_, rfl⟩
    simp [getHistory, List.find?]

theorem mem_insertIgnoreAll (natKey : String) (rows : List Rec) :
    ∀ (table : List Rec), ∀ x ∈ table, x ∈ insertIgnoreAll natKey table rows := by
  induction rows with
  | nil => intro table x hx; simpa [insertIgnoreAll] using hx
  | cons r rest ih =>
    intro table x hx
    unfold insertIgnoreAll at ih ⊢
    rw [List.foldl_cons]
    apply ih
    cases rowKey natKey r with
    | some v =>
      simp only
      split
      · exact hx
      · exact List.mem_append_left _ hx
    | none => exact List.mem_append_left _ hx

theorem mem_save_batch_table (dbCols : List String) (natKey : String)
    (err : Option String) (table batch : List Rec) (pid : String) (bn : Int) :
    ∀ x ∈ table, x ∈ (save_batch dbCols natKey err table batch pid bn).2 := by
  intro x hx
  unfold save_batch
  cases err with
  | some msg => exact hx
  | none =>
    simp only
    split
    · exact mem_insertIgnoreAll _ _ _ _ hx
    · exact hx

theorem mem_runBatches (dbCols : List String) (natKey pid : String)
    (errAt : Nat → Option String) (batches : List (List Rec)) :
    ∀ (i : Nat) (st : PipeState), ∀ x ∈ st.table,
      x ∈ (runBatches dbCols natKey pid errAt batches i st).table := by
  induction batches with
  | nil => intro i st x hx; simpa [runBatches] using hx
  | cons b rest ih =>
    intro i st x hx
    unfold runBatches
    apply ih
    exact mem_save_batch_table _ _ _ _ _ _ _ _ hx

/-- C9 (amended): on a write error `save_batch` reports the whole batch
failed in one result (`success = false`, `rows_saved = 0`,
`rows_processed` the batch size, with the message) and leaves the
destination table unchanged; `mark_file_error` sets the history row to
`error` with the truncated message; the per-file pipeline loop never
removes previously loaded rows; but the loop itself does not invoke
`mark_file_error` on a failed batch result — it records the error in the
summary and finally marks the file `completed`. -/
theorem C9_failed_batch_amended :
    (∀ (dbCols : List String) (natKey : String) (table batch : List Rec)
        (pid : String) (bn : Int) (msg : String),
      save_batch dbCols natKey (some msg) table batch pid bn =
        ({ success := false, rows_processed := batch.length, rows_saved := 0,
           error_message := some msg }, table)) ∧
    (∀ (l : Ledger) (p f msg : String) (e : LedgerEntry),
      getHistory l p f = some e →
      getHistory (mark_file_error l p f msg) p f =
        some { e with
          status := "error",
          error_message := if msg ≠ "" then some ⟨msg.data.take 1000⟩ else Option.none }) ∧
    (∀ (dbCols : List String) (natKey pid fn url : String) (fs : Int) (now : Nat)
        (errAt : Nat → Option String) (batches : List (List Rec)) (st : PipeState),
      ∀ x ∈ st.table,
        x ∈ (run_file_process dbCols natKey pid fn url fs now errAt batches st).table) ∧
    (∀ (dbCols : List String) (natKey pid fn url : String) (fs : Int) (now : Nat)
        (errAt : Nat → Option String) (batches : List (List Rec)) (st : PipeState),
      ∃ e, getHistory
          (run_file_process dbCols natKey pid fn url fs now errAt batches st).ledger
          pid fn = some e ∧ e.status = "completed") := by
  refine ⟨?_, ?_, ?_, ?_⟩
  · intro dbCols natKey table batch pid bn msg
    rfl
  · intro l p f msg e hg
    unfold mark_file_error
    rw [getHistory_map _ _ _ _ (by intro x; split <;> simp)]
    rw [hg]
    have hp : (e.product_id = p ∧ e.file_name = f) := by
      have := List.find?_some hg
      simpa using this
    simp [hp.1, hp.2]
  · intro dbCols natKey pid fn url fs now errAt batches st x hx
    unfold run_file_process
    exact mem_runBatches _ _ _ _ _ _ _ _ hx
  · intro dbCols natKey pid fn url fs now errAt batches st
    unfold run_file_process
    exact upsert_file_completed_status _ _ _ _

/-- A concrete processing ledger entry, for the C9 witness. -/
def completedEntryC9 : LedgerEntry where
  product_id := "P1"
  file_name := "f.zip"
  file_url := some "u"
  file_size := some 10
  status := "processing"
  processing_started := some 1
  processing_completed := Option.none
  rows_processed := 0
  rows_saved := 0
  batch_count := 0
  error_message := Option.none
  processing_attempts := 1

/-- Witness for C9 at concrete inputs. -/
theorem C9_failed_batch_witness :
    save_batch ["serial_no"] "serial_no" (some "boom") [] [[("serial_no", .str "1")]]
      "P1" 1 =
      ({ success := false, rows_processed := 1, rows_saved := 0,
         error_message := some "boom" }, []) ∧
    getHistory (mark_file_error [completedEntryC9] "P1" "f.zip" "boom") "P1" "f.zip" =
      some { completedEntryC9 with
        status := "error", error_message := some "boom" } ∧
    [("serial_no", .str "9")] ∈
      (run_file_process ["serial_no"] "serial_no" "P1" "f.zip" "u" 10 7
        (fun _ => some "boom") [[[("serial_no", .str "1")]]]
        { ledger := [], table := [[("serial_no", .str "9")]], errors := [],
          total_rows_processed := 0, total_rows_saved := 0 }).table := by
  refine ⟨C9_failed_batch_amended.1 _ _ _ _ _ _ _, ?_, ?_⟩
  · have h := C9_failed_batch_amended.2.1 [completedEntryC9] "P1" "f.zip" "boom"
      completedEntryC9 (by rfl)
    rw [h]
    rfl
  · exact C9_failed_batch_amended.2.2.1 _ _ _ _ _ _ _ _ _ _ _ (by simp)

/-- The pipeline state after a file whose only batch fails to save. -/
def pipeAfterFailC9 : PipeState :=
  run_file_process ["serial_no", "batch_number"] "serial_no" "P1" "f.zip" "u" 10 7
    (fun _ => some "boom") [[[("serial_no", .str "1")]]]
    { ledger := [], table := [], errors := [],
      total_rows_processed := 0, total_rows_saved := 0 }

/-- C9 counterexample: after a failed batch the pipeline does not set the
ledger entry to `error` — the file ends `completed` while the failure is
only recorded in the run summary. -/
theorem C9_counterexample :
    (getHistory pipeAfterFailC9.ledger "P1" "f.zip").map LedgerEntry.status =
      some "completed" ∧
    pipeAfterFailC9.errors = ["Batch save error: boom"] ∧
    pipeAfterFailC9.table = [] := by
  refine ⟨rfl, rfl, rfl⟩

/-! ## C10: registration number 0000000 is treated as absent -/

/-- The `registration_number` field of an extracted case-file record. -/
theorem dictGet_caseFile_registration (pid : String) (e : XmlElem) :
    dictGet (extract_case_file_record pid e) "registration_number" =
      some (if getXmlText (elemFind e "registration-number") = some "0000000"
        then Val.none else optStr (getXmlText (elemFind e "registration-number"))) := by
  unfold extract_case_file_record
  cases h1 : elemFind e "case-file-header" <;>
    cases h2 : elemFind e "international-registration" <;>
      simp [dictGet_dictSet_ne, dictGet_dictSet_self, dictGet_cons]

/-- C10: for every case-file element, a registration-number whose
(`_get_xml_text`-extracted, whitespace-trimmed) text is exactly
`0000000` yields a null `registration_number`, and any other extracted
registration-number text is kept verbatim. -/
theorem C10_registration_zero_absent (pid : String) (e : XmlElem) :
    (getXmlText (elemFind e "registration-number") = some "0000000" →
      dictGet (extract_case_file_record pid e) "registration_number" = some Val.none) ∧
    (∀ t, getXmlText (elemFind e "registration-number") = some t → t ≠ "0000000" →
      dictGet (extract_case_file_record pid e) "registration_number" = some (.str t)) := by
  constructor
  · intro h
    rw [dictGet_caseFile_registration, h]
    simp
  · intro t h hne
    rw [dictGet_caseFile_registration, h]
    simp only [optStr]
    rw [if_neg]
    simp [hne]

/-- Witness for C10 at two concrete case-file elements. -/
theorem C10_registration_witness :
    dictGet (extract_case_file_record "TRTDXFAP"
      (.mk "case-file" Option.none
        [.mk "serial-number" (some "123") [],
         .mk "registration-number" (some "0000000") []]))
      "registration_number" = some Val.none ∧
    dictGet (extract_case_file_record "TRTDXFAP"
      (.mk "case-file" Option.none
        [.mk "serial-number" (some "123") [],
         .mk "registration-number" (some " 765 ") []]))
      "registration_number" = some (.str "765") := by
  constructor
  · exact (C10_registration_zero_absent "TRTDXFAP" _).1 (by rfl)
  · exact (C10_registration_zero_absent "TRTDXFAP" _).2 "765" (by rfl) (by decide)

/-! ## C5: nested fan-out extraction -/

/-- The base-record keys shared by the fanned-out records. -/
def trtyragBaseKeys : List String :=
  ["reel_no", "frame_no", "date_recorded", "conveyance_text", "last_update_date",
   "purge_indicator", "page_count", "assignment_id", "assignor_name",
   "assignee_name", "data_source", "batch_number"]

/-- The fields of one fanned-out record, as field lookups. -/
theorem trtyragPropRecord_fields (base : Rec) (prop : XmlElem) :
    (∀ k ∈ trtyragBaseKeys,
      dictGet (trtyragPropRecord base prop) k = dictGet base k) ∧
    dictGet (trtyragPropRecord base prop) "serial_no" =
      some (optStr (getXmlText (elemFind prop "serial-no"))) ∧
    dictGet (trtyragPropRecord base prop) "registration_number" =
      some (optStr (getXmlText (elemFind prop "registration-no"))) ∧
    dictGet (trtyragPropRecord base prop) "intl_reg_no" =
      some (optStr (getXmlText (elemFind prop "intl-reg-no"))) := by
  refine ⟨?_, ?_, ?_, ?_⟩
  · intro k hk
    unfold trtyragPropRecord
    fin_cases hk <;> simp [dictGet_dictSet_ne]
  · unfold trtyragPropRecord
    rw [dictGet_dictSet_ne _ _ _ _ (by decide),
      dictGet_dictSet_ne _ _ _ _ (by decide), dictGet_dictSet_self]
  · unfold trtyragPropRecord
    rw [dictGet_dictSet_ne _ _ _ _ (by decide), dictGet_dictSet_self]
  · unfold trtyragPropRecord
    rw [dictGet_dictSet_self]

/-- C5 (amended): a matched assignment entry with K properties yields
exactly K records, each agreeing with the base record on every base
field and carrying the serial number, registration number and
international registration number of its own property; an entry with
zero properties yields one record — the base record itself — rather
than zero records. -/
theorem C5_fanout_amended (entry : XmlElem) :
    (trtyragPropList entry = [] →
      trtyrag_extract_entry entry = [trtyrag_extract_base entry]) ∧
    (trtyragPropList entry ≠ [] →
      (trtyrag_extract_entry entry).length = (trtyragPropList entry).length ∧
      ∀ i (h : i < (trtyragPropList entry).length)
        (h2 : i < (trtyrag_extract_entry entry).length),
        (∀ k ∈ trtyragBaseKeys,
          dictGet ((trtyrag_extract_entry entry).get ⟨i, h2⟩) k =
            dictGet (trtyrag_extract_base entry) k) ∧
        dictGet ((trtyrag_extract_entry entry).get ⟨i, h2⟩) "serial_no" =
          some (optStr (getXmlText
            (elemFind ((trtyragPropList entry).get ⟨i, h⟩) "serial-no"))) ∧
        dictGet ((trtyrag_extract_entry entry).get ⟨i, h2⟩) "registration_number" =
          some (optStr (getXmlText
            (elemFind ((trtyragPropList entry).get ⟨i, h⟩) "registration-no"))) ∧
        dictGet ((trtyrag_extract_entry entry).get ⟨i, h2⟩) "intl_reg_no" =
          some (optStr (getXmlText
            (elemFind ((trtyragPropList entry).get ⟨i, h⟩) "intl-reg-no")))) := by
  constructor
  · intro hempty
    unfold trtyrag_extract_entry
    simp [hempty]
  · intro hne
    have hrec : trtyrag_extract_entry entry =
        (trtyragPropList entry).map (trtyragPropRecord (trtyrag_extract_base entry)) := by
      unfold trtyrag_extract_entry
      simp [hne]
    constructor
    · rw [hrec]; simp
    · intro i h h2
      have hget : (trtyrag_extract_entry entry).get ⟨i, h2⟩ =
          trtyragPropRecord (trtyrag_extract_base entry)
            ((trtyragPropList entry).get ⟨i, h⟩) := by
        have hcast := List.get_of_eq hrec ⟨i, h2⟩
        rw [hcast, List.get_map]
      rw [hget]
      exact trtyragPropRecord_fields _ _

/-- A concrete assignment entry whose `properties` collection is empty. -/
def entryNoPropsC5 : XmlElem :=
  .mk "assignment-entry" Option.none
    [.mk "assignment" Option.none
      [.mk "reel-no" (some "12") [], .mk "frame-no" (some "34") []],
     .mk "properties" Option.none []]

/-- C5 counterexample: an assignment entry whose repeating sub-collection
is empty produces one record (the base record), not zero. -/
theorem C5_counterexample :
    trtyragPropList entryNoPropsC5 = [] ∧
    (trtyrag_extract_entry entryNoPropsC5).length = 1 ∧
    trtyrag_extract_entry entryNoPropsC5 = [trtyrag_extract_base entryNoPropsC5] := by
  refine ⟨rfl, rfl, rfl⟩

/-- A concrete assignment entry with two properties. -/
def entryTwoPropsC5 : XmlElem :=
  .mk "assignment-entry" Option.none
    [.mk "assignment" Option.none
      [.mk "reel-no" (some "12") [], .mk "frame-no" (some "34") []],
     .mk "properties" Option.none
       [.mk "property" Option.none [.mk "serial-no" (some "111") []],
        .mk "property" Option.none [.mk "serial-no" (some "333") []]]]

/-- Witness for C5 at a concrete two-property entry. -/
theorem C5_fanout_witness :
    (trtyragPropList entryTwoPropsC5).length = 2 ∧
    (trtyrag_extract_entry entryTwoPropsC5).length = 2 ∧
    dictGet ((trtyrag_extract_entry entryTwoPropsC5).get
      ⟨1, by decide⟩) "reel_no" =
      dictGet (trtyrag_extract_base entryTwoPropsC5) "reel_no" ∧
    dictGet ((trtyrag_extract_entry entryTwoPropsC5).get
      ⟨1, by decide⟩) "serial_no" = some (.str "333") := by
  have h := (C5_fanout_amended entryTwoPropsC5).2 (by decide)
  have h1 := (h.2 1 (by decide) (by rw [h.1]; decide))
  refine ⟨by decide, h.1.trans (by decide), ?_, ?_⟩
  · exact h1.1 "reel_no" (by decide)
  · rw [h1.2.1]; rfl

/-! ## C7: record-boundary tag matching -/

/-- Every extracted record is a non-empty dict (it always carries the
metadata fields), so the `if record:` truthiness test always passes. -/
theorem extract_record_ne_nil (pid : String) (e : XmlElem) :
    extract_record pid e ≠ [] := by
  unfold extract_record
  split
  · unfold extract_assignment_record_ctrl
    exact dictSet_ne_nil _ _ _
  · split
    · unfold extract_case_file_record
      exact dictSet_ne_nil _ _ _
    · exact dictSet_ne_nil _ _ _

/-- The records produced by the XML element loop, flattened: exactly the
elements whose raw tag is in the target list, extracted in order. -/
theorem xmlGo_join (bs : Nat) (pid : String) (targets : List String) :
    ∀ (elems : List XmlElem) (batch : List Rec),
      (xmlGo bs pid targets elems batch).flatten =
        batch ++ (elems.filter (fun e => e.tag ∈ targets)).map (extract_record pid) := by
  intro elems
  induction elems with
  | nil =>
    intro batch
    unfold xmlGo
    split
    · simp
    · next h =>
      simp only [ne_eq, Decidable.not_not] at h
      simp [h]
  | cons e rest ih =>
    intro batch
    unfold xmlGo
    by_cases ht : e.tag ∈ targets
    · rw [if_pos (by simpa using ht)]
      rw [if_pos (by simpa using extract_record_ne_nil pid e)]
      rw [List.filter_cons_of_pos (by simpa using ht)]
      dsimp only
      split
      · rw [List.flatten_cons, ih []]
        simp
      · rw [ih (batch ++ [extract_record pid e])]
        simp
    · rw [if_neg (by simpa using ht)]
      rw [List.filter_cons_of_neg (by simpa using ht)]
      exact ih batch

/-- No target element name carries a Clark-notation namespace prefix. -/
theorem target_elements_no_namespace (pid t : String)
    (ht : t ∈ target_elements pid) : t.data.head? ≠ some '{' := by
  unfold target_elements at ht
  cases hf : element_mapping.find? (fun p => p.1 = pid) with
  | none =>
    rw [hf] at ht
    simp only [Option.map_none', Option.getD_none] at ht
    fin_cases ht <;> decide
  | some p =>
    rw [hf] at ht
    simp only [Option.map_some', Option.getD_some] at ht
    have hp := List.mem_of_find?_eq_some hf
    fin_cases hp <;> fin_cases ht <;> decide

/-- C7 (amended): the record stream of the hierarchical parser consists
exactly of the elements whose raw tag string equals a target element
name; no target name carries a namespace prefix, so an element with a
Clark-notation (namespaced) tag is never matched even when its local
name is a target. -/
theorem C7_tag_matching_amended :
    (∀ (bs : Nat) (pid : String) (elems : List XmlElem),
      (process_large_xml_ctrl bs pid elems).flatten =
        (elems.filter (fun e => e.tag ∈ target_elements pid)).map
          (extract_record pid)) ∧
    (∀ (pid t : String), t ∈ target_elements pid → t.data.head? ≠ some '{') ∧
    (∀ (bs : Nat) (pid : String) (e : XmlElem) (rest : List XmlElem),
      e.tag.data.head? = some '{' →
      (process_large_xml_ctrl bs pid (e :: rest)).flatten =
        (process_large_xml_ctrl bs pid rest).flatten) := by
  refine ⟨?_, target_elements_no_namespace, ?_⟩
  · intro bs pid elems
    unfold process_large_xml_ctrl
    rw [xmlGo_join]
    simp
  · intro bs pid e rest hhead
    have hmem : e.tag ∉ target_elements pid := by
      intro hmem
      exact target_elements_no_namespace pid e.tag hmem hhead
    unfold process_large_xml_ctrl
    rw [xmlGo_join, xmlGo_join, List.filter_cons_of_neg (by simpa using hmem)]

/-- Witness for C7 at a concrete target name and namespaced element. -/
theorem C7_tag_matching_witness :
    "proceeding".data.head? ≠ some '{' ∧
    (process_large_xml_ctrl 10 "TTABTDXF"
      [.mk "{ns}proceeding" Option.none [.mk "{ns}number" (some "77") []]]).flatten =
      (process_large_xml_ctrl 10 "TTABTDXF" ([] : List XmlElem)).flatten := by
  constructor
  · exact C7_tag_matching_amended.2.1 "TTABTDXF" "proceeding" (by decide)
  · exact C7_tag_matching_amended.2.2 10 "TTABTDXF" _ [] (by rfl)

/-- C7 counterexample: an element whose local name is a target but whose
document declares a namespace (Clark-notation raw tag) is not matched —
the parser extracts nothing from it, contradicting namespace-agnostic
matching. -/
theorem C7_counterexample :
    localName "{ns}proceeding" = "proceeding" ∧
    "proceeding" ∈ target_elements "TTABTDXF" ∧
    process_large_xml_ctrl 10 "TTABTDXF"
      [.mk "{ns}proceeding" Option.none [.mk "{ns}number" (some "77") []]] = [] := by
  refine ⟨by decide, by decide, by rfl⟩

/-! ## C1: resume from the staging log -/

/-- C1 (amended): for a source file whose staging log exists and holds at
least one staged record, processing hands the staged records straight to
the database loader — the returned case-file list is empty, the CSV rows
are never read (the result does not depend on them and the read flag is
false) — and the checkpoint and staging log are deleted exactly when the
load reports a positive saved count; on a failed or zero-row load the
on-disk state is unchanged. -/
theorem C1_resume_amended (bs : Nat) (failAt : Option Nat) (cs : Nat)
    (sample : Option Nat) (ds : String) (rows : List Rec) (st : FsState)
    (table : List Rec) (hE : st.processedExists = true) (hS : st.staged ≠ []) :
    process_case_file_csv bs failAt cs sample ds rows st table =
      ([],
       (if 0 < (save_case_files_to_db bs failAt table st.staged).1
        then clear_checkpoint_and_processed st else st),
       (save_case_files_to_db bs failAt table st.staged).2,
       false) := by
  have hload : load_processed_records st = st.staged := by
    simp [load_processed_records, hE]
  unfold process_case_file_csv
  rw [if_pos ⟨hE, by rw [hload]; exact hS⟩]
  unfold resume_from_processed_file
  rw [hload]
  rw [if_neg (by simpa using hS)]
  by_cases hsaved : 0 < (save_case_files_to_db bs failAt table st.staged).1
  · simp [hsaved]
  · simp [hsaved]

/-- A staging-log state with one staged record, for the C1 witness. -/
def stagedStC1 : FsState where
  checkpoint := some (7, 0)
  processedExists := true
  staged := [[("serial_number", .str "99"), ("data_source", .str "x [CSV]")]]

/-- Witness for C1 at a concrete staged state. -/
theorem C1_resume_witness :
    process_case_file_csv 5000 Option.none 100000 Option.none "src"
      [[("serial_no", .int 12345678)]] stagedStC1 [] =
      ([],
       (if 0 < (save_case_files_to_db 5000 Option.none [] stagedStC1.staged).1
        then clear_checkpoint_and_processed stagedStC1 else stagedStC1),
       (save_case_files_to_db 5000 Option.none [] stagedStC1.staged).2,
       false) :=
  C1_resume_amended 5000 Option.none 100000 Option.none "src"
    [[("serial_no", .int 12345678)]] stagedStC1 [] (by rfl) (by decide)

/-- A file state whose staging log exists but holds no valid records. -/
def emptyLogStC1 : FsState where
  checkpoint := some (5, 0)
  processedExists := true
  staged := []

/-- C1 counterexample: for a file whose staging log exists (but is
empty), the pipeline does re-read and re-normalize the source CSV — the
read flag of the embedded `process_case_file_csv` is true. -/
theorem C1_counterexample :
    emptyLogStC1.processedExists = true ∧
    (process_case_file_csv 5000 Option.none 100000 Option.none "src"
      [[("serial_no", .int 12345678)]] emptyLogStC1 []).2.2.2 = true := by
  refine ⟨rfl, by rfl⟩

/-! ## C2: idempotent batch loading -/

/-- Number of table rows carrying value `v` in column `k`. -/
def countKey (table : List Rec) (k : String) (v : Val) : Nat :=
  (table.filter (fun row => dictGet row k = some v)).length

theorem countKey_append_single (t : List Rec) (r : Rec) (k : String) (v : Val) :
    countKey (t ++ [r]) k v =
      countKey t k v + (if dictGet r k = some v then 1 else 0) := by
  by_cases h : dictGet r k = some v
  · simp [countKey, List.filter_append, List.filter, h]
  · simp [countKey, List.filter_append, List.filter, h]

theorem countKey_cons (x : Rec) (t : List Rec) (k : String) (v : Val) :
    countKey (x :: t) k v =
      (if dictGet x k = some v then 1 else 0) + countKey t k v := by
  by_cases h : dictGet x k = some v
  · simp [countKey, List.filter_cons, h]
    omega
  · simp [countKey, List.filter_cons, h]

theorem countKey_pos_iff_any (t : List Rec) (k : String) (v : Val) :
    0 < countKey t k v ↔ t.any (fun row => dictGet row k = some v) = true := by
  induction t with
  | nil => simp [countKey]
  | cons x rest ih =>
    rw [countKey_cons]
    by_cases hx : dictGet x k = some v
    · simp [hx]
    · simp [List.any_cons, hx, ih]

theorem rowKey_some (natKey : String) (r : Rec) (v : Val)
    (h : rowKey natKey r = some v) :
    dictGet r natKey = some v ∧ v ≠ Val.none := by
  unfold rowKey at h
  cases hg : dictGet r natKey with
  | none => rw [hg] at h; exact absurd h (by simp)
  | some w =>
    rw [hg] at h
    dsimp only at h
    by_cases hw : w = Val.none
    · rw [if_pos hw] at h; exact absurd h (by simp)
    · rw [if_neg hw] at h
      have hwv : w = v := by injection h
      subst hwv
      exact ⟨rfl, hw⟩

theorem rowKey_none (natKey : String) (r : Rec) (v : Val)
    (h : rowKey natKey r = Option.none) (hv : v ≠ Val.none) :
    dictGet r natKey ≠ some v := by
  unfold rowKey at h
  cases hg : dictGet r natKey with
  | none => simp [hg]
  | some w =>
    rw [hg] at h
    dsimp only at h
    by_cases hw : w = Val.none
    · subst hw
      simp
      exact fun he => hv he.symm
    · rw [if_neg hw] at h
      exact absurd h (by simp)

theorem insertIgnoreAll_any_mono (natKey : String) (rows : List Rec) (v : Val) :
    ∀ (table : List Rec),
      table.any (fun row => dictGet row natKey = some v) = true →
      (insertIgnoreAll natKey table rows).any
        (fun row => dictGet row natKey = some v) = true := by
  induction rows with
  | nil => intro table h; simpa [insertIgnoreAll] using h
  | cons r rest ih =>
    intro table h
    unfold insertIgnoreAll at ih ⊢
    rw [List.foldl_cons]
    apply ih
    cases rowKey natKey r with
    | some w =>
      simp only
      split
      · exact h
      · simp only [List.any_append, h, Bool.true_or]
    | none => simp only [List.any_append, h, Bool.true_or]

theorem insertIgnoreAll_any_of_mem (natKey : String) (rows : List Rec) (v : Val) :
    ∀ (table : List Rec) (r : Rec), r ∈ rows → rowKey natKey r = some v →
      (insertIgnoreAll natKey table rows).any
        (fun row => dictGet row natKey = some v) = true := by
  induction rows with
  | nil => intro table r hr; exact absurd hr (by simp)
  | cons r0 rest ih =>
    intro table r hr hk
    unfold insertIgnoreAll at ih ⊢
    rw [List.foldl_cons]
    rcases List.mem_cons.mp hr with he | ht
    · subst he
      rw [hk]
      simp only
      split
      · next hc => exact insertIgnoreAll_any_mono natKey rest v table hc
      · apply insertIgnoreAll_any_mono natKey rest v
        simp [List.any_append, (rowKey_some natKey r v hk).1]
    · cases rowKey natKey r0 with
      | some w =>
        simp only
        split
        · exact ih table r ht hk
        · exact ih _ r ht hk
      | none => exact ih _ r ht hk

theorem insertIgnoreAll_uniq (natKey : String) (rows : List Rec) :
    ∀ (table : List Rec),
      (∀ v, v ≠ Val.none → countKey table natKey v ≤ 1) →
      ∀ v, v ≠ Val.none →
        countKey (insertIgnoreAll natKey table rows) natKey v ≤ 1 := by
  induction rows with
  | nil => intro table h; simpa [insertIgnoreAll] using h
  | cons r rest ih =>
    intro table h
    unfold insertIgnoreAll at ih ⊢
    rw [List.foldl_cons]
    apply ih
    intro v hv
    cases hk : rowKey natKey r with
    | none =>
      simp only
      rw [countKey_append_single, if_neg (rowKey_none natKey r v hk hv)]
      exact h v hv
    | some w =>
      simp only
      split
      · exact h v hv
      · next hc =>
        rw [countKey_append_single]
        by_cases hvw : v = w
        · subst hvw
          have h0 : countKey table natKey v = 0 := by
            by_contra hne
            have := (countKey_pos_iff_any table natKey v).mp (Nat.pos_of_ne_zero hne)
            exact hc this
          rw [h0]
          split <;> simp
        · rw [if_neg (by rw [(rowKey_some natKey r w hk).1]; simp [Ne.symm hvw])]
          exact h v hv

theorem insertIgnoreAll_stable (natKey : String) (rows : List Rec) :
    ∀ (table : List Rec),
      (∀ r ∈ rows, ∃ v, rowKey natKey r = some v ∧
        table.any (fun row => dictGet row natKey = some v) = true) →
      insertIgnoreAll natKey table rows = table := by
  induction rows with
  | nil => intro table _; rfl
  | cons r rest ih =>
    intro table h
    obtain ⟨v, hk, hany⟩ := h r (by simp)
    unfold insertIgnoreAll at ih ⊢
    rw [List.foldl_cons, hk]
    simp only
    rw [if_pos hany]
    exact ih table (fun x hx => h x (by simp [hx]))

/-- C2, `save_batch` half: with every inserted tuple carrying a non-null
natural identifier and the table unique per identifier, replaying the
same batch leaves the table unchanged and with exactly one row per
identifier of the batch. -/
theorem save_batch_replay (dbCols : List String) (natKey pid : String) (bn : Int)
    (table batch : List Rec)
    (hkeys : ∀ r ∈ insertedRows dbCols pid bn batch, rowKey natKey r ≠ Option.none)
    (huniq : ∀ v, v ≠ Val.none → countKey table natKey v ≤ 1) :
    ((save_batch dbCols natKey Option.none
        (save_batch dbCols natKey Option.none table batch pid bn).2 batch pid bn).2 =
      (save_batch dbCols natKey Option.none table batch pid bn).2) ∧
    (∀ r ∈ insertedRows dbCols pid bn batch, ∀ v, rowKey natKey r = some v →
      countKey (save_batch dbCols natKey Option.none table batch pid bn).2 natKey v = 1) := by
  have hkeys2 : ∀ r ∈ insertedRows dbCols pid bn batch, ∃ v, rowKey natKey r = some v := by
    intro r hr
    cases hk : rowKey natKey r with
    | none => exact absurd hk (hkeys r hr)
    | some v => exact ⟨v, rfl⟩
  by_cases hfil : filteredBatch dbCols pid bn batch = []
  · have hins : insertedRows dbCols pid bn batch = [] := by
      unfold insertedRows
      rw [hfil]
      rfl
    constructor
    · unfold save_batch
      simp [hfil]
    · intro r hr
      rw [hins] at hr
      exact absurd hr (by simp)
  · have hT1 : (save_batch dbCols natKey Option.none table batch pid bn).2 =
        insertIgnoreAll natKey table (insertedRows dbCols pid bn batch) := by
      unfold save_batch
      simp [hfil]
    constructor
    · have hT2 : (save_batch dbCols natKey Option.none
          (save_batch dbCols natKey Option.none table batch pid bn).2 batch pid bn).2 =
          insertIgnoreAll natKey (save_batch dbCols natKey Option.none table batch pid bn).2
            (insertedRows dbCols pid bn batch) := by
        unfold save_batch
        simp [hfil]
      rw [hT2, hT1]
      apply insertIgnoreAll_stable
      intro r hr
      obtain ⟨v, hv⟩ := hkeys2 r hr
      exact ⟨v, hv, insertIgnoreAll_any_of_mem natKey _ v table r hr hv⟩
    · intro r hr v hv
      rw [hT1]
      have hle := insertIgnoreAll_uniq natKey (insertedRows dbCols pid bn batch)
        table huniq v (rowKey_some natKey r v hv).2
      have hge : 0 < countKey (insertIgnoreAll natKey table
          (insertedRows dbCols pid bn batch)) natKey v :=
        (countKey_pos_iff_any _ _ _).mpr
          (insertIgnoreAll_any_of_mem natKey _ v table r hr hv)
      omega

theorem chunksOfFuel_flatten (fuel : Nat) :
    ∀ (n : Nat) (l : List α), (chunksOfFuel fuel n l).flatten = l := by
  induction fuel with
  | zero =>
    intro n l
    cases l with
    | nil => rfl
    | cons x xs => simp [chunksOfFuel]
  | succ fuel ih =>
    intro n l
    cases l with
    | nil => rfl
    | cons x xs =>
      unfold chunksOfFuel
      split
      · simp
      · simp [ih]

theorem chunksOf_flatten (n : Nat) (l : List α) : (chunksOf n l).flatten = l :=
  chunksOfFuel_flatten l.length n l

/-- The serial number of a row is untouched by the update-columns fold. -/
theorem updateCols_serial (x row : Rec) :
    dictGet (caseFileUpdateCols.foldl (fun y c => dictSet y c (dictGetD row c .none)) x)
      "serial_number" = dictGet x "serial_number" := by
  simp only [caseFileUpdateCols, List.foldl_cons, List.foldl_nil]
  rw [dictGet_dictSet_ne _ _ _ _ (by decide), dictGet_dictSet_ne _ _ _ _ (by decide),
    dictGet_dictSet_ne _ _ _ _ (by decide), dictGet_dictSet_ne _ _ _ _ (by decide),
    dictGet_dictSet_ne _ _ _ _ (by decide), dictGet_dictSet_ne _ _ _ _ (by decide),
    dictGet_dictSet_ne _ _ _ _ (by decide)]

theorem countKey_map_update (t : List Rec) (row : Rec) (w v : Val) :
    countKey (t.map (fun x =>
      if dictGet x "serial_number" = some w then
        caseFileUpdateCols.foldl (fun y c => dictSet y c (dictGetD row c .none)) x
      else x)) "serial_number" v = countKey t "serial_number" v := by
  induction t with
  | nil => rfl
  | cons x rest ih =>
    rw [List.map_cons, countKey_cons, countKey_cons, ih]
    congr 1
    by_cases hx : dictGet x "serial_number" = some w
    · rw [if_pos hx, updateCols_serial]
    · rw [if_neg hx]

theorem upsert_any_mono (t : List Rec) (item : Rec) (v : Val)
    (h : t.any (fun x => dictGet x "serial_number" = some v) = true) :
    (upsertCaseFileRow t item).any
      (fun x => dictGet x "serial_number" = some v) = true := by
  unfold upsertCaseFileRow
  cases caseFileRowKey item with
  | none => simp only [List.any_append, h, Bool.true_or]
  | some w =>
    dsimp only
    split
    · rw [List.any_map]
      rw [List.any_eq_true] at h ⊢
      obtain ⟨x, hx, hv⟩ := h
      refine ⟨x, hx, ?_⟩
      simp only [Function.comp]
      split
      · simpa [updateCols_serial] using hv
      · exact hv
    · simp only [List.any_append, h, Bool.true_or]

theorem upsert_any_self (t : List Rec) (item : Rec) (v : Val)
    (hk : caseFileRowKey item = some v) :
    (upsertCaseFileRow t item).any
      (fun x => dictGet x "serial_number" = some v) = true := by
  unfold upsertCaseFileRow
  rw [hk]
  dsimp only
  split
  · next hc =>
    rw [List.any_map]
    rw [List.any_eq_true] at hc ⊢
    obtain ⟨x, hx, hv⟩ := hc
    refine ⟨x, hx, ?_⟩
    simp only [Function.comp]
    split
    · simpa [updateCols_serial] using hv
    · exact hv
  · have := (rowKey_some "serial_number" (caseFileRow item) v hk).1
    simp [List.any_append, this]

theorem upsert_uniq (t : List Rec) (item : Rec)
    (h : ∀ v, v ≠ Val.none → countKey t "serial_number" v ≤ 1) :
    ∀ v, v ≠ Val.none → countKey (upsertCaseFileRow t item) "serial_number" v ≤ 1 := by
  intro v hv
  unfold upsertCaseFileRow
  cases hk : caseFileRowKey item with
  | none =>
    dsimp only
    rw [countKey_append_single,
      if_neg (rowKey_none "serial_number" (caseFileRow item) v hk hv)]
    exact h v hv
  | some w =>
    dsimp only
    split
    · rw [countKey_map_update]
      exact h v hv
    · next hc =>
      rw [countKey_append_single]
      by_cases hvw : v = w
      · subst hvw
        have h0 : countKey t "serial_number" v = 0 := by
          by_contra hne
          exact hc ((countKey_pos_iff_any t _ v).mp (Nat.pos_of_ne_zero hne))
        rw [h0]
        split <;> simp
      · rw [if_neg (by
          rw [(rowKey_some "serial_number" (caseFileRow item) w hk).1]
          simp [Ne.symm hvw])]
        exact h v hv

theorem upsert_countKey_stable (t : List Rec) (item : Rec) (v : Val)
    (hv : v ≠ Val.none)
    (hpres : ∀ w, caseFileRowKey item = some w →
      t.any (fun x => dictGet x "serial_number" = some w) = true) :
    countKey (upsertCaseFileRow t item) "serial_number" v =
      countKey t "serial_number" v := by
  unfold upsertCaseFileRow
  cases hk : caseFileRowKey item with
  | none =>
    dsimp only
    rw [countKey_append_single,
      if_neg (rowKey_none "serial_number" (caseFileRow item) v hk hv)]
    omega
  | some w =>
    dsimp only
    rw [if_pos (hpres w hk)]
    exact countKey_map_update t (caseFileRow item) w v

theorem countKey_nil (k : String) (v : Val) : countKey [] k v = 0 := rfl

theorem foldUpsert_any_mono (b : List Rec) (v : Val) :
    ∀ (t : List Rec), t.any (fun x => dictGet x "serial_number" = some v) = true →
      (b.foldl upsertCaseFileRow t).any
        (fun x => dictGet x "serial_number" = some v) = true := by
  induction b with
  | nil => intro t h; simpa using h
  | cons item rest ih =>
    intro t h
    rw [List.foldl_cons]
    exact ih _ (upsert_any_mono t item v h)

theorem foldUpsert_any_of_mem (b : List Rec) (v : Val) :
    ∀ (t : List Rec) (item : Rec), item ∈ b → caseFileRowKey item = some v →
      (b.foldl upsertCaseFileRow t).any
        (fun x => dictGet x "serial_number" = some v) = true := by
  induction b with
  | nil => intro t item him; exact absurd him (by simp)
  | cons i0 rest ih =>
    intro t item him hk
    rw [List.foldl_cons]
    rcases List.mem_cons.mp him with he | hm
    · subst he
      exact foldUpsert_any_mono rest v _ (upsert_any_self t item v hk)
    · exact ih _ item hm hk

theorem foldUpsert_uniq (b : List Rec) :
    ∀ (t : List Rec), (∀ v, v ≠ Val.none → countKey t "serial_number" v ≤ 1) →
      ∀ v, v ≠ Val.none → countKey (b.foldl upsertCaseFileRow t) "serial_number" v ≤ 1 := by
  induction b with
  | nil => intro t h; simpa using h
  | cons item rest ih =>
    intro t h
    rw [List.foldl_cons]
    exact ih _ (upsert_uniq t item h)

theorem foldUpsert_countKey_stable (b : List Rec) :
    ∀ (t : List Rec) (v : Val), v ≠ Val.none →
      (∀ item ∈ b, ∀ w, caseFileRowKey item = some w →
        t.any (fun x => dictGet x "serial_number" = some w) = true) →
      countKey (b.foldl upsertCaseFileRow t) "serial_number" v =
        countKey t "serial_number" v := by
  induction b with
  | nil => intro t v _ _; rfl
  | cons item rest ih =>
    intro t v hv hpres
    rw [List.foldl_cons]
    rw [ih _ v hv ?_]
    · exact upsert_countKey_stable t item v hv
        (fun w hw => hpres item (by simp) w hw)
    · intro it hit w hw
      exact upsert_any_mono t item w (hpres it (by simp [hit]) w hw)

theorem saveGo_any_mono (bs : List (List Rec)) (failAt : Option Nat) (v : Val) :
    ∀ (i saved : Nat) (t : List Rec),
      t.any (fun x => dictGet x "serial_number" = some v) = true →
      (saveCaseFilesGo failAt bs i saved t).2.any
        (fun x => dictGet x "serial_number" = some v) = true := by
  induction bs with
  | nil => intro i saved t h; simpa [saveCaseFilesGo] using h
  | cons b rest ih =>
    intro i saved t h
    unfold saveCaseFilesGo
    split
    · exact h
    · exact ih _ _ _ (foldUpsert_any_mono b v t h)

theorem saveGo_any_of_mem (bs : List (List Rec)) (v : Val)
    (hdup : ∀ b ∈ bs, batchHasDupKey b = false) :
    ∀ (i saved : Nat) (t : List Rec) (b : List Rec) (item : Rec),
      b ∈ bs → item ∈ b → caseFileRowKey item = some v →
      (saveCaseFilesGo Option.none bs i saved t).2.any
        (fun x => dictGet x "serial_number" = some v) = true := by
  induction bs with
  | nil => intro i saved t b item hb; exact absurd hb (by simp)
  | cons b0 rest ih =>
    intro i saved t b item hb him hk
    unfold saveCaseFilesGo
    rw [if_neg (by simp [hdup b0 (by simp)])]
    rcases List.mem_cons.mp hb with he | hm
    · subst he
      exact saveGo_any_mono rest Option.none v _ _ _
        (foldUpsert_any_of_mem b v t item him hk)
    · exact ih (fun x hx => hdup x (by simp [hx])) _ _ _ b item hm him hk

theorem saveGo_uniq (bs : List (List Rec)) (failAt : Option Nat) :
    ∀ (i saved : Nat) (t : List Rec),
      (∀ v, v ≠ Val.none → countKey t "serial_number" v ≤ 1) →
      ∀ v, v ≠ Val.none →
        countKey (saveCaseFilesGo failAt bs i saved t).2 "serial_number" v ≤ 1 := by
  induction bs with
  | nil => intro i saved t h; simpa [saveCaseFilesGo] using h
  | cons b rest ih =>
    intro i saved t h
    unfold saveCaseFilesGo
    split
    · exact h
    · exact ih _ _ _ (foldUpsert_uniq b t h)

theorem saveGo_countKey_stable (bs : List (List Rec))
    (hdup : ∀ b ∈ bs, batchHasDupKey b = false) :
    ∀ (i saved : Nat) (t : List Rec) (v : Val), v ≠ Val.none →
      (∀ b ∈ bs, ∀ item ∈ b, ∀ w, caseFileRowKey item = some w →
        t.any (fun x => dictGet x "serial_number" = some w) = true) →
      countKey (saveCaseFilesGo Option.none bs i saved t).2 "serial_number" v =
        countKey t "serial_number" v := by
  induction bs with
  | nil => intro i saved t v _ _; rfl
  | cons b rest ih =>
    intro i saved t v hv hpres
    unfold saveCaseFilesGo
    rw [if_neg (by simp [hdup b (by simp)])]
    rw [ih (fun x hx => hdup x (by simp [hx])) _ _ _ v hv ?_]
    · exact foldUpsert_countKey_stable b t v hv
        (fun item hit w hw => hpres b (by simp) item hit w hw)
    · intro b2 hb2 item hit w hw
      exact foldUpsert_any_mono b w t
        (hpres b2 (by simp [hb2]) item hit w hw)

/-- C2, `save_case_files_to_db` half: with every record carrying a
non-null serial number, no duplicate serials within one flush buffer,
and the table unique per serial, loading the same record list twice
leaves exactly one row per serial number of the list. -/
theorem save_case_files_replay (bs : Nat) (table cfs : List Rec)
    (hnodup : ∀ b ∈ chunksOf bs cfs, batchHasDupKey b = false)
    (huniq : ∀ v, v ≠ Val.none → countKey table "serial_number" v ≤ 1) :
    ∀ item ∈ cfs, ∀ v, caseFileRowKey item = some v →
      countKey (save_case_files_to_db bs Option.none
        (save_case_files_to_db bs Option.none table cfs).2 cfs).2
        "serial_number" v = 1 := by
  intro item hitem v hk
  have hchunk : ∃ b ∈ chunksOf bs cfs, item ∈ b := by
    have : item ∈ (chunksOf bs cfs).flatten := by
      rw [chunksOf_flatten]; exact hitem
    simpa [List.mem_flatten] using this
  obtain ⟨b, hb, hib⟩ := hchunk
  have hT1any : (save_case_files_to_db bs Option.none table cfs).2.any
      (fun x => dictGet x "serial_number" = some v) = true := by
    unfold save_case_files_to_db
    exact saveGo_any_of_mem _ v hnodup _ _ _ b item hb hib hk
  have hT1uniq : ∀ w, w ≠ Val.none →
      countKey (save_case_files_to_db bs Option.none table cfs).2
        "serial_number" w ≤ 1 := by
    unfold save_case_files_to_db
    exact saveGo_uniq _ _ _ _ _ huniq
  have hstable : countKey (save_case_files_to_db bs Option.none
      (save_case_files_to_db bs Option.none table cfs).2 cfs).2 "serial_number" v =
      countKey (save_case_files_to_db bs Option.none table cfs).2 "serial_number" v := by
    unfold save_case_files_to_db
    apply saveGo_countKey_stable _ hnodup _ _ _ v (rowKey_some _ _ _ hk).2
    intro b2 hb2 it hit w hw
    have : it ∈ cfs := by
      rw [← chunksOf_flatten bs cfs]
      exact List.mem_flatten.mpr ⟨b2, hb2, hit⟩
    exact saveGo_any_of_mem _ w hnodup _ _ _ b2 it hb2 hit hw
  rw [hstable]
  have hge : 0 < countKey (save_case_files_to_db bs Option.none table cfs).2
      "serial_number" v := (countKey_pos_iff_any _ _ _).mpr hT1any
  have hle := hT1uniq v (rowKey_some _ _ _ hk).2
  omega

/-- C2: the bulk writes are keyed on the natural identifier, so a
replayed batch performs no duplicate inserts: for `save_batch` (insert
or ignore on the table unique key) loading the same batch twice leaves
the table as after one load, with exactly one row per identifier of the
batch; for `save_case_files_to_db` (insert or update keyed on
`serial_number`) loading the same record list twice leaves exactly one
row per serial number. -/
theorem C2_replay_one_row_per_id :
    (∀ (dbCols : List String) (natKey pid : String) (bn : Int)
        (table batch : List Rec),
      (∀ r ∈ insertedRows dbCols pid bn batch, rowKey natKey r ≠ Option.none) →
      (∀ v, v ≠ Val.none → countKey table natKey v ≤ 1) →
      ((save_batch dbCols natKey Option.none
          (save_batch dbCols natKey Option.none table batch pid bn).2
          batch pid bn).2 =
        (save_batch dbCols natKey Option.none table batch pid bn).2 ∧
       ∀ r ∈ insertedRows dbCols pid bn batch, ∀ v, rowKey natKey r = some v →
         countKey (save_batch dbCols natKey Option.none table batch pid bn).2
           natKey v = 1)) ∧
    (∀ (bs : Nat) (table cfs : List Rec),
      (∀ b ∈ chunksOf bs cfs, batchHasDupKey b = false) →
      (∀ v, v ≠ Val.none → countKey table "serial_number" v ≤ 1) →
      ∀ item ∈ cfs, ∀ v, caseFileRowKey item = some v →
        countKey (save_case_files_to_db bs Option.none
          (save_case_files_to_db bs Option.none table cfs).2 cfs).2
          "serial_number" v = 1) :=
  ⟨fun dbCols natKey pid bn table batch hkeys huniq =>
    save_batch_replay dbCols natKey pid bn table batch hkeys huniq,
   fun bs table cfs hnodup huniq =>
    save_case_files_replay bs table cfs hnodup huniq⟩

/-- Witness for C2 at a concrete batch and record list. -/
theorem C2_replay_witness :
    ((save_batch ["serial_no", "batch_number"] "serial_no" Option.none
        (save_batch ["serial_no", "batch_number"] "serial_no" Option.none []
          [[("serial_no", .str "77")]] "P1" 1).2
        [[("serial_no", .str "77")]] "P1" 1).2 =
      (save_batch ["serial_no", "batch_number"] "serial_no" Option.none []
        [[("serial_no", .str "77")]] "P1" 1).2) ∧
    countKey (save_case_files_to_db 5000 Option.none
      (save_case_files_to_db 5000 Option.none []
        [[("serial_number", .str "88")]]).2
      [[("serial_number", .str "88")]]).2 "serial_number" (.str "88") = 1 := by
  constructor
  · exact (C2_replay_one_row_per_id.1 ["serial_no", "batch_number"] "serial_no" "P1" 1
      [] [[("serial_no", .str "77")]] (by decide)
      (fun _ _ => by rw [countKey_nil]; exact Nat.zero_le 1)).1
  · exact C2_replay_one_row_per_id.2 5000 [] [[("serial_number", .str "88")]]
      (by decide) (fun _ _ => by rw [countKey_nil]; exact Nat.zero_le 1)
      [("serial_number", .str "88")] (by decide)
      (.str "88") (by rfl)

/-! ## C6: CSV batching -/

theorem filter_map_update (r : Rec) (k : String) (v : Val) :
    (r.map (fun p => if p.1 = k then (k, v) else p)).filter (fun p => p.1 ≠ k) =
      r.filter (fun p => p.1 ≠ k) := by
  induction r with
  | nil => rfl
  | cons p rest ih =>
    by_cases h : p.1 = k
    · rw [List.map_cons, if_pos h, List.filter_cons_of_neg (by simp),
        List.filter_cons_of_neg (by simp [h]), ih]
    · rw [List.map_cons, if_neg h, List.filter_cons_of_pos (by simpa using h),
        List.filter_cons_of_pos (by simpa using h), ih]

theorem stripKey_dictSet (k : String) (r : Rec) (v : Val) :
    stripKey k (dictSet r k v) = stripKey k r := by
  unfold stripKey dictSet
  split
  · exact filter_map_update r k v
  · rw [List.filter_append]
    simp

theorem fpChunkGo_flatten (bs : Nat) (pid now : String) (l : List Rec) :
    ∀ (cur : List Rec) (bn : Nat),
      ((fpChunkGo bs pid now l cur bn).1.flatten).map (stripKey "batch_number") =
        cur.map (stripKey "batch_number") ++
          l.map (fun r => stripKey "batch_number" (fp_clean_record pid now r)) := by
  induction l with
  | nil =>
    intro cur bn
    unfold fpChunkGo
    split
    · simp
    · next h =>
      have : cur = [] := by simpa using h
      subst this
      simp
  | cons row rest ih =>
    intro cur bn
    unfold fpChunkGo
    dsimp only
    split
    · simp only [List.flatten_cons, List.map_append, ih, List.map_cons, List.map_nil,
        List.nil_append, stripKey_dictSet]
      simp
    · rw [ih]
      simp [stripKey_dictSet]

theorem fpCsvGo_flatten (bs : Nat) (pid now : String) (chunks : List (List Rec)) :
    ∀ bn, ((fpCsvGo bs pid now chunks bn).flatten).map (stripKey "batch_number") =
      chunks.flatten.map (fun r => stripKey "batch_number" (fp_clean_record pid now r)) := by
  induction chunks with
  | nil => intro bn; rfl
  | cons c rest ih =>
    intro bn
    unfold fpCsvGo
    dsimp only
    rw [List.flatten_append, List.map_append, fpChunkGo_flatten, ih]
    simp

theorem fpChunkGo_sizes (bs : Nat) (pid now : String) (l : List Rec) :
    ∀ (cur : List Rec) (bn : Nat), cur.length < bs →
      ((fpChunkGo bs pid now l cur bn).1.dropLast).all
        (fun b => b.length = bs) = true := by
  induction l with
  | nil =>
    intro cur bn _
    unfold fpChunkGo
    split <;> simp
  | cons row rest ih =>
    intro cur bn hcur
    unfold fpChunkGo
    dsimp only
    split
    · next hfl =>
      have hlen : (cur ++
          [dictSet (fp_clean_record pid now row) "batch_number" (.int bn)]).length = bs := by
        simp only [List.length_append, List.length_cons, List.length_nil] at hfl ⊢
        omega
      cases hr : (fpChunkGo bs pid now rest [] (bn + 1)).1 with
      | nil => simp
      | cons y ys =>
        have hrec := ih [] (bn + 1) (by simpa using Nat.lt_of_le_of_lt (Nat.zero_le _) hcur)
        rw [hr] at hrec
        show ((cur ++ [dictSet (fp_clean_record pid now row) "batch_number" (.int bn)]) ::
          (y :: ys).dropLast).all (fun b => b.length = bs) = true
        rw [List.all_cons, hrec]
        simp [hlen]
    · next hfl =>
      refine ih _ bn ?_
      simpa using Nat.lt_of_not_le hfl

theorem ctrlCsvGo_cur (bs : Nat) (pid : String) (c : List Rec)
    (rest : List (List Rec)) (cur : List Rec) :
    ctrlCsvGo bs pid (c :: rest) cur = ctrlCsvGo bs pid (c :: rest) [] := rfl

theorem ctrlCsvGo_spec (bs : Nat) (pid : String) (chunks : List (List Rec)) :
    ctrlCsvGo bs pid chunks [] = ctrlBatchesSpec bs pid chunks := by
  induction chunks with
  | nil => rfl
  | cons c rest ih =>
    cases rest with
    | nil =>
      unfold ctrlCsvGo ctrlBatchesSpec
      dsimp only
      split
      · simp [ctrlCsvGo]
      · rfl
    | cons c2 rest2 =>
      unfold ctrlCsvGo ctrlBatchesSpec
      dsimp only
      split
      · rw [ih]
        rfl
      · rw [ctrlCsvGo_cur, ih]
        simp

/-- Concrete six-row CSV input used for the C6 witness and counterexample. -/
def rowsC6 : List Rec :=
  [[("a", .str "r1")], [("a", .str "r2")], [("a", .str "r3")],
   [("a", .str "r4")], [("a", .str "r5")], [("a", .str "r6")]]

/-- C6 (amended): the `CSVProcessor` batcher never drops a record — the
concatenation of its emitted batches equals the normalized input rows in
order, up to the stamped `batch_number` — and within each pandas chunk
every batch but the last has exactly `batch_size` records, the chunk's
remainder being flushed at every chunk boundary (not only at
end-of-file).  The `ProcessingController` batcher instead emits each
chunk's cleaned records as one batch only if they number at least
`batch_size`, except for the final chunk which is emitted whenever
non-empty; records of undersized non-final chunks are dropped. -/
theorem C6_batching_amended :
    (∀ (bs cs : Nat) (pid now : String) (rows : List Rec),
      ((process_large_csv_fp bs cs pid now rows).flatten).map (stripKey "batch_number") =
        rows.map (fun r => stripKey "batch_number" (fp_clean_record pid now r))) ∧
    (∀ (bs : Nat) (pid now : String) (chunk : List Rec) (bn : Nat), 0 < bs →
      ((fpChunkGo bs pid now chunk [] bn).1.dropLast).all
        (fun b => b.length = bs) = true) ∧
    (∀ (bs : Nat) (pid : String) (chunks : List (List Rec)),
      ctrlCsvGo bs pid chunks [] = ctrlBatchesSpec bs pid chunks) := by
  refine ⟨?_, ?_, ?_⟩
  · intro bs cs pid now rows
    unfold process_large_csv_fp
    rw [fpCsvGo_flatten, chunksOf_flatten]
  · intro bs pid now chunk bn hbs
    exact fpChunkGo_sizes bs pid now chunk [] bn (by simpa using hbs)
  · intro bs pid chunks
    exact ctrlCsvGo_spec bs pid chunks

/-- Witness for C6 on the concrete six-row input. -/
theorem C6_batching_witness :
    0 < 2 ∧
    ((fpChunkGo 2 "P" "T" rowsC6 [] 0).1.dropLast).all
      (fun b => b.length = 2) = true :=
  ⟨by decide, C6_batching_amended.2.1 2 "P" "T" rowsC6 0 (by decide)⟩

/-- Counterexample for C6 as stated: with `batch_size = 2` and pandas
chunks of 3 rows, the `CSVProcessor` batcher emits batches of sizes
2, 1, 2, 1 — an undersized batch that is not the last — and with
`batch_size = 5` the `ProcessingController` batcher keeps only 3 of the
6 cleaned rows (every row survives cleaning), dropping the first
chunk's records. -/
theorem C6_counterexample :
    (process_large_csv_fp 2 3 "P" "T" rowsC6).map List.length = [2, 1, 2, 1] ∧
    (process_large_csv_ctrl 5 3 "P" rowsC6).flatten.length = 3 ∧
    ((rowsC6.map (clean_record "P")).filter (fun r => r ≠ [])).length = 6 := by
  refine ⟨?_, ?_, ?_⟩ <;> decide

/-! ## C4: date normalization -/

theorem isDigitCh_digitChar (n : Nat) : isDigitCh (digitChar n) = true := by
  have h10 : n % 10 = 0 ∨ n % 10 = 1 ∨ n % 10 = 2 ∨ n % 10 = 3 ∨ n % 10 = 4 ∨
      n % 10 = 5 ∨ n % 10 = 6 ∨ n % 10 = 7 ∨ n % 10 = 8 ∨ n % 10 = 9 := by omega
  unfold digitChar
  rcases h10 with h|h|h|h|h|h|h|h|h|h <;> rw [h] <;> decide

theorem charVal_digitChar (n : Nat) (h : n < 10) : charVal (digitChar n) = n := by
  have hm : n % 10 = n := Nat.mod_eq_of_lt h
  unfold digitChar
  rw [hm]
  have h10 : n = 0 ∨ n = 1 ∨ n = 2 ∨ n = 3 ∨ n = 4 ∨
      n = 5 ∨ n = 6 ∨ n = 7 ∨ n = 8 ∨ n = 9 := by omega
  rcases h10 with h|h|h|h|h|h|h|h|h|h <;> subst h <;> decide

theorem not_space_of_digit (c : Char) (h : isDigitCh c = true) :
    isSpaceCh c = false := by
  have hm : c ∈ digitChars := by simpa [isDigitCh] using h
  fin_cases hm <;> decide

theorem dropWhile_space_digits (l : List Char) (h : l.all isDigitCh = true) :
    l.dropWhile isSpaceCh = l := by
  cases l with
  | nil => rfl
  | cons c rest =>
    have hc : isDigitCh c = true := by
      simp [List.all_cons] at h
      exact h.1
    rw [List.dropWhile_cons, not_space_of_digit c hc]
    simp

theorem stripChars_digits (l : List Char) (h : l.all isDigitCh = true) :
    stripChars l = l := by
  unfold stripChars
  rw [dropWhile_space_digits l h, dropWhile_space_digits _ (by simpa using h),
    List.reverse_reverse]

theorem pyStrip_digits (s : String) (h : s.data.all isDigitCh = true) :
    pyStrip s = s := by
  unfold pyStrip
  rw [stripChars_digits _ h]

theorem length_pad2 (n : Nat) : (pad2 n).length = 2 := by
  unfold pad2
  split <;> rfl

theorem length_pad4 (n : Nat) : (pad4 n).length = 4 := rfl

theorem pad2_all_digits (n : Nat) : (pad2 n).all isDigitCh = true := by
  unfold pad2
  split <;> simp [isDigitCh_digitChar] <;> decide

theorem pad4_all_digits (n : Nat) : (pad4 n).all isDigitCh = true := by
  unfold pad4
  simp [isDigitCh_digitChar]

theorem pad2_ne_00 (n : Nat) (h1 : 1 ≤ n) (h2 : n ≤ 31) :
    pad2 n ≠ ['0', '0'] := by
  intro he
  unfold pad2 at he
  split at he
  · next hlt =>
    have h0 : digitChar n = '0' := by
      have := congrArg (fun l => l.get? 1) he
      simpa using this
    have := charVal_digitChar n hlt
    rw [h0] at this
    simp [charVal, digitChars] at this
    omega
  · next hge =>
    have h0 : digitChar (n / 10 % 10) = '0' := by
      have := congrArg (fun l => l.get? 0) he
      simpa using this
    have hlt : n / 10 % 10 < 10 := Nat.mod_lt _ (by omega)
    have := charVal_digitChar (n / 10 % 10) hlt
    rw [h0] at this
    simp [charVal, digitChars] at this
    omega

theorem year4_pad4 (y : Nat) (rest : List Char) (h : y < 10000) :
    year4 (pad4 y ++ rest) = some (y, rest) := by
  show year4 (digitChar (y / 1000 % 10) :: digitChar (y / 100 % 10) ::
    digitChar (y / 10 % 10) :: digitChar (y % 10) :: rest) = some (y, rest)
  unfold year4
  dsimp only
  rw [if_pos (by simp [isDigitCh_digitChar])]
  rw [charVal_digitChar _ (Nat.mod_lt _ (by omega)),
    charVal_digitChar _ (Nat.mod_lt _ (by omega)),
    charVal_digitChar _ (Nat.mod_lt _ (by omega)),
    charVal_digitChar _ (Nat.mod_lt _ (by omega))]
  have : 1000 * (y / 1000 % 10) + 100 * (y / 100 % 10) + 10 * (y / 10 % 10) +
      y % 10 = y := by omega
  rw [this]

theorem digitChar_mem_nonzero (n : Nat) (h1 : 1 ≤ n) (h2 : n < 10) :
    digitChar n ∈ digitChars.drop 1 := by
  have h10 : n = 1 ∨ n = 2 ∨ n = 3 ∨ n = 4 ∨ n = 5 ∨
      n = 6 ∨ n = 7 ∨ n = 8 ∨ n = 9 := by omega
  rcases h10 with h|h|h|h|h|h|h|h|h <;> subst h <;> decide

theorem monthAlts_zero_digit (c : Char) (rest : List Char)
    (h : c ∈ digitChars.drop 1) :
    monthAlts ('0' :: c :: rest) = [(charVal c, rest)] := by
  unfold monthAlts
  dsimp only
  rw [if_neg (fun hc => absurd hc.1 (by decide)), if_pos ⟨rfl, h⟩,
    if_neg (by decide)]
  simp

theorem monthAlts_one_digit (c : Char) (rest : List Char)
    (h : c ∈ ['0', '1', '2']) :
    ∃ t, monthAlts ('1' :: c :: rest) = (10 + charVal c, rest) :: t := by
  unfold monthAlts
  dsimp only
  rw [if_pos ⟨rfl, h⟩]
  exact ⟨_, rfl⟩

theorem monthAlts_pad2 (m : Nat) (rest : List Char) (h1 : 1 ≤ m) (h2 : m ≤ 12) :
    ∃ t, monthAlts (pad2 m ++ rest) = (m, rest) :: t := by
  by_cases hm : m < 10
  · have hp : pad2 m ++ rest = '0' :: digitChar m :: rest := by
      rw [pad2, if_pos hm]
      rfl
    rw [hp, monthAlts_zero_digit _ _ (digitChar_mem_nonzero m h1 hm),
      charVal_digitChar m hm]
    exact ⟨[], rfl⟩
  · have h3 : m = 10 ∨ m = 11 ∨ m = 12 := by omega
    rcases h3 with h|h|h <;> subst h
    · obtain ⟨t, ht⟩ := monthAlts_one_digit '0' rest (by decide)
      exact ⟨t, ht⟩
    · obtain ⟨t, ht⟩ := monthAlts_one_digit '1' rest (by decide)
      exact ⟨t, ht⟩
    · obtain ⟨t, ht⟩ := monthAlts_one_digit '2' rest (by decide)
      exact ⟨t, ht⟩

theorem dayAlts_zero_digit (c : Char) (rest : List Char)
    (h : c ∈ digitChars.drop 1) :
    dayAlts ('0' :: c :: rest) = [(charVal c, rest)] := by
  unfold dayAlts
  dsimp only
  rw [if_neg (fun hc => absurd hc.1 (by decide)),
    if_neg (fun hc => absurd hc.1 (by decide)), if_pos ⟨rfl, h⟩,
    if_neg (by decide)]
  simp

theorem dayAlts_tens (c1 c2 : Char) (rest : List Char)
    (h1 : c1 ∈ ['1', '2']) (h2 : isDigitCh c2 = true) :
    ∃ t, dayAlts (c1 :: c2 :: rest) = (10 * charVal c1 + charVal c2, rest) :: t := by
  unfold dayAlts
  dsimp only
  have hne : ¬ (c1 = '3' ∧ c2 ∈ ['0', '1']) := by
    rintro ⟨h3, _⟩
    rw [h3] at h1
    exact absurd h1 (by decide)
  rw [if_neg hne, if_pos ⟨h1, h2⟩]
  exact ⟨_, rfl⟩

theorem dayAlts_thirty (c2 : Char) (rest : List Char) (h : c2 ∈ ['0', '1']) :
    ∃ t, dayAlts ('3' :: c2 :: rest) = (30 + charVal c2, rest) :: t := by
  unfold dayAlts
  dsimp only
  rw [if_pos ⟨rfl, h⟩]
  exact ⟨_, rfl⟩

theorem dayAlts_pad2 (d : Nat) (rest : List Char) (h1 : 1 ≤ d) (h2 : d ≤ 31) :
    ∃ t, dayAlts (pad2 d ++ rest) = (d, rest) :: t := by
  by_cases hd : d < 10
  · have hp : pad2 d ++ rest = '0' :: digitChar d :: rest := by
      rw [pad2, if_pos hd]
      rfl
    rw [hp, dayAlts_zero_digit _ _ (digitChar_mem_nonzero d h1 hd),
      charVal_digitChar d hd]
    exact ⟨[], rfl⟩
  · have hp : pad2 d ++ rest = digitChar (d / 10 % 10) :: digitChar (d % 10) :: rest := by
      rw [pad2, if_neg hd]
      rfl
    by_cases h30 : d < 30
    · have hq : d / 10 % 10 = 1 ∨ d / 10 % 10 = 2 := by omega
      have hc1 : digitChar (d / 10 % 10) ∈ ['1', '2'] := by
        rcases hq with h|h <;> rw [h] <;> decide
      obtain ⟨t, ht⟩ := dayAlts_tens (digitChar (d / 10 % 10)) (digitChar (d % 10))
        rest hc1 (isDigitCh_digitChar _)
      refine ⟨t, ?_⟩
      rw [hp, ht, charVal_digitChar _ (Nat.mod_lt _ (by omega)),
        charVal_digitChar _ (Nat.mod_lt _ (by omega))]
      have : 10 * (d / 10 % 10) + d % 10 = d := by omega
      rw [this]
    · have hq : d = 30 ∨ d = 31 := by omega
      have h1q : d / 10 % 10 = 3 := by omega
      have hc2 : digitChar (d % 10) ∈ ['0', '1'] := by
        rcases hq with h|h <;> subst h <;> decide
      obtain ⟨t, ht⟩ := dayAlts_thirty (digitChar (d % 10)) rest hc2
      refine ⟨t, ?_⟩
      rw [hp, h1q]
      have h3 : (digitChar 3) = '3' := by decide
      rw [h3, ht, charVal_digitChar _ (Nat.mod_lt _ (by omega))]
      have : 30 + d % 10 = d := by omega
      rw [this]

theorem monthAlts_00 (rest : List Char) : monthAlts ('0' :: '0' :: rest) = [] := by
  unfold monthAlts
  dsimp only
  rw [if_neg (fun hc => absurd hc.1 (by decide)),
    if_neg (fun hc => absurd hc.2 (by decide)), if_neg (by decide)]
  rfl

theorem dayAlts_00 (rest : List Char) : dayAlts ('0' :: '0' :: rest) = [] := by
  unfold dayAlts
  dsimp only
  rw [if_neg (fun hc => absurd hc.1 (by decide)),
    if_neg (fun hc => absurd hc.1 (by decide)),
    if_neg (fun hc => absurd hc.2 (by decide)), if_neg (by decide)]
  rfl

theorem monthAlts_rest (x y : Char) (r : List Char) :
    ∀ p ∈ monthAlts (x :: y :: r), p.2 = r ∨ p.2 = y :: r := by
  intro p hp
  unfold monthAlts at hp
  dsimp only at hp
  rw [List.mem_append, List.mem_append] at hp
  rcases hp with (hp | hp) | hp
  · split at hp
    · simp at hp
      rw [hp]
      exact Or.inl rfl
    · exact absurd hp (by simp)
  · split at hp
    · simp at hp
      rw [hp]
      exact Or.inl rfl
    · exact absurd hp (by simp)
  · split at hp
    · simp at hp
      rw [hp]
      exact Or.inr rfl
    · exact absurd hp (by simp)

theorem dayAlts_rest (x y : Char) (r : List Char) :
    ∀ p ∈ dayAlts (x :: y :: r), p.2 = r ∨ p.2 = y :: r := by
  intro p hp
  unfold dayAlts at hp
  dsimp only at hp
  rw [List.mem_append, List.mem_append, List.mem_append] at hp
  rcases hp with ((hp | hp) | hp) | hp
  · split at hp
    · simp at hp
      rw [hp]
      exact Or.inl rfl
    · exact absurd hp (by simp)
  · split at hp
    · simp at hp
      rw [hp]
      exact Or.inl rfl
    · exact absurd hp (by simp)
  · split at hp
    · simp at hp
      rw [hp]
      exact Or.inl rfl
    · exact absurd hp (by simp)
  · split at hp
    · simp at hp
      rw [hp]
      exact Or.inr rfl
    · exact absurd hp (by simp)

theorem lit_digit_none (ch c : Char) (r : List Char) (hc : isDigitCh c = true)
    (hch : ch = '-' ∨ ch = '/') : lit ch (c :: r) = Option.none := by
  unfold lit
  dsimp only
  rw [if_neg]
  intro he
  rw [he] at hc
  rcases hch with h | h <;> rw [h] at hc <;> exact absurd hc (by decide)

theorem findSome?_none_of_all {α β : Type} (f : α → Option β) :
    ∀ l : List α, (∀ a ∈ l, f a = Option.none) → l.findSome? f = Option.none := by
  intro l
  induction l with
  | nil => intro; rfl
  | cons a t ih =>
    intro h
    rw [List.findSome?_cons, h a (by simp)]
    exact ih (fun x hx => h x (by simp [hx]))

/-- The canonical 8-character `YYYYMMDD` rendering of a date triple. -/
def ymd8 (y m d : Nat) : String := ⟨pad4 y ++ (pad2 m ++ pad2 d)⟩

theorem matchYmd_pad (y m d : Nat) (hy : y < 10000) (hm1 : 1 ≤ m) (hm2 : m ≤ 12)
    (hd1 : 1 ≤ d) (hd2 : d ≤ 31) :
    matchYmd (pad4 y ++ (pad2 m ++ pad2 d)) = some (y, m, d) := by
  unfold matchYmd
  rw [year4_pad4 y _ hy]
  rw [Option.some_bind]
  obtain ⟨t, ht⟩ := monthAlts_pad2 m (pad2 d) hm1 hm2
  rw [ht, List.findSome?_cons]
  obtain ⟨t2, ht2⟩ := dayAlts_pad2 d [] hd1 hd2
  rw [List.append_nil] at ht2
  have hinner : (dayAlts (pad2 d)).findSome?
      (fun dr => if dr.2 = ([] : List Char) then some (y, m, dr.1) else Option.none) =
      some (y, m, d) := by
    rw [ht2, List.findSome?_cons]
    rw [if_pos rfl]
  rw [hinner]

theorem daysInMonth_le (y m : Nat) : daysInMonth y m ≤ 31 := by
  unfold daysInMonth
  split_ifs <;> norm_num

theorem filter_dateChars (l : List Char) (h : l.all isDigitCh = true) :
    l.filter (fun c => isDigitCh c ∨ c = '/' ∨ c = '-') = l := by
  rw [List.filter_eq_self]
  intro a ha
  have hd : isDigitCh a = true := by
    rw [List.all_eq_true] at h
    exact h a ha
  simp [hd]

theorem ymd8_data (y m d : Nat) :
    (ymd8 y m d).data = pad4 y ++ (pad2 m ++ pad2 d) := rfl

theorem ymd8_length (y m d : Nat) : (ymd8 y m d).data.length = 8 := by
  rw [ymd8_data]
  simp [List.length_append, length_pad4, length_pad2]

theorem ymd8_all_digits (y m d : Nat) : (ymd8 y m d).data.all isDigitCh = true := by
  rw [ymd8_data]
  simp [List.all_append, pad4_all_digits, pad2_all_digits]

theorem ymd8_ne_empty (y m d : Nat) : ymd8 y m d ≠ "" := by
  intro he
  have h0 := congrArg String.data he
  rw [ymd8_data] at h0
  have h1 := congrArg List.length h0
  simp [List.length_append, length_pad4, length_pad2] at h1

theorem slice_ymd8_year (y m d : Nat) :
    slice (pad4 y ++ (pad2 m ++ pad2 d)) 0 4 = pad4 y := by
  unfold slice
  rw [List.drop_zero, List.take_append_of_le_length (by rw [length_pad4]),
    List.take_of_length_le (by rw [length_pad4])]

theorem slice_ymd8_month (y m d : Nat) :
    slice (pad4 y ++ (pad2 m ++ pad2 d)) 4 6 = pad2 m := by
  unfold slice
  rw [← List.append_assoc]
  have h6 : (pad4 y ++ pad2 m).length = 6 := by
    simp [List.length_append, length_pad4, length_pad2]
  rw [List.take_append_of_le_length (by rw [h6]),
    List.take_of_length_le (by rw [h6]),
    List.drop_append_of_le_length (by rw [length_pad4]),
    List.drop_of_length_le (by rw [length_pad4]), List.nil_append]

theorem slice_ymd8_day (y m d : Nat) :
    slice (pad4 y ++ (pad2 m ++ pad2 d)) 6 8 = pad2 d := by
  unfold slice
  rw [← List.append_assoc]
  have h6 : (pad4 y ++ pad2 m).length = 6 := by
    simp [List.length_append, length_pad4, length_pad2]
  have h8 : ((pad4 y ++ pad2 m) ++ pad2 d).length = 8 := by
    simp [List.length_append, length_pad4, length_pad2]
  rw [List.take_of_length_le (by rw [h8]), ← h6, List.drop_left]

theorem trt_ymd8_valid (y m d : Nat) (hy2 : y ≤ 9999) (hm1 : 1 ≤ m) (hm2 : m ≤ 12)
    (hd1 : 1 ≤ d) (hd2 : d ≤ 31) :
    trt_normalize_date (some (ymd8 y m d)) = some (isoOfYmd y m d) := by
  unfold trt_normalize_date
  dsimp only
  rw [if_neg (ymd8_ne_empty y m d)]
  rw [ymd8_data]
  rw [if_neg (by
    rintro (hc | hc)
    · exact hc (by simp [List.length_append, length_pad4, length_pad2])
    · exact hc (by simpa [ymd8_data] using ymd8_all_digits y m d))]
  rw [slice_ymd8_month, slice_ymd8_day,
    if_neg (by
      rintro (hc | hc)
      · exact pad2_ne_00 m hm1 (by omega) hc
      · exact pad2_ne_00 d hd1 hd2 hc)]
  rw [slice_ymd8_year]
  rfl

theorem xml_eq_trt_strip (s : String) :
    normalize_xml_date (some s) = trt_normalize_date (some (pyStrip s)) := by
  by_cases hs : s = ""
  · subst hs
    rfl
  · by_cases hp : pyStrip s = ""
    · have hd0 : (pyStrip s).data = [] := by rw [hp]
      unfold normalize_xml_date trt_normalize_date
      dsimp only
      rw [if_neg hs, if_pos hp]
      rw [hd0]
      rw [if_pos (Or.inl (by decide))]
    · unfold normalize_xml_date trt_normalize_date
      dsimp only
      rw [if_neg hs, if_neg hp]

theorem parse_date_ymd8_valid (y m d : Nat) (hy1 : 1 ≤ y) (hy2 : y ≤ 9999)
    (hm1 : 1 ≤ m) (hm2 : m ≤ 12) (hd1 : 1 ≤ d) (hd2 : d ≤ daysInMonth y m) :
    parse_date (some (ymd8 y m d)) = some (y, m, d) := by
  have hctor : dateCtorOk y m d = true := by
    unfold dateCtorOk
    rw [decide_eq_true_eq]
    exact ⟨hy1, hy2, hm1, hm2, hd1, hd2⟩
  have htry : tryFormat matchYmd (pad4 y ++ (pad2 m ++ pad2 d)) = some (y, m, d) := by
    unfold tryFormat
    rw [matchYmd_pad y m d (by omega) hm1 hm2 hd1
      (le_trans hd2 (daysInMonth_le y m))]
    dsimp only
    rw [if_pos hctor]
  unfold parse_date
  dsimp only
  rw [if_neg (ymd8_ne_empty y m d)]
  rw [show (ymd8 y m d).data = pad4 y ++ (pad2 m ++ pad2 d) from rfl]
  rw [filter_dateChars _ (by simpa [ymd8_data] using ymd8_all_digits y m d), htry]

theorem trt_8digit_00_none (l : List Char) (hlen : l.length = 8)
    (hall : l.all isDigitCh = true)
    (h00 : slice l 4 6 = ['0', '0'] ∨ slice l 6 8 = ['0', '0']) :
    trt_normalize_date (some ⟨l⟩) = Option.none := by
  have hne : (⟨l⟩ : String) ≠ "" := by
    intro he
    have h0 : l = [] := congrArg String.data he
    rw [h0] at hlen
    simp at hlen
  unfold trt_normalize_date
  dsimp only
  rw [if_neg hne]
  rw [if_neg (by
    rintro (hc | hc)
    · exact hc hlen
    · exact hc hall)]
  rw [if_pos h00]

theorem trt_not8_none (s : String)
    (hn : ¬ (s.data.length = 8 ∧ s.data.all isDigitCh = true)) :
    trt_normalize_date (some s) = Option.none := by
  by_cases hs : s = ""
  · subst hs
    rfl
  · unfold trt_normalize_date
    dsimp only
    rw [if_neg hs]
    rw [if_pos (by
      by_cases hl : s.data.length = 8
      · exact Or.inr (fun hall => hn ⟨hl, hall⟩)
      · exact Or.inl hl)]

theorem parse_date_8digit_00_none (a b c d e f g h : Char)
    (da : isDigitCh a = true) (db : isDigitCh b = true) (dc : isDigitCh c = true)
    (dd : isDigitCh d = true) (de : isDigitCh e = true) (df : isDigitCh f = true)
    (dg : isDigitCh g = true) (dh : isDigitCh h = true)
    (h00 : ([e, f] = ['0', '0']) ∨ ([g, h] = ['0', '0'])) :
    parse_date (some ⟨[a, b, c, d, e, f, g, h]⟩) = Option.none := by
  have hne : (⟨[a, b, c, d, e, f, g, h]⟩ : String) ≠ "" := by
    intro hem
    have h0 := congrArg String.data hem
    simp at h0
  have hall : [a, b, c, d, e, f, g, h].all isDigitCh = true := by
    simp [List.all_cons, da, db, dc, dd, de, df, dg, dh]
  have hyear : year4 [a, b, c, d, e, f, g, h] =
      some (1000 * charVal a + 100 * charVal b + 10 * charVal c + charVal d,
        [e, f, g, h]) := by
    unfold year4
    dsimp only
    rw [if_pos ⟨da, db, dc, dd⟩]
  have hymd : matchYmd [a, b, c, d, e, f, g, h] = Option.none := by
    unfold matchYmd
    rw [hyear, Option.some_bind]
    rcases h00 with h5 | h7
    · have he0 : e = '0' := by injection h5
      have hf0 : f = '0' := by
        injection h5 with h5a h5b
        injection h5b
      subst he0
      subst hf0
      rw [monthAlts_00]
      rfl
    · have hg0 : g = '0' := by injection h7
      have hh0 : h = '0' := by
        injection h7 with h7a h7b
        injection h7b
      subst hg0
      subst hh0
      apply findSome?_none_of_all
      intro mr hmr
      rcases monthAlts_rest e f ['0', '0'] mr hmr with hr | hr
      · rw [hr, dayAlts_00]
        rfl
      · rw [hr]
        apply findSome?_none_of_all
        intro dr hdr
        rcases dayAlts_rest f '0' ['0'] dr hdr with hr2 | hr2 <;> rw [hr2] <;> rfl
  have hdash : matchYmdDash [a, b, c, d, e, f, g, h] = Option.none := by
    unfold matchYmdDash
    rw [hyear, Option.some_bind, lit_digit_none '-' e _ de (Or.inl rfl)]
    rfl
  have hmdy : matchMdy [a, b, c, d, e, f, g, h] = Option.none := by
    unfold matchMdy
    apply findSome?_none_of_all
    intro mr hmr
    rcases monthAlts_rest a b [c, d, e, f, g, h] mr hmr with hr | hr
    · rw [hr, lit_digit_none '/' c _ dc (Or.inr rfl)]
      rfl
    · rw [hr, lit_digit_none '/' b _ db (Or.inr rfl)]
      rfl
  have ht1 : tryFormat matchYmd [a, b, c, d, e, f, g, h] = Option.none := by
    unfold tryFormat
    rw [hymd]
  have ht2 : tryFormat matchYmdDash [a, b, c, d, e, f, g, h] = Option.none := by
    unfold tryFormat
    rw [hdash]
  have ht3 : tryFormat matchMdy [a, b, c, d, e, f, g, h] = Option.none := by
    unfold tryFormat
    rw [hmdy]
  unfold parse_date
  dsimp only
  rw [if_neg hne]
  rw [filter_dateChars _ hall, ht1, ht2, ht3]

/-- C4 (amended): for every valid date `y-m-d` (year 1-9999, month 1-12,
day within the month), all three normalizers map the 8-digit string
`YYYYMMDD` to the ISO form (`parse_date` to the date triple); every
8-digit numeric string whose month or day part is `00` is mapped to
null by all three; a non-8-digit-numeric input is mapped to null by
`TRTDXFAPProcessor._normalize_date`, and `_normalize_xml_date` behaves
exactly as the former after stripping — but `parse_date` is NOT null on
all non-8-digit-numeric inputs (it also accepts `%Y-%m-%d` and
`%m/%d/%Y` renderings, see the counterexample). -/
theorem C4_date_normalization_amended :
    (∀ y m d : Nat, 1 ≤ y → y ≤ 9999 → 1 ≤ m → m ≤ 12 → 1 ≤ d →
      d ≤ daysInMonth y m →
      trt_normalize_date (some (ymd8 y m d)) = some (isoOfYmd y m d) ∧
      normalize_xml_date (some (ymd8 y m d)) = some (isoOfYmd y m d) ∧
      parse_date (some (ymd8 y m d)) = some (y, m, d)) ∧
    (∀ a b c d e f g h : Char,
      [a, b, c, d, e, f, g, h].all isDigitCh = true →
      ([e, f] = ['0', '0'] ∨ [g, h] = ['0', '0']) →
      trt_normalize_date (some ⟨[a, b, c, d, e, f, g, h]⟩) = Option.none ∧
      normalize_xml_date (some ⟨[a, b, c, d, e, f, g, h]⟩) = Option.none ∧
      parse_date (some ⟨[a, b, c, d, e, f, g, h]⟩) = Option.none) ∧
    (∀ s : String, ¬ (s.data.length = 8 ∧ s.data.all isDigitCh = true) →
      trt_normalize_date (some s) = Option.none) ∧
    (∀ s : String,
      normalize_xml_date (some s) = trt_normalize_date (some (pyStrip s))) := by
  refine ⟨?_, ?_, ?_, ?_⟩
  · intro y m d hy1 hy2 hm1 hm2 hd1 hd2
    have hd31 : d ≤ 31 := le_trans hd2 (daysInMonth_le y m)
    refine ⟨trt_ymd8_valid y m d hy2 hm1 hm2 hd1 hd31, ?_,
      parse_date_ymd8_valid y m d hy1 hy2 hm1 hm2 hd1 hd2⟩
    rw [xml_eq_trt_strip, pyStrip_digits _ (ymd8_all_digits y m d)]
    exact trt_ymd8_valid y m d hy2 hm1 hm2 hd1 hd31
  · intro a b c d e f g h hall h00
    have hdig : isDigitCh a = true ∧ isDigitCh b = true ∧ isDigitCh c = true ∧
        isDigitCh d = true ∧ isDigitCh e = true ∧ isDigitCh f = true ∧
        isDigitCh g = true ∧ isDigitCh h = true := by
      simpa [List.all_cons] using hall
    obtain ⟨da, db, dc, dd, de, df, dg, dh⟩ := hdig
    have hlen : ([a, b, c, d, e, f, g, h] : List Char).length = 8 := rfl
    have h00s : slice [a, b, c, d, e, f, g, h] 4 6 = ['0', '0'] ∨
        slice [a, b, c, d, e, f, g, h] 6 8 = ['0', '0'] := by
      rcases h00 with h5 | h7
      · exact Or.inl (by rw [show slice [a, b, c, d, e, f, g, h] 4 6 = [e, f]
          from rfl, h5])
      · exact Or.inr (by rw [show slice [a, b, c, d, e, f, g, h] 6 8 = [g, h]
          from rfl, h7])
    refine ⟨trt_8digit_00_none _ hlen hall h00s, ?_,
      parse_date_8digit_00_none a b c d e f g h da db dc dd de df dg dh h00⟩
    rw [xml_eq_trt_strip, pyStrip_digits _ hall]
    exact trt_8digit_00_none _ hlen hall h00s
  · exact trt_not8_none
  · exact xml_eq_trt_strip

/-- Witness for C4 at concrete dates and strings. -/
theorem C4_date_normalization_witness :
    trt_normalize_date (some (ymd8 2023 7 15)) = some (isoOfYmd 2023 7 15) ∧
    parse_date (some (ymd8 2023 7 15)) = some (2023, 7, 15) ∧
    parse_date (some ⟨['2', '0', '2', '3', '0', '0', '1', '5']⟩) = Option.none ∧
    trt_normalize_date (some "2023-01") = Option.none :=
  ⟨(C4_date_normalization_amended.1 2023 7 15 (by decide) (by decide) (by decide)
      (by decide) (by decide) (by decide)).1,
   (C4_date_normalization_amended.1 2023 7 15 (by decide) (by decide) (by decide)
      (by decide) (by decide) (by decide)).2.2,
   (C4_date_normalization_amended.2.1 '2' '0' '2' '3' '0' '0' '1' '5' (by decide)
      (Or.inl rfl)).2.2,
   C4_date_normalization_amended.2.2.1 "2023-01" (by decide)⟩

/-- Counterexample for C4 as stated: `parse_date` does not return null
on every input that is not an 8-digit numeric string — it accepts the
ISO rendering `2023-01-01` and even the 7-digit string `2023123`. -/
theorem C4_counterexample :
    parse_date (some "2023-01-01") = some (2023, 1, 1) ∧
    parse_date (some "2023123") = some (2023, 12, 3) := by
  constructor <;> decide

/-! ## C8: idempotence of record normalization -/

theorem head_dropWhile_not (p : Char → Bool) :
    ∀ (l : List Char) (c : Char), (l.dropWhile p).head? = some c → p c = false := by
  intro l
  induction l with
  | nil => intro c h; simp at h
  | cons a t ih =>
    intro c h
    rw [List.dropWhile_cons] at h
    by_cases hp : p a
    · rw [if_pos hp] at h
      exact ih c h
    · rw [if_neg hp] at h
      have hac : a = c := by simpa using h
      subst hac
      simpa using hp

theorem dwp_eq_self (p : Char → Bool) (l : List Char)
    (h : ∀ c, l.head? = some c → p c = false) : l.dropWhile p = l := by
  cases l with
  | nil => rfl
  | cons a t =>
    rw [List.dropWhile_cons, if_neg]
    simp [h a rfl]

theorem exists_dropWhile_sfx (p : Char → Bool) :
    ∀ l : List Char, ∃ t, l = t ++ l.dropWhile p := by
  intro l
  induction l with
  | nil => exact ⟨[], rfl⟩
  | cons a l ih =>
    by_cases hp : p a
    · obtain ⟨t, ht⟩ := ih
      refine ⟨a :: t, ?_⟩
      rw [List.dropWhile_cons, if_pos hp, List.cons_append, ← ht]
    · exact ⟨[], by rw [List.dropWhile_cons, if_neg hp, List.nil_append]⟩

theorem stripChars_head (l : List Char) (c : Char)
    (h : (stripChars l).head? = some c) : isSpaceCh c = false := by
  unfold stripChars at h
  obtain ⟨t, ht⟩ := exists_dropWhile_sfx isSpaceCh (l.dropWhile isSpaceCh).reverse
  have hX : l.dropWhile isSpaceCh =
      ((l.dropWhile isSpaceCh).reverse.dropWhile isSpaceCh).reverse ++ t.reverse := by
    have h2 := congrArg List.reverse ht
    rw [List.reverse_reverse, List.reverse_append] at h2
    exact h2
  cases hc : ((l.dropWhile isSpaceCh).reverse.dropWhile isSpaceCh).reverse with
  | nil => rw [hc] at h; simp at h
  | cons x xs =>
    rw [hc] at h hX
    have hx : x = c := by simpa using h
    subst hx
    exact head_dropWhile_not isSpaceCh l x (by rw [hX]; rfl)

theorem stripChars_revhead (l : List Char) (c : Char)
    (h : (stripChars l).reverse.head? = some c) : isSpaceCh c = false := by
  unfold stripChars at h
  rw [List.reverse_reverse] at h
  exact head_dropWhile_not isSpaceCh _ c h

theorem stripChars_eq_self (l : List Char)
    (h1 : ∀ c, l.head? = some c → isSpaceCh c = false)
    (h2 : ∀ c, l.reverse.head? = some c → isSpaceCh c = false) :
    stripChars l = l := by
  unfold stripChars
  rw [dwp_eq_self _ l h1, dwp_eq_self _ l.reverse h2, List.reverse_reverse]

theorem stripChars_stripChars (l : List Char) :
    stripChars (stripChars l) = stripChars l :=
  stripChars_eq_self _ (stripChars_head l) (stripChars_revhead l)

theorem pyStrip_pyStrip (s : String) : pyStrip (pyStrip s) = pyStrip s := by
  unfold pyStrip
  rw [show (⟨stripChars s.data⟩ : String).data = stripChars s.data from rfl,
    stripChars_stripChars]

theorem mem_of_headq (l : List Char) (c : Char) (h : l.head? = some c) : c ∈ l := by
  cases l with
  | nil => simp at h
  | cons a t =>
    have : a = c := by simpa using h
    subst this
    simp

theorem stripChars_of_nonspace (l : List Char)
    (h : ∀ c ∈ l, isSpaceCh c = false) : stripChars l = l :=
  stripChars_eq_self l (fun c hc => h c (mem_of_headq l c hc))
    (fun c hc => h c (List.mem_reverse.mp (mem_of_headq l.reverse c hc)))

theorem pyStrip_of_nonspace (s : String)
    (h : ∀ c ∈ s.data, isSpaceCh c = false) : pyStrip s = s := by
  unfold pyStrip
  rw [stripChars_of_nonspace _ h]

theorem all_weaken {p q : Char → Bool} (h : ∀ c, p c = true → q c = true)
    (l : List Char) (hl : l.all p = true) : l.all q = true := by
  rw [List.all_eq_true] at hl ⊢
  exact fun c hc => h c (hl c hc)

theorem map_fix (f : Char → Char) :
    ∀ l : List Char, (∀ c ∈ l, f c = c) → l.map f = l := by
  intro l
  induction l with
  | nil => intro; rfl
  | cons a t ih =>
    intro h
    rw [List.map_cons, h a (by simp), ih (fun c hc => h c (by simp [hc]))]

/-- A character of a Python integer rendering: a digit or the minus sign. -/
def isIntCh (c : Char) : Bool := isDigitCh c || c = '-'

theorem not_space_of_int (c : Char) (h : isIntCh c = true) : isSpaceCh c = false := by
  have h9 : isDigitCh c = true ∨ c = '-' := by simpa [isIntCh] using h
  rcases h9 with hd | hm
  · exact not_space_of_digit c hd
  · subst hm
    decide

theorem lower_fix_digit (c : Char) (h : isDigitCh c = true) : pyCharLower c = c := by
  have hm : c ∈ digitChars := by simpa [isDigitCh] using h
  fin_cases hm <;> decide

theorem lower_fix_int (c : Char) (h : isIntCh c = true) : pyCharLower c = c := by
  have h9 : isDigitCh c = true ∨ c = '-' := by simpa [isIntCh] using h
  rcases h9 with hd | hm
  · exact lower_fix_digit c hd
  · subst hm
    decide

theorem natDigitsAux_all (P : Char → Bool) (hP : ∀ d, P (digitChar d) = true) :
    ∀ (fuel n : Nat) (acc : List Char), acc.all P = true →
      (natDigitsAux fuel n acc).all P = true := by
  intro fuel
  induction fuel with
  | zero => intro n acc h; simpa [natDigitsAux] using h
  | succ fuel ih =>
    intro n acc h
    unfold natDigitsAux
    split
    · exact h
    · exact ih _ _ (by simp [List.all_cons, hP, h])

theorem natDigitsAux_sfx :
    ∀ (fuel n : Nat) (acc : List Char), ∃ pre, natDigitsAux fuel n acc = pre ++ acc := by
  intro fuel
  induction fuel with
  | zero => intro n acc; exact ⟨[], rfl⟩
  | succ fuel ih =>
    intro n acc
    unfold natDigitsAux
    split
    · exact ⟨[], rfl⟩
    · obtain ⟨pre, hp⟩ := ih (n / 10) (digitChar (n % 10) :: acc)
      exact ⟨pre ++ [digitChar (n % 10)],
        by rw [hp, List.append_assoc, List.singleton_append]⟩

theorem pyNatStr_all (n : Nat) : (pyNatStr n).data.all isDigitCh = true := by
  unfold pyNatStr
  split
  · decide
  · exact natDigitsAux_all isDigitCh isDigitCh_digitChar _ _ _ rfl

theorem pyIntStr_all (i : Int) : (pyIntStr i).data.all isIntCh = true := by
  have hnat : ∀ n : Nat, (pyNatStr n).data.all isIntCh = true := fun n =>
    all_weaken (fun c hc => by simp [isIntCh, hc]) _ (pyNatStr_all n)
  unfold pyIntStr
  split
  · show (("-" ++ pyNatStr i.natAbs)).data.all isIntCh = true
    rw [show ("-" ++ pyNatStr i.natAbs).data = '-' :: (pyNatStr i.natAbs).data from rfl]
    rw [List.all_cons, hnat i.natAbs]
    decide
  · exact hnat i.natAbs

theorem pyNatStr_head (n : Nat) :
    ∃ c, (pyNatStr n).data.head? = some c ∧ isDigitCh c = true := by
  unfold pyNatStr
  split
  · exact ⟨'0', rfl, by decide⟩
  · next hn =>
    have hstep : natDigitsAux (n + 1) n [] =
        natDigitsAux n (n / 10) [digitChar (n % 10)] := by
      cases n with
      | zero => exact absurd rfl hn
      | succ k => rfl
    have hne : natDigitsAux n (n / 10) [digitChar (n % 10)] ≠ [] := by
      obtain ⟨pre, hp⟩ := natDigitsAux_sfx n (n / 10) [digitChar (n % 10)]
      rw [hp]
      simp
    have hall : (natDigitsAux n (n / 10) [digitChar (n % 10)]).all isDigitCh = true :=
      natDigitsAux_all isDigitCh isDigitCh_digitChar _ _ _
        (by simp [List.all_cons, isDigitCh_digitChar])
    cases hl : natDigitsAux n (n / 10) [digitChar (n % 10)] with
    | nil => exact absurd hl hne
    | cons c cs =>
      refine ⟨c, ?_, ?_⟩
      · show (natDigitsAux (n + 1) n []).head? = some c
        rw [hstep, hl]
        rfl
      · rw [hl, List.all_cons] at hall
        exact (Bool.and_eq_true _ _ |>.mp hall).1

theorem pyIntStr_head (i : Int) :
    ∃ c, (pyIntStr i).data.head? = some c ∧ isIntCh c = true := by
  unfold pyIntStr
  split
  · exact ⟨'-', rfl, by decide⟩
  · obtain ⟨c, hc, hd⟩ := pyNatStr_head i.natAbs
    exact ⟨c, hc, by simp [isIntCh, hd]⟩

theorem pyStrip_pyIntStr (i : Int) : pyStrip (pyIntStr i) = pyIntStr i :=
  pyStrip_of_nonspace _ (fun c hc => not_space_of_int c (by
    have hall := pyIntStr_all i
    rw [List.all_eq_true] at hall
    exact hall c hc))

theorem pyLower_pyIntStr (i : Int) : pyLower (pyIntStr i) = pyIntStr i := by
  unfold pyLower
  rw [map_fix _ _ (fun c hc => lower_fix_int c
    (by have := pyIntStr_all i; rw [List.all_eq_true] at this; exact this c hc))]

theorem str_ne_empty_of_head (s : String) (c : Char)
    (h : s.data.head? = some c) : s ≠ "" := by
  intro he
  rw [he] at h
  simp at h

theorem pyIntStr_not_na_word (i : Int) :
    pyLower (pyIntStr i) ∉ (["nan", "none", "null"] : List String) := by
  rw [pyLower_pyIntStr]
  intro hmem
  obtain ⟨c, hc, hint⟩ := pyIntStr_head i
  have h3 : pyIntStr i = "nan" ∨ pyIntStr i = "none" ∨ pyIntStr i = "null" := by
    simpa using hmem
  rcases h3 with h | h | h <;> rw [h] at hc <;>
    (have hcn : 'n' = c := by simpa using hc) <;> rw [← hcn] at hint <;>
    exact absurd hint (by decide)

theorem cleanEntry_none (k : String) : cleanEntryValue k Val.none = Val.none := rfl

theorem cleanEntry_bool (k : String) (b : Bool)
    (hin : pyEndsWith k "_in" = true) :
    cleanEntryValue k (.bool b) = .bool b := by
  have hcv : convert_value (.bool b) k = .bool b := by
    unfold convert_value
    rw [if_pos hin, if_neg (by cases b <;> decide)]
  unfold cleanEntryValue
  cases b
  · rw [if_neg (by decide)]
    dsimp only
    rw [if_neg (by decide), if_neg (fun hc => absurd hc.2 (by decide)), hcv]
  · rw [if_neg (by decide)]
    dsimp only
    rw [if_neg (by decide), if_neg (fun hc => absurd hc.2 (by decide)), hcv]

theorem cleanEntry_int (k : String) (n : Int)
    (hin : pyEndsWith k "_in" = false) (hdt : pyEndsWith k "_dt" = false)
    (hdate : pyEndsWith k "_date" = false) (hic : k ∈ intColumns) :
    cleanEntryValue k (.int n) = .int n := by
  have hcv : convert_value (.int n) k = .int n := by
    unfold convert_value
    rw [if_neg (by simp [hin]), if_neg (by simp [hdt, hdate]), if_pos hic,
      if_neg (fun h => nomatch h)]
  have hc2 : ¬ (pyIntStr n = "" ∨
      pyLower (pyIntStr n) ∈ (["nan", "none", "null"] : List String)) := by
    rintro (hc | hc)
    · obtain ⟨c, hc', _⟩ := pyIntStr_head n
      exact str_ne_empty_of_head _ c hc' hc
    · exact pyIntStr_not_na_word n hc
  have hc3 : ¬ ((pyEndsWith k "_dt" = true ∨ pyEndsWith k "_date" = true) ∧
      (pyIntStr n = "" ∨ pyIntStr n ∈ (["", "0000-00-00", "nan"] : List String))) := by
    rintro ⟨hc1, _⟩
    rcases hc1 with h | h
    · rw [hdt] at h
      exact absurd h (by decide)
    · rw [hdate] at h
      exact absurd h (by decide)
  unfold cleanEntryValue
  rw [if_neg (fun h => nomatch h)]
  dsimp only
  rw [show pyStrip (pyStr (.int n)) = pyIntStr n from pyStrip_pyIntStr n]
  rw [if_neg hc2, if_neg hc3, hcv]

theorem cleanEntry_str_dt (k cs : String)
    (hdtk : pyEndsWith k "_dt" = true ∨ pyEndsWith k "_date" = true)
    (hin : pyEndsWith k "_in" = false)
    (hstrip : pyStrip cs = cs) (hne : cs ≠ "") (hnz : cs ≠ "0000-00-00")
    (hnan : pyLower cs ∉ (["nan", "none", "null"] : List String)) :
    cleanEntryValue k (.str cs) = .str cs := by
  have hcv : convert_value (.str cs) k = .str cs := by
    unfold convert_value
    rw [if_neg (by simp [hin]), if_pos hdtk, if_neg (fun h => nomatch h)]
    dsimp only
    rw [hstrip, if_neg (by rintro (h | h); exacts [hne h, hnz h])]
  have hc3 : ¬ ((pyEndsWith k "_dt" = true ∨ pyEndsWith k "_date" = true) ∧
      (cs = "" ∨ cs ∈ (["", "0000-00-00", "nan"] : List String))) := by
    rintro ⟨_, h2⟩
    rcases h2 with h | h
    · exact hne h
    · have h3 : cs = "" ∨ cs = "0000-00-00" ∨ cs = "nan" := by simpa using h
      rcases h3 with h | h | h
      · exact hne h
      · exact hnz h
      · subst h
        exact hnan (by decide)
  unfold cleanEntryValue
  rw [if_neg (fun h => nomatch h)]
  dsimp only
  rw [show pyStrip (pyStr (Val.str cs)) = cs from hstrip]
  rw [if_neg (by rintro (h | h); exacts [hne h, hnan h])]
  rw [if_neg hc3, hcv]
  dsimp only
  rw [hstrip, if_neg hne]

theorem cleanEntry_str_def (k cs : String)
    (hin : pyEndsWith k "_in" = false) (hdt : pyEndsWith k "_dt" = false)
    (hdate : pyEndsWith k "_date" = false) (hic : k ∉ intColumns)
    (hstrip : pyStrip cs = cs) (hne : cs ≠ "")
    (hnan : pyLower cs ∉ (["nan", "none", "null"] : List String)) :
    cleanEntryValue k (.str cs) = .str cs := by
  have hcv : convert_value (.str cs) k = .str cs := by
    unfold convert_value
    rw [if_neg (by simp [hin]), if_neg (by simp [hdt, hdate]), if_neg hic,
      if_neg (fun h => nomatch h)]
    rw [show pyStrip (pyStr (Val.str cs)) = cs from hstrip, if_pos hne]
  have hc3 : ¬ ((pyEndsWith k "_dt" = true ∨ pyEndsWith k "_date" = true) ∧
      (cs = "" ∨ cs ∈ (["", "0000-00-00", "nan"] : List String))) := by
    rintro ⟨hc1, _⟩
    rcases hc1 with h | h
    · rw [hdt] at h
      exact absurd h (by decide)
    · rw [hdate] at h
      exact absurd h (by decide)
  unfold cleanEntryValue
  rw [if_neg (fun h => nomatch h)]
  dsimp only
  rw [show pyStrip (pyStr (Val.str cs)) = cs from hstrip]
  rw [if_neg (by rintro (h | h); exacts [hne h, hnan h])]
  rw [if_neg hc3, hcv]
  dsimp only
  rw [hstrip, if_neg hne]

/-- Value cleaning of `_clean_record` is idempotent at a fixed key. -/
theorem cleanEntryValue_idem (k : String) (v : Val) :
    cleanEntryValue k (cleanEntryValue k v) = cleanEntryValue k v := by
  by_cases hna : pyIsNa v = true
  · have hw : cleanEntryValue k v = Val.none := by
      unfold cleanEntryValue
      rw [if_pos hna]
    rw [hw, cleanEntry_none]
  · by_cases hsv : pyStrip (pyStr v) = "" ∨
        pyLower (pyStrip (pyStr v)) ∈ (["nan", "none", "null"] : List String)
    · have hw : cleanEntryValue k v = Val.none := by
        unfold cleanEntryValue
        rw [if_neg hna]
        dsimp only
        rw [if_pos hsv]
      rw [hw, cleanEntry_none]
    · by_cases h3 : (pyEndsWith k "_dt" = true ∨ pyEndsWith k "_date" = true) ∧
          (pyStrip (pyStr v) = "" ∨
            pyStrip (pyStr v) ∈ (["", "0000-00-00", "nan"] : List String))
      · have hw : cleanEntryValue k v = Val.none := by
          unfold cleanEntryValue
          rw [if_neg hna]
          dsimp only
          rw [if_neg hsv, if_pos h3]
        rw [hw, cleanEntry_none]
      · have hw : cleanEntryValue k v =
            (match convert_value v k with
             | Val.str cs => if pyStrip cs = "" then Val.none else Val.str cs
             | w => w) := by
          unfold cleanEntryValue
          rw [if_neg hna]
          dsimp only
          rw [if_neg hsv, if_neg h3]
        have hsvne : pyStrip (pyStr v) ≠ "" := fun h => hsv (Or.inl h)
        have hsvnan : pyLower (pyStrip (pyStr v)) ∉
            (["nan", "none", "null"] : List String) := fun h => hsv (Or.inr h)
        by_cases hin : pyEndsWith k "_in" = true
        · have hcv : convert_value v k = Val.none ∨
              ∃ b, convert_value v k = Val.bool b := by
            unfold convert_value
            rw [if_pos hin, if_neg hna]
            cases v with
            | none => exact Or.inl (by decide)
            | nan => exact Or.inl (by decide)
            | int n => exact Or.inr ⟨_, rfl⟩
            | bool b => exact Or.inr ⟨b, rfl⟩
            | str s =>
              dsimp only
              split_ifs with h1 h2
              · exact Or.inr ⟨true, rfl⟩
              · exact Or.inr ⟨false, rfl⟩
              · exact Or.inl rfl
            | date y m dd =>
              dsimp only
              split_ifs with h1 h2
              · exact Or.inr ⟨true, rfl⟩
              · exact Or.inr ⟨false, rfl⟩
              · exact Or.inl rfl
          rcases hcv with hcv | ⟨b, hcv⟩
          · rw [hw, hcv]
            exact cleanEntry_none k
          · rw [hw, hcv]
            exact cleanEntry_bool k b hin
        · have hin' : pyEndsWith k "_in" = false := by
            cases h : pyEndsWith k "_in"
            · rfl
            · exact absurd h hin
          by_cases hdtk : pyEndsWith k "_dt" = true ∨ pyEndsWith k "_date" = true
          · have hcv : convert_value v k = Val.none ∨
                (convert_value v k = Val.str (pyStrip (pyStr v)) ∧
                 pyStrip (pyStr v) ≠ "0000-00-00") := by
              unfold convert_value
              rw [if_neg (by simp [hin']), if_pos hdtk, if_neg hna]
              cases v with
              | str s =>
                dsimp only
                split_ifs with h1
                · exact Or.inl rfl
                · push_neg at h1
                  exact Or.inr ⟨rfl, h1.2⟩
              | none => exact Or.inl rfl
              | nan => exact Or.inl rfl
              | int n => exact Or.inl rfl
              | bool b => exact Or.inl rfl
              | date y m dd => exact Or.inl rfl
            rcases hcv with hcv | ⟨hcv, hnz⟩
            · rw [hw, hcv]
              exact cleanEntry_none k
            · rw [hw, hcv]
              have hss : pyStrip (pyStrip (pyStr v)) = pyStrip (pyStr v) :=
                pyStrip_pyStrip _
              have hm : (match Val.str (pyStrip (pyStr v)) with
                  | Val.str cs => if pyStrip cs = "" then Val.none else Val.str cs
                  | w => w) = Val.str (pyStrip (pyStr v)) := by
                dsimp only
                rw [hss, if_neg hsvne]
              rw [hm]
              exact cleanEntry_str_dt k _ hdtk hin' hss hsvne hnz hsvnan
          · have hdt' : pyEndsWith k "_dt" = false := by
              cases h : pyEndsWith k "_dt"
              · rfl
              · exact absurd (Or.inl h) hdtk
            have hdate' : pyEndsWith k "_date" = false := by
              cases h : pyEndsWith k "_date"
              · rfl
              · exact absurd (Or.inr h) hdtk
            by_cases hic : k ∈ intColumns
            · have hcv : convert_value v k = Val.none ∨
                  ∃ n, convert_value v k = Val.int n := by
                unfold convert_value
                rw [if_neg (by simp [hin']), if_neg (by simp [hdt', hdate']),
                  if_pos hic, if_neg hna]
                cases v with
                | int n => exact Or.inr ⟨n, rfl⟩
                | bool b => exact Or.inr ⟨_, rfl⟩
                | none => exact Or.inl (by decide)
                | nan => exact Or.inl (by decide)
                | str s =>
                  dsimp only
                  split_ifs with h1
                  · cases hio : pyIntOfString (pyStrip (pyStr (Val.str s))) with
                    | none => exact Or.inl rfl
                    | some n => exact Or.inr ⟨n, rfl⟩
                  · exact Or.inl rfl
                | date y m dd =>
                  dsimp only
                  split_ifs with h1
                  · cases hio : pyIntOfString (pyStrip (pyStr (Val.date y m dd))) with
                    | none => exact Or.inl rfl
                    | some n => exact Or.inr ⟨n, rfl⟩
                  · exact Or.inl rfl
              rcases hcv with hcv | ⟨n, hcv⟩
              · rw [hw, hcv]
                exact cleanEntry_none k
              · rw [hw, hcv]
                exact cleanEntry_int k n hin' hdt' hdate' hic
            · have hcv : convert_value v k = Val.str (pyStrip (pyStr v)) := by
                unfold convert_value
                rw [if_neg (by simp [hin']), if_neg (by simp [hdt', hdate']),
                  if_neg hic, if_neg hna, if_pos hsvne]
              rw [hw, hcv]
              have hss : pyStrip (pyStrip (pyStr v)) = pyStrip (pyStr v) :=
                pyStrip_pyStrip _
              have hm : (match Val.str (pyStrip (pyStr v)) with
                  | Val.str cs => if pyStrip cs = "" then Val.none else Val.str cs
                  | w => w) = Val.str (pyStrip (pyStr v)) := by
                dsimp only
                rw [hss, if_neg hsvne]
              rw [hm]
              exact cleanEntry_str_def k _ hin' hdt' hdate' hic hss hsvne hsvnan

/-- The per-character action of `cleanKey`: lower-case, then map space and
dash to underscore. -/
def cleanCh (c : Char) : Char :=
  (fun c2 => if c2 = '-' then '_' else c2)
    ((fun c1 => if c1 = ' ' then '_' else c1) (pyCharLower c))

theorem cleanKey_data (k : String) :
    (cleanKey k).data = (stripChars k.data).map cleanCh := by
  unfold cleanKey pyReplaceChar pyLower pyStrip
  dsimp only
  rw [List.map_map, List.map_map]
  rfl

theorem lower_nonspace (c : Char) (h : isSpaceCh c = false) :
    isSpaceCh (pyCharLower c) = false := by
  cases hf : asciiCasePairs.find? (fun p => p.1 = c) with
  | none =>
    have hlc : pyCharLower c = c := by
      unfold pyCharLower
      rw [hf]
      rfl
    rw [hlc]
    exact h
  | some p =>
    have hlc : pyCharLower c = p.2 := by
      unfold pyCharLower
      rw [hf]
      rfl
    rw [hlc]
    have hm := List.mem_of_find?_eq_some hf
    fin_cases hm <;> decide

theorem cleanCh_nonspace (c : Char) (h : isSpaceCh c = false) :
    isSpaceCh (cleanCh c) = false := by
  unfold cleanCh
  dsimp only
  by_cases h1 : pyCharLower c = ' '
  · rw [if_pos h1]
    decide
  · rw [if_neg h1]
    by_cases h2 : pyCharLower c = '-'
    · rw [if_pos h2]
      decide
    · rw [if_neg h2]
      exact lower_nonspace c h

theorem cleanCh_idem (c : Char) : cleanCh (cleanCh c) = cleanCh c := by
  cases hf : asciiCasePairs.find? (fun p => p.1 = c) with
  | some p =>
    have hpc : p.1 = c := by simpa using List.find?_some hf
    subst hpc
    have hm := List.mem_of_find?_eq_some hf
    fin_cases hm <;> decide
  | none =>
    have hlc : pyCharLower c = c := by
      unfold pyCharLower
      rw [hf]
      rfl
    by_cases h1 : c = ' '
    · subst h1
      decide
    · by_cases h2 : c = '-'
      · subst h2
        decide
      · have hFc : cleanCh c = c := by
          unfold cleanCh
          dsimp only
          rw [hlc, if_neg h1, if_neg h2]
        rw [hFc]
        exact hFc

theorem stripChars_map_cleanCh (l : List Char) :
    stripChars ((stripChars l).map cleanCh) = (stripChars l).map cleanCh := by
  apply stripChars_eq_self
  · intro c hc
    cases hm : stripChars l with
    | nil => rw [hm] at hc; simp at hc
    | cons a t =>
      rw [hm] at hc
      have hac : cleanCh a = c := by simpa using hc
      have ha : isSpaceCh a = false := stripChars_head l a (by rw [hm]; rfl)
      rw [← hac]
      exact cleanCh_nonspace a ha
  · intro c hc
    rw [List.reverse_map] at hc
    cases hm : (stripChars l).reverse with
    | nil => rw [hm] at hc; simp at hc
    | cons a t =>
      rw [hm] at hc
      have hac : cleanCh a = c := by simpa using hc
      have ha : isSpaceCh a = false := stripChars_revhead l a (by rw [hm]; rfl)
      rw [← hac]
      exact cleanCh_nonspace a ha

theorem map_cleanCh_map (m : List Char) :
    (m.map cleanCh).map cleanCh = m.map cleanCh := by
  induction m with
  | nil => rfl
  | cons a t ih =>
    rw [List.map_cons, List.map_cons, ih, cleanCh_idem]

theorem cleanKey_idem (k : String) : cleanKey (cleanKey k) = cleanKey k := by
  have hd : (cleanKey (cleanKey k)).data = (cleanKey k).data := by
    rw [cleanKey_data (cleanKey k), cleanKey_data k, stripChars_map_cleanCh,
      map_cleanCh_map]
  have h2 : String.mk (cleanKey (cleanKey k)).data = String.mk (cleanKey k).data := by
    rw [hd]
  exact h2

theorem mapKeyCtrl_idem (k : String) : mapKeyCtrl (mapKeyCtrl k) = mapKeyCtrl k := by
  cases hf : aliasLookup ctrlColumnMappings (cleanKey k) with
  | none =>
    have hx : mapKeyCtrl k = cleanKey k := by
      unfold mapKeyCtrl
      rw [hf]
      rfl
    rw [hx]
    unfold mapKeyCtrl
    rw [cleanKey_idem, hf]
    rfl
  | some m =>
    have hx : mapKeyCtrl k = m := by
      unfold mapKeyCtrl
      rw [hf]
      rfl
    rw [hx]
    unfold aliasLookup at hf
    cases hf2 : ctrlColumnMappings.find? (fun p => p.1 = cleanKey k) with
    | none => rw [hf2] at hf; simp at hf
    | some p =>
      rw [hf2] at hf
      have hm : p.2 = m := by simpa using hf
      subst hm
      have hmem := List.mem_of_find?_eq_some hf2
      fin_cases hmem <;> decide

theorem mem_dictSet (r : Rec) (k : String) (v : Val) (kv : String × Val)
    (h : kv ∈ dictSet r k v) : kv = (k, v) ∨ (kv ∈ r ∧ kv.1 ≠ k) := by
  unfold dictSet at h
  split at h
  · rw [List.mem_map] at h
    obtain ⟨x, hx, hxe⟩ := h
    by_cases hk : x.1 = k
    · rw [if_pos hk] at hxe
      exact Or.inl hxe.symm
    · rw [if_neg hk] at hxe
      rw [← hxe]
      exact Or.inr ⟨hx, hk⟩
  · next hany =>
    rw [List.mem_append] at h
    rcases h with h | h
    · refine Or.inr ⟨h, ?_⟩
      intro hk
      apply hany
      rw [List.any_eq_true]
      exact ⟨kv, h, by simp [hk]⟩
    · exact Or.inl (by simpa using h)

theorem recKeys_mapUpdate (r : Rec) (k : String) (v : Val) :
    recKeys (r.map (fun p => if p.1 = k then (k, v) else p)) = recKeys r := by
  induction r with
  | nil => rfl
  | cons x t ih =>
    unfold recKeys at ih ⊢
    rw [List.map_cons, List.map_cons, List.map_cons]
    by_cases hk : x.1 = k
    · rw [if_pos hk, ih]
      dsimp only
      rw [hk]
    · rw [if_neg hk, ih]

theorem recKeys_map_clean (r : Rec) :
    recKeys (r.map (fun kv => (kv.1, cleanEntryValue kv.1 kv.2))) = recKeys r := by
  induction r with
  | nil => rfl
  | cons x t ih =>
    unfold recKeys at ih ⊢
    rw [List.map_cons, List.map_cons, List.map_cons, ih]

theorem nodup_recKeys_dictSet (r : Rec) (k : String) (v : Val)
    (h : (recKeys r).Nodup) : (recKeys (dictSet r k v)).Nodup := by
  unfold dictSet
  split
  · rw [recKeys_mapUpdate]
    exact h
  · next hany =>
    have hnk : k ∉ recKeys r := by
      intro hk
      apply hany
      rw [List.any_eq_true]
      unfold recKeys at hk
      rw [List.mem_map] at hk
      obtain ⟨x, hx, hxk⟩ := hk
      exact ⟨x, hx, by simp [hxk]⟩
    unfold recKeys
    rw [List.map_append]
    rw [List.nodup_append]
    exact ⟨h, by simp, by
      intro a ha
      simp only [List.map_cons, List.map_nil, List.mem_singleton]
      intro he
      rw [he] at ha
      exact hnk ha⟩

theorem any_key_map_clean (r : Rec) (key : String) :
    (r.map (fun kv => (kv.1, cleanEntryValue kv.1 kv.2))).any
      (fun p => p.1 = key) = r.any (fun p => p.1 = key) := by
  induction r with
  | nil => rfl
  | cons x t ih =>
    rw [List.map_cons, List.any_cons, List.any_cons, ih]

theorem any_key_map_upd (r : Rec) (key k0 : String) (w : Val) :
    (r.map (fun p => if p.1 = k0 then (k0, w) else p)).any
      (fun p => p.1 = key) = r.any (fun p => p.1 = key) := by
  induction r with
  | nil => rfl
  | cons x t ih =>
    rw [List.map_cons, List.any_cons, List.any_cons, ih]
    by_cases hk : x.1 = k0
    · rw [if_pos hk]
      dsimp only
      rw [hk]
    · rw [if_neg hk]

theorem any_dictSet_self (r : Rec) (k : String) (v : Val) :
    (dictSet r k v).any (fun p => p.1 = k) = true := by
  unfold dictSet
  split
  · next h =>
    rw [List.any_eq_true] at h ⊢
    obtain ⟨x, hx, hxk⟩ := h
    refine ⟨if x.1 = k then (k, v) else x, List.mem_map_of_mem _ hx, ?_⟩
    rw [if_pos (of_decide_eq_true hxk)]
    simp
  · rw [List.any_append]
    simp

theorem any_dictSet_ne (r : Rec) (k key : String) (v : Val) (hne : key ≠ k) :
    (dictSet r k v).any (fun p => p.1 = key) = r.any (fun p => p.1 = key) := by
  unfold dictSet
  split
  · exact any_key_map_upd r key k v
  · rw [List.any_append]
    have : ([(k, v)] : Rec).any (fun p => p.1 = key) = false := by
      simp [Ne.symm hne]
    rw [this, Bool.or_false]

theorem dictSet_append_of_notin (acc : Rec) (k : String) (v : Val)
    (h : k ∉ recKeys acc) : dictSet acc k v = acc ++ [(k, v)] := by
  unfold dictSet
  rw [if_neg]
  intro hany
  rw [List.any_eq_true] at hany
  obtain ⟨p, hp, hpk⟩ := hany
  exact h (by
    unfold recKeys
    rw [List.mem_map]
    exact ⟨p, hp, of_decide_eq_true hpk⟩)

theorem notin_recKeys_of_nodup (acc : Rec) (x : String × Val) (t : Rec)
    (hnd : (recKeys (acc ++ x :: t)).Nodup) : x.1 ∉ recKeys acc := by
  unfold recKeys at hnd ⊢
  rw [List.map_append, List.nodup_append] at hnd
  intro hmem
  exact hnd.2.2 hmem (by simp)

theorem ctrl_fold_nodup :
    ∀ (l : Rec) (acc : Rec), (recKeys acc).Nodup →
      (recKeys (l.foldl (fun acc kv => dictSet acc (mapKeyCtrl kv.1) kv.2) acc)).Nodup := by
  intro l
  induction l with
  | nil => intro acc h; exact h
  | cons x t ih =>
    intro acc h
    rw [List.foldl_cons]
    exact ih _ (nodup_recKeys_dictSet _ _ _ h)

theorem ctrl_fold_keys :
    ∀ (l : Rec) (acc : Rec),
      (∀ x ∈ acc, mapKeyCtrl x.1 = x.1) →
      ∀ x ∈ l.foldl (fun acc kv => dictSet acc (mapKeyCtrl kv.1) kv.2) acc,
        mapKeyCtrl x.1 = x.1 := by
  intro l
  induction l with
  | nil => intro acc h; exact h
  | cons y t ih =>
    intro acc h x hx
    rw [List.foldl_cons] at hx
    refine ih _ ?_ x hx
    intro z hz
    rcases mem_dictSet _ _ _ z hz with hz1 | ⟨hz1, _⟩
    · rw [hz1]
      exact mapKeyCtrl_idem y.1
    · exact h z hz1

theorem ctrl_fold_fixed :
    ∀ (l : Rec) (acc : Rec),
      (recKeys (acc ++ l)).Nodup →
      (∀ x ∈ l, mapKeyCtrl x.1 = x.1) →
      l.foldl (fun acc kv => dictSet acc (mapKeyCtrl kv.1) kv.2) acc = acc ++ l := by
  intro l
  induction l with
  | nil => intro acc _ _; rw [List.foldl_nil, List.append_nil]
  | cons x t ih =>
    intro acc hnd hfix
    rw [List.foldl_cons]
    have hset : dictSet acc (mapKeyCtrl x.1) x.2 = acc ++ [(x.1, x.2)] := by
      rw [hfix x (by simp)]
      exact dictSet_append_of_notin acc x.1 x.2 (notin_recKeys_of_nodup acc x t hnd)
    rw [hset]
    have h2 := ih (acc ++ [(x.1, x.2)])
      (by rw [List.append_assoc]; exact hnd)
      (fun z hz => hfix z (by simp [hz]))
    rw [h2, List.append_assoc]
    rfl

theorem map_column_names_nodup (r : Rec) : (recKeys (map_column_names r)).Nodup := by
  unfold map_column_names
  exact ctrl_fold_nodup r [] (by simp [recKeys])

theorem map_column_names_keys (r : Rec) :
    ∀ x ∈ map_column_names r, mapKeyCtrl x.1 = x.1 := by
  unfold map_column_names
  exact ctrl_fold_keys r [] (by simp)

theorem map_column_names_fixed (l : Rec) (hnd : (recKeys l).Nodup)
    (hfix : ∀ x ∈ l, mapKeyCtrl x.1 = x.1) : map_column_names l = l := by
  unfold map_column_names
  rw [ctrl_fold_fixed l [] (by simpa using hnd) hfix, List.nil_append]

theorem trcf_value_ok (k0 m : String)
    (h : aliasLookup trcfColumnMappings k0 = some m) :
    aliasLookup trcfColumnMappings m = Option.none ∧ m ≠ "file_location" := by
  unfold aliasLookup at h
  cases hf : trcfColumnMappings.find? (fun p => p.1 = k0) with
  | none => rw [hf] at h; simp at h
  | some p =>
    rw [hf] at h
    have hm : p.2 = m := by simpa using h
    subst hm
    have hmem := List.mem_of_find?_eq_some hf
    fin_cases hmem <;> exact ⟨by decide, by decide⟩

theorem trcf_fold_nodup :
    ∀ (l : Rec) (acc : Rec), (recKeys acc).Nodup →
      (recKeys (l.foldl (fun acc kv =>
        match aliasLookup trcfColumnMappings kv.1 with
        | some m => dictSet acc m kv.2
        | Option.none =>
          if kv.1 = "file_location" then acc else dictSet acc kv.1 kv.2) acc)).Nodup := by
  intro l
  induction l with
  | nil => intro acc h; exact h
  | cons y t ih =>
    intro acc h
    rw [List.foldl_cons]
    refine ih _ ?_
    show (recKeys (match aliasLookup trcfColumnMappings y.1 with
      | some m => dictSet acc m y.2
      | Option.none =>
        if y.1 = "file_location" then acc else dictSet acc y.1 y.2)).Nodup
    cases halias : aliasLookup trcfColumnMappings y.1 with
    | some m => exact nodup_recKeys_dictSet acc m y.2 h
    | none =>
      by_cases hfl : y.1 = "file_location"
      · rw [if_pos hfl]
        exact h
      · rw [if_neg hfl]
        exact nodup_recKeys_dictSet acc y.1 y.2 h

theorem trcf_fold_keys :
    ∀ (l : Rec) (acc : Rec),
      (∀ x ∈ acc, aliasLookup trcfColumnMappings x.1 = Option.none ∧
        x.1 ≠ "file_location") →
      ∀ x ∈ l.foldl (fun acc kv =>
        match aliasLookup trcfColumnMappings kv.1 with
        | some m => dictSet acc m kv.2
        | Option.none =>
          if kv.1 = "file_location" then acc else dictSet acc kv.1 kv.2) acc,
        aliasLookup trcfColumnMappings x.1 = Option.none ∧ x.1 ≠ "file_location" := by
  intro l
  induction l with
  | nil => intro acc h; exact h
  | cons y t ih =>
    intro acc h x hx
    rw [List.foldl_cons] at hx
    cases halias : aliasLookup trcfColumnMappings y.1 with
    | some m =>
      rw [halias] at hx
      refine ih _ ?_ x hx
      intro z hz
      rcases mem_dictSet _ _ _ z hz with hz1 | ⟨hz1, _⟩
      · rw [hz1]
        exact trcf_value_ok y.1 m halias
      · exact h z hz1
    | none =>
      rw [halias] at hx
      dsimp only at hx
      by_cases hfl : y.1 = "file_location"
      · rw [if_pos hfl] at hx
        exact ih _ h x hx
      · rw [if_neg hfl] at hx
        refine ih _ ?_ x hx
        intro z hz
        rcases mem_dictSet _ _ _ z hz with hz1 | ⟨hz1, _⟩
        · rw [hz1]
          exact ⟨halias, hfl⟩
        · exact h z hz1

theorem trcf_fold_fixed :
    ∀ (l : Rec) (acc : Rec),
      (recKeys (acc ++ l)).Nodup →
      (∀ x ∈ l, aliasLookup trcfColumnMappings x.1 = Option.none ∧
        x.1 ≠ "file_location") →
      l.foldl (fun acc kv =>
        match aliasLookup trcfColumnMappings kv.1 with
        | some m => dictSet acc m kv.2
        | Option.none =>
          if kv.1 = "file_location" then acc else dictSet acc kv.1 kv.2) acc =
        acc ++ l := by
  intro l
  induction l with
  | nil => intro acc _ _; rw [List.foldl_nil, List.append_nil]
  | cons x t ih =>
    intro acc hnd hP
    rw [List.foldl_cons]
    obtain ⟨halias, hfl⟩ := hP x (by simp)
    rw [halias]
    dsimp only
    rw [if_neg hfl,
      dictSet_append_of_notin acc x.1 x.2 (notin_recKeys_of_nodup acc x t hnd)]
    have h2 := ih (acc ++ [(x.1, x.2)])
      (by rw [List.append_assoc]; exact hnd)
      (fun z hz => hP z (by simp [hz]))
    rw [h2, List.append_assoc]
    rfl

theorem map_trcfeco2_nodup (r : Rec) : (recKeys (map_trcfeco2_columns r)).Nodup := by
  unfold map_trcfeco2_columns
  exact trcf_fold_nodup r [] (by simp [recKeys])

theorem map_trcfeco2_keys (r : Rec) :
    ∀ x ∈ map_trcfeco2_columns r,
      aliasLookup trcfColumnMappings x.1 = Option.none ∧ x.1 ≠ "file_location" := by
  unfold map_trcfeco2_columns
  exact trcf_fold_keys r [] (by simp)

theorem map_trcfeco2_fixed (l : Rec) (hnd : (recKeys l).Nodup)
    (hP : ∀ x ∈ l, aliasLookup trcfColumnMappings x.1 = Option.none ∧
      x.1 ≠ "file_location") : map_trcfeco2_columns l = l := by
  unfold map_trcfeco2_columns
  rw [trcf_fold_fixed l [] (by simpa using hnd) hP, List.nil_append]

theorem map3_id {α : Type} (f g h : α → α) :
    ∀ (l : List α), (∀ x ∈ l, h (g (f x)) = x) → ((l.map f).map g).map h = l := by
  intro l
  induction l with
  | nil => intro; rfl
  | cons a t ih =>
    intro hp
    rw [List.map_cons, List.map_cons, List.map_cons, hp a (by simp),
      ih (fun x hx => hp x (by simp [hx]))]

theorem dictSet_update_of_any (r : Rec) (k : String) (v : Val)
    (h : r.any (fun p => p.1 = k) = true) :
    dictSet r k v = r.map (fun p => if p.1 = k then (k, v) else p) := by
  unfold dictSet
  rw [if_pos h]

/-- Re-cleaning the entries of a metadata-stamped record and re-stamping
the two metadata fields restores the record unchanged. -/
theorem set_clean_set (C : Rec) (v1 v2 : Val)
    (hC : ∀ kv ∈ C, cleanEntryValue kv.1 kv.2 = kv.2) :
    dictSet (dictSet ((dictSet (dictSet C "data_source" v1) "batch_number" v2).map
      (fun kv => (kv.1, cleanEntryValue kv.1 kv.2))) "data_source" v1)
      "batch_number" v2 =
    dictSet (dictSet C "data_source" v1) "batch_number" v2 := by
  have hMds : ((dictSet (dictSet C "data_source" v1) "batch_number" v2).map
      (fun kv => (kv.1, cleanEntryValue kv.1 kv.2))).any
      (fun p => p.1 = "data_source") = true := by
    rw [any_key_map_clean, any_dictSet_ne _ _ _ _ (by decide)]
    exact any_dictSet_self _ _ _
  rw [dictSet_update_of_any _ _ _ hMds]
  have hNbn : (((dictSet (dictSet C "data_source" v1) "batch_number" v2).map
      (fun kv => (kv.1, cleanEntryValue kv.1 kv.2))).map
      (fun p => if p.1 = "data_source" then ("data_source", v1) else p)).any
      (fun p => p.1 = "batch_number") = true := by
    rw [any_key_map_upd, any_key_map_clean]
    exact any_dictSet_self _ _ _
  rw [dictSet_update_of_any _ _ _ hNbn]
  apply map3_id
  intro kv hkv
  rcases mem_dictSet _ _ _ kv hkv with hbn | ⟨hkv2, hne_bn⟩
  · subst hbn
    dsimp only
    have e1 : (if ("batch_number" : String) = "data_source"
        then (("data_source" : String), v1)
        else (("batch_number" : String), cleanEntryValue "batch_number" v2)) =
        (("batch_number" : String), cleanEntryValue "batch_number" v2) :=
      if_neg (by decide)
    rw [e1]
    dsimp only
    rw [if_pos rfl]
  · rcases mem_dictSet _ _ _ kv hkv2 with hds | ⟨hkv3, hne_ds⟩
    · subst hds
      dsimp only
      have e1 : (if ("data_source" : String) = "data_source"
          then (("data_source" : String), v1)
          else (("data_source" : String), cleanEntryValue "data_source" v1)) =
          (("data_source" : String), v1) := if_pos rfl
      rw [e1]
      dsimp only
      rw [if_neg (show ("data_source" : String) ≠ "batch_number" by decide)]
    · dsimp only
      rw [hC kv hkv3]
      have e1 : (if kv.1 = "data_source" then (("data_source" : String), v1)
          else (kv.1, kv.2)) = (kv.1, kv.2) := if_neg hne_ds
      rw [e1]
      dsimp only
      rw [if_neg hne_bn]

/-- C8: record normalization (`_clean_record`) is idempotent — cleaning an
already-cleaned record (any product) returns it unchanged, key for key and
value for value. -/
theorem C8_clean_record_idempotent (product_id : String) (record : Rec) :
    clean_record product_id (clean_record product_id record) =
      clean_record product_id record := by
  by_cases hpid : product_id = "TRCFECO2"
  · have hcr : ∀ s : Rec, clean_record product_id s =
        dictSet (dictSet ((map_trcfeco2_columns s).map
          (fun kv => (kv.1, cleanEntryValue kv.1 kv.2))) "data_source"
          (.str (product_id ++ " [CSV]"))) "batch_number" (.int 0) := by
      intro s
      unfold clean_record
      rw [if_pos hpid]
    have hCclean : ∀ kv ∈ (map_trcfeco2_columns record).map
        (fun kv => (kv.1, cleanEntryValue kv.1 kv.2)),
        cleanEntryValue kv.1 kv.2 = kv.2 := by
      intro kv hkv
      rw [List.mem_map] at hkv
      obtain ⟨x, hx, hxe⟩ := hkv
      rw [← hxe]
      exact cleanEntryValue_idem x.1 x.2
    have hnodup : (recKeys (clean_record product_id record)).Nodup := by
      rw [hcr record]
      apply nodup_recKeys_dictSet
      apply nodup_recKeys_dictSet
      rw [recKeys_map_clean]
      exact map_trcfeco2_nodup record
    have hPout : ∀ x ∈ clean_record product_id record,
        aliasLookup trcfColumnMappings x.1 = Option.none ∧
          x.1 ≠ "file_location" := by
      rw [hcr record]
      intro x hx
      rcases mem_dictSet _ _ _ x hx with hbn | ⟨hx2, _⟩
      · rw [hbn]
        exact ⟨(by decide :
            aliasLookup trcfColumnMappings "batch_number" = Option.none),
          (by decide : ("batch_number" : String) ≠ "file_location")⟩
      · rcases mem_dictSet _ _ _ x hx2 with hds | ⟨hx3, _⟩
        · rw [hds]
          exact ⟨(by decide :
              aliasLookup trcfColumnMappings "data_source" = Option.none),
            (by decide : ("data_source" : String) ≠ "file_location")⟩
        · rw [List.mem_map] at hx3
          obtain ⟨y, hy, hye⟩ := hx3
          have hyk := map_trcfeco2_keys record y hy
          rw [← hye]
          exact hyk
    have hmap2 : map_trcfeco2_columns (clean_record product_id record) =
        clean_record product_id record :=
      map_trcfeco2_fixed _ hnodup hPout
    rw [hcr (clean_record product_id record), hmap2, hcr record]
    exact set_clean_set _ _ _ hCclean
  · have hcr : ∀ s : Rec, clean_record product_id s =
        dictSet (dictSet ((map_column_names s).map
          (fun kv => (kv.1, cleanEntryValue kv.1 kv.2))) "data_source"
          (.str (product_id ++ " [CSV]"))) "batch_number" (.int 0) := by
      intro s
      unfold clean_record
      rw [if_neg hpid]
    have hCclean : ∀ kv ∈ (map_column_names record).map
        (fun kv => (kv.1, cleanEntryValue kv.1 kv.2)),
        cleanEntryValue kv.1 kv.2 = kv.2 := by
      intro kv hkv
      rw [List.mem_map] at hkv
      obtain ⟨x, hx, hxe⟩ := hkv
      rw [← hxe]
      exact cleanEntryValue_idem x.1 x.2
    have hnodup : (recKeys (clean_record product_id record)).Nodup := by
      rw [hcr record]
      apply nodup_recKeys_dictSet
      apply nodup_recKeys_dictSet
      rw [recKeys_map_clean]
      exact map_column_names_nodup record
    have hPout : ∀ x ∈ clean_record product_id record, mapKeyCtrl x.1 = x.1 := by
      rw [hcr record]
      intro x hx
      rcases mem_dictSet _ _ _ x hx with hbn | ⟨hx2, _⟩
      · rw [hbn]
        exact (by decide : mapKeyCtrl "batch_number" = "batch_number")
      · rcases mem_dictSet _ _ _ x hx2 with hds | ⟨hx3, _⟩
        · rw [hds]
          exact (by decide : mapKeyCtrl "data_source" = "data_source")
        · rw [List.mem_map] at hx3
          obtain ⟨y, hy, hye⟩ := hx3
          have hyk := map_column_names_keys record y hy
          rw [← hye]
          exact hyk
    have hmap2 : map_column_names (clean_record product_id record) =
        clean_record product_id record :=
      map_column_names_fixed _ hnodup hPout
    rw [hcr (clean_record product_id record), hmap2, hcr record]
    exact set_clean_set _ _ _ hCclean

end USPTO
